import Mathlib

/-!
# Polaris backend: authentication, session tokens and the response layer

A shallow embedding of the Go sources of `wxlbd/polaris`:

* `pkg/errors/errors.go`            : `ErrorCode`, `AppError`, the predefined errors
* `pkg/response/response.go`        : `getHTTPStatus`, `Error`
* `internal/domain/entity/user.go`  : `User`
* `internal/infrastructure/persistence/user_repository_impl.go` :
  `Create`, `FindByOpenID`, `Update`
* `internal/application/service/auth_service.go` :
  `WechatLogin`, `RefreshToken`, `GetUserInfo`, `UpdateUserInfo`, `generateToken`
* `internal/interface/middleware/auth.go` : `Auth`
* `internal/domain/valueobject/money.go`, `internal/domain/service/payment_domain_service.go` :
  `Money`, `NewMoney`, `CalculateRefundAmount`
* `internal/domain/entity/app_version.go`,
  `internal/infrastructure/persistence/app_version_repository_impl.go`,
  `internal/application/service/app_version_service.go` :
  `FindActive`, `FindByVersion`, `SetActive`, `GetCurrentVersion`, `CreateVersion`,
  `SetActiveVersion`
* `internal/application/service/upload_service.go` :
  `UploadFile`, `getSubDir`, `generateFilename`, `saveFile`
* `internal/domain/service/payment_domain_service.go` : `CanRefund`
* `internal/domain/valueobject/phone.go` : `NewPhone`, `NewPhoneWithCountryCode`, `Masked`
* `internal/domain/service/notification_domain_service.go` :
  `SendNotification`, `SendMultiChannelNotification`
* `pkg/utils/string.go` : `ParseScene`, `BuildScene`

Conventions.  Go `int`/`int64` values are `Int`; the one place where 64-bit
wrap-around is reachable (`time.Hour * time.Duration(ExpireHours)`) wraps
explicitly.  Instants are `Int` nanoseconds since the Unix epoch.  The users
table is an explicit list of rows; everything a call reads from the outside
world (the identity exchange, the clocks, a failing database round trip, the
id the database hands out, the failures of the file system) is an explicit
input.  The JWT library, which is not part of the repository, is a parameter
(`JWT`), and so is `strings.ToLower`; the WeChat SDK is present through what
`Code2SessionContext` returns and through its contract (`ExchangeContract`).  The rules of GORM that decide what a
repository method does (soft-delete filter, zero values in `Updates` and in
`Create`, updates without a condition) are stated at the definitions that
model them.  A Go string is a `String`; where the code counts bytes
(`Masked`), the UTF-8 bytes are computed.  A Go map is the list of its
entries in the order a `range` loop visits them.  An implementation of the
interface `NotificationSender` is a record of functions on a state.
-/

namespace Polaris

/-! ## pkg/errors -/

/-- Error codes are Go `int` constants (`type ErrorCode int`). -/
abbrev ErrorCode := Int

def Success : ErrorCode := 0
def ParamError : ErrorCode := 1001
def Unauthorized : ErrorCode := 1002
def NotFound : ErrorCode := 1003
def Conflict : ErrorCode := 1004
def PermissionDenied : ErrorCode := 1005
def InternalError : ErrorCode := 2001
def DatabaseError : ErrorCode := 2002
def CacheError : ErrorCode := 2003
def UserNotFound : ErrorCode := 3001
def InvalidToken : ErrorCode := 3002
def TokenExpired : ErrorCode := 3003
def BabyNotFound : ErrorCode := 3004
def FamilyNotFound : ErrorCode := 3005
def InvalidInvitation : ErrorCode := 3006
def RecordNotFound : ErrorCode := 3007

/-- The struct `AppError`; `Err` is the wrapped cause, kept as its text. -/
structure AppError where
  Code : ErrorCode
  Message : String
  Err : Option String
deriving DecidableEq, Repr

/-- The function `errors.New`. -/
def New (code : ErrorCode) (message : String) : AppError :=
  { Code := code, Message := message, Err := none }

/-- The function `errors.Wrap`. -/
def Wrap (code : ErrorCode) (message : String) (err : String) : AppError :=
  { Code := code, Message := message, Err := some err }

def ErrParamInvalid : AppError := New ParamError "参数错误"
def ErrUnauthorized : AppError := New Unauthorized "未授权"
def ErrNotFound : AppError := New NotFound "资源不存在"
def ErrUserNotFound : AppError := New UserNotFound "用户不存在"
def ErrInvalidToken : AppError := New InvalidToken "无效的令牌"
def ErrTokenExpired : AppError := New TokenExpired "令牌已过期"

/-- A Go `error` value as the response layer sees it: an `*AppError`, or any
other error. -/
inductive GoError where
  | app (e : AppError)
  | plain (msg : String)
deriving DecidableEq, Repr

/-! ## pkg/response -/

/-- The function `getHTTPStatus` (response.go, lines 63-82): the `switch` on
the error code, case by case. -/
def getHTTPStatus (code : ErrorCode) : Int :=
  if code = Success then 200
  else if code = ParamError then 400
  else if code = Unauthorized ∨ code = InvalidToken ∨ code = TokenExpired then 401
  else if code = NotFound ∨ code = UserNotFound ∨ code = BabyNotFound
      ∨ code = FamilyNotFound ∨ code = RecordNotFound then 404
  else if code = Conflict then 409
  else if code = PermissionDenied then 403
  else 500

/-- The JSON body `Response` of an error reply (`Data` is never set there). -/
structure Response where
  Code : Int
  Message : String
  Timestamp : Int
deriving DecidableEq, Repr

/-- What `c.JSON(status, body)` writes. -/
structure HTTPReply where
  Status : Int
  Body : Response
deriving DecidableEq, Repr

/-- The function `response.Error` (response.go, lines 29-50); `now` is the
clock it reads for the timestamp, in nanoseconds. -/
def Error (now : Int) (err : GoError) : HTTPReply :=
  match err with
  | .plain _ =>
      { Status := 500,
        Body := { Code := InternalError, Message := "服务器内部错误",
                  Timestamp := now / 1000000000 } }
  | .app appErr =>
      { Status := getHTTPStatus appErr.Code,
        Body := { Code := appErr.Code, Message := appErr.Message,
                  Timestamp := now / 1000000000 } }

/-! ## Session tokens -/

/-- The section `jwt` of the configuration (`JWTConfig`). -/
structure JWTConfig where
  Secret : String
  ExpireHours : Int
deriving DecidableEq, Repr

/-- The fields of `jwt.RegisteredClaims` this program sets or reads.
`ExpiresAt` and `IssuedAt` are pointers in Go, hence optional; instants are
nanoseconds since the Unix epoch. -/
structure RegisteredClaims where
  Subject : String
  ExpiresAt : Option Int
  IssuedAt : Option Int
deriving DecidableEq, Repr

/-- The parsed `*jwt.Token` as far as the middleware looks at it. -/
structure Token where
  Valid : Bool
  Claims : RegisteredClaims
deriving DecidableEq, Repr

/-- The error kinds `jwt.ParseWithClaims` distinguishes. -/
inductive JWTError where
  | Malformed
  | SignatureInvalid
  | Expired
  | Other (msg : String)
deriving DecidableEq, Repr

/-- The JWT library (`github.com/golang-jwt/jwt/v5`) as used by the program.
`SignedString claims key` is `jwt.NewWithClaims(HS256, claims).SignedString(key)`;
`ParseWithClaims tokenString key now` is `jwt.ParseWithClaims` with a key
function that returns `key`, run when the library's clock reads `now`. -/
structure JWT where
  SignedString : RegisteredClaims → String → Except String String
  ParseWithClaims : String → String → Int → Except JWTError Token

/-- The library's contract for verification: a string signed under `key`
parses under the same `key` to a valid token with the same claims at every
instant strictly before the claims' expiry. -/
def JWT.RoundTrip (jwt : JWT) : Prop :=
  ∀ (c : RegisteredClaims) (key t : String) (exp now : Int),
    jwt.SignedString c key = .ok t → c.ExpiresAt = some exp → now < exp →
      jwt.ParseWithClaims t key now = .ok { Valid := true, Claims := c }

/-- Wrap-around of Go's `int64` arithmetic. -/
def wrapInt64 (x : Int) : Int := (x + 2 ^ 63) % 2 ^ 64 - 2 ^ 63

/-- The constant `time.Hour`, in nanoseconds. -/
def Hour : Int := 3600000000000

/-- The function `jwt.NewNumericDate`: the instant truncated to the library's
`TimePrecision`, one second. -/
def NewNumericDate (t : Int) : Int := t / 1000000000 * 1000000000

/-- The claims set built by `generateToken` (auth_service.go, lines 167-172)
when the clock reads `now`. -/
def tokenClaims (cfg : JWTConfig) (now : Int) (openID : String) : RegisteredClaims :=
  { Subject := openID,
    ExpiresAt := some (NewNumericDate (now + wrapInt64 (Hour * cfg.ExpireHours))),
    IssuedAt := some (NewNumericDate now) }

/-- The method `AuthService.generateToken` (auth_service.go, lines 165-181). -/
def generateToken (cfg : JWTConfig) (jwt : JWT) (now : Int) (openID : String) :
    Except AppError String :=
  match jwt.SignedString (tokenClaims cfg now openID) cfg.Secret with
  | .error err => .error (Wrap InternalError "生成Token失败" err)
  | .ok tokenString => .ok tokenString

/-! ## The users table -/

/-- The entity `User` (user.go): one row of the table `users`.  Timestamps
are milliseconds; `DeletedAt` is the soft-delete column, `0` for a live row. -/
structure User where
  ID : Int
  OpenID : String
  NickName : String
  AvatarURL : String
  LastLoginTime : Int
  CreatedAt : Int
  UpdatedAt : Int
  DeletedAt : Int
deriving DecidableEq, Repr

/-- The table `users` as explicit state. -/
abbrev UserTable := List User

/-- The zero value of the Go struct. -/
def User.zero : User :=
  { ID := 0, OpenID := "", NickName := "", AvatarURL := "", LastLoginTime := 0,
    CreatedAt := 0, UpdatedAt := 0, DeletedAt := 0 }

/-- What a GORM call can report. -/
inductive GormError where
  | ErrRecordNotFound
  | Other (msg : String)
deriving DecidableEq, Repr

/-- The row with the smallest primary key (`ORDER BY id LIMIT 1`). -/
def firstByID : List User → Option User
  | [] => none
  | u :: us =>
    match firstByID us with
    | none => some u
    | some v => if u.ID ≤ v.ID then some u else some v

/-- The query `db.Where("openid = ?", openID).First(&user)`.  The entity has a
soft-delete column, so GORM adds `deleted_at = 0`; `First` orders by primary
key and reports `ErrRecordNotFound` when no row matches.  `fault` is a failure
of the round trip to the database, when there is one. -/
def gormFirstByOpenID (db : UserTable) (openID : String) (fault : Option String) :
    Except GormError User :=
  match fault with
  | some msg => .error (.Other msg)
  | none =>
    match firstByID (db.filter (fun u => u.OpenID = openID ∧ u.DeletedAt = 0)) with
    | none => .error .ErrRecordNotFound
    | some u => .ok u

/-- The method `userRepositoryImpl.FindByOpenID` (lines 31-46). -/
def FindByOpenID (db : UserTable) (openID : String) (fault : Option String) :
    Except AppError User :=
  match gormFirstByOpenID db openID fault with
  | .error .ErrRecordNotFound => .error ErrUserNotFound
  | .error (.Other msg) => .error (Wrap DatabaseError "failed to find user" msg)
  | .ok user => .ok user

/-- The row an `INSERT` of `user` stores: a zero primary key is replaced by
the id the database hands out (`newID`).  The columns `created_at` and
`updated_at` carry the tag `default:0` next to `autoCreateTime` and
`autoUpdateTime`: for a zero value GORM stores that default and does not
consult its clock (`_dbNow`), so a zero stays zero. -/
def insertedRow (user : User) (newID _dbNow : Int) : User :=
  { user with
    ID := if user.ID = 0 then newID else user.ID,
    CreatedAt := if user.CreatedAt = 0 then 0 else user.CreatedAt,
    UpdatedAt := if user.UpdatedAt = 0 then 0 else user.UpdatedAt }

/-- The call `db.Create(user)`.  The table has a primary key on `id` and a
unique index on `openid` (the `uniqueIndex` tag of the entity); an insert that
breaks either fails and stores nothing. -/
def gormCreate (db : UserTable) (user : User) (newID dbNow : Int) (fault : Option String) :
    Except GormError UserTable :=
  match fault with
  | some msg => .error (.Other msg)
  | none =>
    let row := insertedRow user newID dbNow
    if db.any (fun r => r.ID = row.ID ∨ r.OpenID = row.OpenID) then
      .error (.Other "duplicate key value violates unique constraint")
    else .ok (db ++ [row])

/-- The method `userRepositoryImpl.Create` (lines 23-29). -/
def Create (db : UserTable) (user : User) (newID dbNow : Int) (fault : Option String) :
    Except AppError UserTable :=
  match gormCreate db user newID dbNow fault with
  | .error .ErrRecordNotFound => .error (Wrap DatabaseError "failed to create user" "record not found")
  | .error (.Other msg) => .error (Wrap DatabaseError "failed to create user" msg)
  | .ok db' => .ok db'

/-- The `SET` clause of `Updates(user)` with a struct argument applied to one
row: GORM assigns only the fields of `user` that are not the zero value of
their type, and always refreshes the `autoUpdateTime` column. -/
def updatesRow (row user : User) (dbNow : Int) : User :=
  { ID := if user.ID = 0 then row.ID else user.ID,
    OpenID := if user.OpenID = "" then row.OpenID else user.OpenID,
    NickName := if user.NickName = "" then row.NickName else user.NickName,
    AvatarURL := if user.AvatarURL = "" then row.AvatarURL else user.AvatarURL,
    LastLoginTime := if user.LastLoginTime = 0 then row.LastLoginTime else user.LastLoginTime,
    CreatedAt := if user.CreatedAt = 0 then row.CreatedAt else user.CreatedAt,
    UpdatedAt := dbNow,
    DeletedAt := if user.DeletedAt = 0 then row.DeletedAt else user.DeletedAt }

/-- The call `db.Model(&entity.User{}).Where("openid = ?", user.OpenID).Updates(user)`:
every live row with that openid is updated; no matching row is not an error. -/
def gormUpdates (db : UserTable) (user : User) (dbNow : Int) (fault : Option String) :
    Except GormError UserTable :=
  match fault with
  | some msg => .error (.Other msg)
  | none =>
    .ok (db.map (fun r =>
      if r.OpenID = user.OpenID ∧ r.DeletedAt = 0 then updatesRow r user dbNow else r))

/-- The method `userRepositoryImpl.Update` (lines 65-77). -/
def Update (db : UserTable) (user : User) (dbNow : Int) (fault : Option String) :
    Except AppError UserTable :=
  match gormUpdates db user dbNow fault with
  | .error .ErrRecordNotFound => .error (Wrap DatabaseError "failed to update user" "record not found")
  | .error (.Other msg) => .error (Wrap DatabaseError "failed to update user" msg)
  | .ok db' => .ok db'

/-! ## internal/application -/

/-- The DTO `WechatLoginRequest`. -/
structure WechatLoginRequest where
  Code : String
  NickName : String
  AvatarURL : String
deriving DecidableEq, Repr

/-- The DTO `UserInfoDTO`. -/
structure UserInfoDTO where
  OpenID : String
  NickName : String
  AvatarURL : String
  CreateTime : Int
  LastLoginTime : Int
deriving DecidableEq, Repr

/-- The DTO `LoginResponse`. -/
structure LoginResponse where
  Token : String
  UserInfo : UserInfoDTO
  IsNewUser : Bool
deriving DecidableEq, Repr

/-- The DTO `RefreshTokenResponse`. -/
structure RefreshTokenResponse where
  Token : String
  ExpiresIn : Int
deriving DecidableEq, Repr

/-- The DTO `UpdateUserInfoRequest`. -/
structure UpdateUserInfoRequest where
  NickName : String
  AvatarURL : String
deriving DecidableEq, Repr

/-- The result `ResCode2Session` of the identity exchange, as far as the
service reads it. -/
structure ResCode2Session where
  OpenID : String
  ErrCode : Int
  ErrMsg : String
deriving DecidableEq, Repr

/-- What `AuthService` is constructed with: the configuration and the JWT
library. -/
structure Deps where
  cfg : JWTConfig
  jwt : JWT

/-- Everything one `WechatLogin` call reads from outside: the pair returned
by `Code2SessionContext`, a failing database round trip for the lookup and
for the write (when there is one), the id the database hands out on insert,
and the clocks (`now` for `LastLoginTime`, `tokenNow` inside `generateToken`,
both in nanoseconds; `dbNow` is GORM's clock in milliseconds). -/
structure LoginEnv where
  session : ResCode2Session
  exchangeErr : Option String
  findFault : Option String
  writeFault : Option String
  newID : Int
  now : Int
  dbNow : Int
  tokenNow : Int
deriving DecidableEq, Repr

/-- The contract of the SDK method `Auth.Code2SessionContext`
(`github.com/silenceper/wechat/v2/miniprogram/auth`), which is not part of the
repository: it returns an error when the request fails, when the answer cannot
be decoded, and also whenever the decoded answer carries a non-zero
`errcode`.  So a session that comes without an error has `ErrCode = 0`. -/
def ExchangeContract (env : LoginEnv) : Prop :=
  env.exchangeErr = none → env.session.ErrCode = 0

/-- The repository methods a service call invoked, in order. -/
inductive RepoCall where
  | FindByOpenID
  | Create
  | Update
deriving DecidableEq, Repr

/-- The outcome of a service call that may write: what it returned, the table
afterwards, and the repository methods it called. -/
structure Outcome (α : Type) where
  result : Except AppError α
  db : UserTable
  calls : List RepoCall

/-- The value `time.Now().UnixMilli()` for a clock reading in nanoseconds. -/
def UnixMilli (now : Int) : Int := now / 1000000

/-- The tail of `WechatLogin` (auth_service.go, lines 86-100): token and
response for `user`. -/
def loginResponse (d : Deps) (tokenNow : Int) (user : User) (isNewUser : Bool) :
    Except AppError LoginResponse :=
  match generateToken d.cfg d.jwt tokenNow user.OpenID with
  | .error err => .error err
  | .ok token =>
    .ok { Token := token,
          UserInfo := { OpenID := user.OpenID, NickName := user.NickName,
                        AvatarURL := user.AvatarURL, CreateTime := 0, LastLoginTime := 0 },
          IsNewUser := isNewUser }

/-- The user `WechatLogin` builds when the lookup found none
(auth_service.go, lines 63-68). -/
def newUser (req : WechatLoginRequest) (env : LoginEnv) : User :=
  { User.zero with
    OpenID := env.session.OpenID, NickName := req.NickName,
    AvatarURL := req.AvatarURL, LastLoginTime := UnixMilli env.now }

/-- The user `WechatLogin` hands to `Update` when the lookup found one
(auth_service.go, lines 77-79). -/
def touchedUser (found : User) (req : WechatLoginRequest) (env : LoginEnv) : User :=
  { found with
    NickName := req.NickName, AvatarURL := req.AvatarURL, LastLoginTime := UnixMilli env.now }

/-- The method `AuthService.WechatLogin` (auth_service.go, lines 37-101). -/
def WechatLogin (d : Deps) (db : UserTable) (req : WechatLoginRequest) (env : LoginEnv) :
    Outcome LoginResponse :=
  match env.exchangeErr with
  | some err => ⟨.error (Wrap InternalError "调用微信API失败" err), db, []⟩
  | none =>
    if env.session.ErrCode ≠ 0 then
      ⟨.error (New Unauthorized ("微信登录失败: " ++ env.session.ErrMsg)), db, []⟩
    else
      match FindByOpenID db env.session.OpenID env.findFault with
      | .error err =>
        if err ≠ ErrUserNotFound then ⟨.error err, db, [.FindByOpenID]⟩
        else
          match Create db (newUser req env) env.newID env.dbNow env.writeFault with
          | .error err => ⟨.error err, db, [.FindByOpenID, .Create]⟩
          | .ok db' =>
            ⟨loginResponse d env.tokenNow (newUser req env) true, db', [.FindByOpenID, .Create]⟩
      | .ok found =>
        match Update db (touchedUser found req env) env.dbNow env.writeFault with
        | .error err => ⟨.error err, db, [.FindByOpenID, .Update]⟩
        | .ok db' =>
          ⟨loginResponse d env.tokenNow (touchedUser found req env) false, db',
            [.FindByOpenID, .Update]⟩

/-- The method `AuthService.RefreshToken` (auth_service.go, lines 103-120);
`ExpiresIn` is left at its zero value. -/
def RefreshToken (d : Deps) (db : UserTable) (openID : String) (findFault : Option String)
    (tokenNow : Int) : Except AppError RefreshTokenResponse :=
  match FindByOpenID db openID findFault with
  | .error err => .error err
  | .ok user =>
    match generateToken d.cfg d.jwt tokenNow user.OpenID with
    | .error err => .error err
    | .ok token => .ok { Token := token, ExpiresIn := 0 }

/-- The method `AuthService.GetUserInfo` (auth_service.go, lines 122-136). -/
def GetUserInfo (db : UserTable) (openID : String) (findFault : Option String) :
    Except AppError UserInfoDTO :=
  match FindByOpenID db openID findFault with
  | .error err => .error err
  | .ok user =>
    .ok { OpenID := user.OpenID, NickName := user.NickName, AvatarURL := user.AvatarURL,
          CreateTime := user.CreatedAt, LastLoginTime := user.LastLoginTime }

/-- The user `UpdateUserInfo` hands to `Update` (auth_service.go, lines 147-148). -/
def editedUser (found : User) (req : UpdateUserInfoRequest) : User :=
  { found with NickName := req.NickName, AvatarURL := req.AvatarURL }

/-- The method `AuthService.UpdateUserInfo` (auth_service.go, lines 138-163). -/
def UpdateUserInfo (db : UserTable) (openID : String) (req : UpdateUserInfoRequest)
    (findFault writeFault : Option String) (dbNow : Int) : Outcome UserInfoDTO :=
  match FindByOpenID db openID findFault with
  | .error err => ⟨.error err, db, [.FindByOpenID]⟩
  | .ok found =>
    match Update db (editedUser found req) dbNow writeFault with
    | .error err => ⟨.error err, db, [.FindByOpenID, .Update]⟩
    | .ok db' =>
      ⟨.ok { OpenID := (editedUser found req).OpenID, NickName := (editedUser found req).NickName,
             AvatarURL := (editedUser found req).AvatarURL,
             CreateTime := (editedUser found req).CreatedAt,
             LastLoginTime := (editedUser found req).LastLoginTime },
       db', [.FindByOpenID, .Update]⟩

/-! ## internal/interface/middleware -/

/-- Cut a string at the first occurrence of `sep`: what stands before it and
what stands after it, when there is one. -/
def cutAt (sep : Char) : List Char → Option (List Char × List Char)
  | [] => none
  | c :: cs =>
    if c = sep then some ([], cs)
    else (cutAt sep cs).map (fun p => (c :: p.1, p.2))

/-- The call `strings.SplitN(s, sep, 2)` for a one-character separator: the
whole string when `sep` does not occur, else the parts before and after its
first occurrence. -/
def SplitN2 (s : String) (sep : Char) : List String :=
  match cutAt sep s.data with
  | none => [s]
  | some (a, b) => [String.mk a, String.mk b]

/-- What the middleware did with a request: the reply it wrote (if any),
whether it aborted the chain, the `openid` it put in the context (if any) and
whether it called the next handler. -/
structure AuthResult where
  reply : Option HTTPReply
  aborted : Bool
  openid : Option String
  nextCalled : Bool
deriving DecidableEq, Repr

/-- The two statements `response.Error(c, err); c.Abort()`. -/
def abortWith (now : Int) (err : AppError) : AuthResult :=
  { reply := some (Error now (.app err)), aborted := true, openid := none, nextCalled := false }

/-- The middleware `Auth` (auth.go, lines 15-59) on a request whose
`Authorization` header is `authHeader`, when the clock reads `now`. -/
def Auth (cfg : JWTConfig) (jwt : JWT) (now : Int) (authHeader : String) : AuthResult :=
  if authHeader = "" then abortWith now ErrUnauthorized
  else
    match SplitN2 authHeader ' ' with
    | [scheme, tokenString] =>
      if scheme ≠ "Bearer" then abortWith now ErrUnauthorized
      else
        match jwt.ParseWithClaims tokenString cfg.Secret now with
        | .error _ => abortWith now ErrInvalidToken
        | .ok token =>
          if !token.Valid then abortWith now ErrInvalidToken
          else
            { reply := none, aborted := false, openid := some token.Claims.Subject,
              nextCalled := true }
    | _ => abortWith now ErrUnauthorized

/-! ## A route behind the middleware -/

/-- What the client of `GET /auth/user-info` gets: the reply of the
middleware when it aborted the chain, else what `AuthHandler.GetUserInfo`
wrote (`response.Error` or `response.Success` with the DTO). -/
inductive Served where
  | aborted (reply : Option HTTPReply)
  | failed (reply : HTTPReply)
  | succeeded (data : UserInfoDTO)
deriving DecidableEq, Repr

/-- The route `authRequired.GET("/auth/user-info", authHandler.GetUserInfo)`
(router.go, lines 44-49; auth_handler.go, lines 58-71): the middleware `Auth`
runs first, and the handler only when the chain was not aborted; it reads
`openid` from the context (`c.GetString` gives the empty string when the key
is not set). -/
def serveGetUserInfo (cfg : JWTConfig) (jwt : JWT) (db : UserTable) (now : Int)
    (authHeader : String) (findFault : Option String) : Served :=
  let a := Auth cfg jwt now authHeader
  if a.aborted then .aborted a.reply
  else
    match GetUserInfo db (a.openid.getD "") findFault with
    | .error err => .failed (Error now (.app err))
    | .ok userInfo => .succeeded userInfo

/-! ## Vocabulary of the statements -/

/-- A live row with this openid. -/
def liveRow (db : UserTable) (openID : String) : Prop :=
  ∃ u ∈ db, u.OpenID = openID ∧ u.DeletedAt = 0

/-- The columns of a row that decide which queries it answers. -/
def rowKey (u : User) : String × Int := (u.OpenID, u.DeletedAt)

/-- The number of rows (live or not) that carry this openid. -/
def rowsWith (db : UserTable) (openID : String) : Nat :=
  (db.filter (fun u => u.OpenID = openID)).length

/-- At most one row per openid: what the unique index on `openid` maintains. -/
def UniqueOpenID (db : UserTable) : Prop :=
  ∀ openID, rowsWith db openID ≤ 1

/-- A call of one of the two methods of `AuthService` that write to the users
table, with everything it reads from outside. -/
inductive AuthCall where
  | login (req : WechatLoginRequest) (env : LoginEnv)
  | updateUserInfo (openID : String) (req : UpdateUserInfoRequest)
      (findFault writeFault : Option String) (dbNow : Int)

/-- The table after one call. -/
def stepCall (d : Deps) (db : UserTable) : AuthCall → UserTable
  | .login req env => (WechatLogin d db req env).db
  | .updateUserInfo openID req findFault writeFault dbNow =>
    (UpdateUserInfo db openID req findFault writeFault dbNow).db

/-- The table after a sequence of calls, one after the other. -/
def runCalls (d : Deps) (db : UserTable) : List AuthCall → UserTable
  | [] => db
  | c :: cs => runCalls d (stepCall d db c) cs

/-- Run a sequence of logins one after the other; the table at the end when
every one of them succeeded, `none` as soon as one fails. -/
def loginAll (d : Deps) (db : UserTable) : List (WechatLoginRequest × LoginEnv) → Option UserTable
  | [] => some db
  | (req, env) :: cs =>
    match (WechatLogin d db req env).result with
    | .error _ => none
    | .ok _ => loginAll d (WechatLogin d db req env).db cs

/-- Verification of `tokenString` fails in the middleware: the library
reports an error, or the parsed token is not valid (auth.go, line 40). -/
def verificationFails (jwt : JWT) (key : String) (now : Int) (tokenString : String) : Prop :=
  match jwt.ParseWithClaims tokenString key now with
  | .error _ => True
  | .ok token => token.Valid = false

/-! ## Library stand-ins and sample data for the worked examples -/

/-- A stand-in for the JWT library that signs every claims set (the string
it returns is the key followed by the subject) and parses nothing. -/
def signAllJWT : JWT :=
  { SignedString := fun c key => .ok (key ++ "." ++ c.Subject),
    ParseWithClaims := fun _ _ _ => .error .Malformed }

/-- A stand-in for the JWT library that knows one token: `t0` is the
signature of the claims `c0` under the key `k0`.  Parsing checks, in the
library's order, that the string is that token, that the key is the signing
key, and that the expiry (if any) has not been reached. -/
def oneTokenJWT (c0 : RegisteredClaims) (k0 t0 : String) : JWT :=
  { SignedString := fun c key =>
      if c = c0 ∧ key = k0 then .ok t0 else .error "unsupported",
    ParseWithClaims := fun t key now =>
      if t ≠ t0 then .error .Malformed
      else if key ≠ k0 then .error .SignatureInvalid
      else
        match c0.ExpiresAt with
        | some exp => if now < exp then .ok { Valid := true, Claims := c0 } else .error .Expired
        | none => .ok { Valid := true, Claims := c0 } }

/-- A sample configuration: 72 hours, as in the specification. -/
def sampleCfg : JWTConfig := { Secret := "s3cret", ExpireHours := 72 }

/-- Sample dependencies: the sample configuration and the signing stand-in. -/
def sampleDeps : Deps := { cfg := sampleCfg, jwt := signAllJWT }

/-- A sample login request. -/
def sampleReq : WechatLoginRequest :=
  { Code := "abc123", NickName := "Ann", AvatarURL := "http://img/a.png" }

/-- A sample environment: the exchange maps the code to `ext-001`, nothing fails. -/
def sampleEnv : LoginEnv :=
  { session := { OpenID := "ext-001", ErrCode := 0, ErrMsg := "" },
    exchangeErr := none, findFault := none, writeFault := none,
    newID := 1, now := 1700000000000000000, dbNow := 1700000000000,
    tokenNow := 1700000000000000000 }

/-- A later environment for the same identity. -/
def sampleEnvLater : LoginEnv :=
  { sampleEnv with
    newID := 3, now := 1700000600000000000, dbNow := 1700000600000,
    tokenNow := 1700000600000000000 }

/-- An environment in which the exchange maps the code to another identity. -/
def sampleEnvOther : LoginEnv :=
  { sampleEnv with
    session := { OpenID := "ext-002", ErrCode := 0, ErrMsg := "" },
    newID := 2, now := 1700000300000000000, dbNow := 1700000300000,
    tokenNow := 1700000300000000000 }

/-- The response expected for the sample identity. -/
def sampleResponse (isNewUser : Bool) : LoginResponse :=
  { Token := "s3cret.ext-001",
    UserInfo := { OpenID := "ext-001", NickName := "Ann", AvatarURL := "http://img/a.png",
                  CreateTime := 0, LastLoginTime := 0 },
    IsNewUser := isNewUser }

/-- An environment in which the identity exchange fails in transport. -/
def sampleEnvTransport : LoginEnv :=
  { sampleEnv with
    session := { OpenID := "", ErrCode := 0, ErrMsg := "" },
    exchangeErr := some "dial tcp: i/o timeout" }

/-- An environment in which the provider answers with an error code: the
SDK returns the decoded answer together with an error. -/
def sampleEnvRejected : LoginEnv :=
  { sampleEnv with
    session := { OpenID := "", ErrCode := 40029, ErrMsg := "invalid code" },
    exchangeErr := some "Code2Session error : errcode=40029 , errmsg=invalid code" }

/-- A table with one live user. -/
def sampleTable : UserTable :=
  [{ ID := 1, OpenID := "ext-001", NickName := "Ann", AvatarURL := "http://img/a.png",
     LastLoginTime := 1700000000000, CreatedAt := 1700000000000,
     UpdatedAt := 1700000000000, DeletedAt := 0 }]

/-- A configuration whose `ExpireHours` no longer fits `time.Duration`:
2562048 hours are more than 2^63 nanoseconds. -/
def hugeCfg : JWTConfig := { Secret := "s3cret", ExpireHours := 2562048 }

/-- The claims of the sample token: subject `ext-001`, issued at the sample
instant for 72 hours. -/
def sampleClaims : RegisteredClaims := tokenClaims sampleCfg 1700000000000000000 "ext-001"

/-- The library stand-in that knows the sample token `tok-1`. -/
def sampleJWT : JWT := oneTokenJWT sampleClaims "s3cret" "tok-1"

/-- A configuration with another secret than the one that signed `tok-1`. -/
def otherCfg : JWTConfig := { Secret := "0ther", ExpireHours := 72 }

/-! ## internal/domain: money and refunds -/

/-- The value object `Money` (money.go): an amount in cents (`int64`) and a
currency (`type Currency string`). -/
structure Money where
  amount : Int
  currency : String
deriving DecidableEq, Repr

/-- The constant `CurrencyCNY`. -/
def CurrencyCNY : String := "CNY"

/-- The zero value `Money{}` that the error paths return. -/
def Money.zero : Money := { amount := 0, currency := "" }

/-- The function `NewMoney` (money.go, lines 25-39); the error is a plain
`errors.New`, kept as its text. -/
def NewMoney (amountInCents : Int) (currency : String) : Except String Money :=
  if amountInCents < 0 then .error "金额不能为负数"
  else
    .ok { amount := amountInCents,
          currency := if currency = "" then CurrencyCNY else currency }

/-- The method `Money.GreaterThan` (money.go, lines 104-107). -/
def Money.GreaterThan (m other : Money) : Bool :=
  m.currency = other.currency ∧ m.amount > other.amount

/-- The method `PaymentDomainService.CalculateRefundAmount`
(payment_domain_service.go, lines 188-205).  The subtraction and the product
are `int64` operations and wrap; Go's `/` on integers truncates toward zero. -/
def CalculateRefundAmount (originalAmount : Money) (usedDays totalDays : Int) :
    Except String Money :=
  if usedDays < 0 ∨ totalDays ≤ 0 then .error "无效的天数参数"
  else if usedDays ≥ totalDays then NewMoney 0 originalAmount.currency
  else
    let remainingDays := wrapInt64 (totalDays - usedDays)
    let refundAmount := Int.tdiv (wrapInt64 (originalAmount.amount * remainingDays)) totalDays
    NewMoney refundAmount originalAmount.currency

/-! ## The app-versions table -/

/-- The instant of the zero `time.Time` (January 1, year 1, UTC), in
nanoseconds since the Unix epoch. -/
def zeroTime : Int := -62135596800000000000

/-- The entity `AppVersion` (app_version.go): one row of `app_versions`.
Instants are nanoseconds since the Unix epoch. -/
structure AppVersion where
  ID : Int
  Version : String
  Name : String
  Description : String
  MinVersion : String
  IsActive : Bool
  ForceUpdate : Bool
  ReleaseNotes : String
  BuildTime : Int
  CreatedAt : Int
  UpdatedAt : Int
deriving DecidableEq, Repr

/-- The table `app_versions` as explicit state. -/
abbrev VersionTable := List AppVersion

/-- The part of `gorm.Config` that decides what a statement may do.
`AllowGlobalUpdate` is GORM's switch for updates and deletes without any
condition; it is `false` unless set. -/
structure GormConfig where
  AllowGlobalUpdate : Bool
deriving DecidableEq, Repr

/-- The configuration `NewDatabase` opens the connection with (database.go,
lines 19-27): `Logger`, `NowFunc` and
`DisableForeignKeyConstraintWhenMigrating` are set, `AllowGlobalUpdate` is
not. -/
def NewDatabaseConfig : GormConfig := { AllowGlobalUpdate := false }

/-- The text of `gorm.ErrMissingWhereClause`. -/
def ErrMissingWhereClause : String := "WHERE conditions required"

/-- The row that `ORDER BY created_at DESC, id LIMIT 1` returns. -/
def latestCreated : List AppVersion → Option AppVersion
  | [] => none
  | v :: vs =>
    match latestCreated vs with
    | none => some v
    | some w =>
      if v.CreatedAt > w.CreatedAt ∨ (v.CreatedAt = w.CreatedAt ∧ v.ID ≤ w.ID) then some v
      else some w

/-- The row with the smallest primary key (`ORDER BY id LIMIT 1`). -/
def firstVersionByID : List AppVersion → Option AppVersion
  | [] => none
  | v :: vs =>
    match firstVersionByID vs with
    | none => some v
    | some w => if v.ID ≤ w.ID then some v else some w

/-- The method `appVersionRepositoryImpl.FindActive` (lines 23-39): the
query `Where("is_active = ?", true).Order("created_at DESC").First(...)`;
`fault` is a failure of the round trip to the database, when there is one. -/
def FindActive (tbl : VersionTable) (fault : Option String) : Except AppError AppVersion :=
  match fault with
  | some msg => .error (Wrap DatabaseError "failed to find active app version" msg)
  | none =>
    match latestCreated (tbl.filter (fun v => v.IsActive)) with
    | none => .error (New NotFound "active app version not found")
    | some v => .ok v

/-- The method `appVersionRepositoryImpl.FindByVersion` (lines 41-56). -/
def FindByVersion (tbl : VersionTable) (version : String) (fault : Option String) :
    Except AppError AppVersion :=
  match fault with
  | some msg => .error (Wrap DatabaseError "failed to find app version" msg)
  | none =>
    match firstVersionByID (tbl.filter (fun v => v.Version = version)) with
    | none => .error (New NotFound "app version not found")
    | some v => .ok v

/-- The row an `INSERT` of `v` stores, which GORM also writes back into the
struct: a zero primary key is replaced by the id the database hands out; a
zero value in a column with a `default` tag is replaced by that default
(`name`, and `is_active`, whose default is `true`, so that `false` cannot be
stored this way); the columns `build_time`, `created_at` and `updated_at`
have the default `CURRENT_TIMESTAMP`: a zero value is left out of the
statement and the database fills in its own clock (`dbNow`); GORM's clock
(`_now`) is not consulted. -/
def insertedVersion (v : AppVersion) (newID _now dbNow : Int) : AppVersion :=
  { v with
    ID := if v.ID = 0 then newID else v.ID,
    Name := if v.Name = "" then "宝宝喂养时刻" else v.Name,
    IsActive := if v.IsActive = false then true else v.IsActive,
    BuildTime := if v.BuildTime = zeroTime then dbNow else v.BuildTime,
    CreatedAt := if v.CreatedAt = zeroTime then dbNow else v.CreatedAt,
    UpdatedAt := if v.UpdatedAt = zeroTime then dbNow else v.UpdatedAt }

/-- Everything one call of the version service reads from outside: failing
round trips to the database (lookup, insert, beginning and committing the
transaction, its two updates), the id the database hands out, and the
clocks. -/
structure VersionEnv where
  findFault : Option String
  createFault : Option String
  beginFault : Option String
  deactivateFault : Option String
  activateFault : Option String
  commitFault : Option String
  newID : Int
  now : Int
  dbNow : Int
deriving DecidableEq, Repr

/-- The method `appVersionRepositoryImpl.Create` (lines 58-64) (named apart
from the method of the users repository): the table afterwards and the row
as written back.  The table has a primary key on `id` and a unique index on
`version`. -/
def CreateAppVersion (tbl : VersionTable) (v : AppVersion) (env : VersionEnv) :
    Except AppError (VersionTable × AppVersion) :=
  match env.createFault with
  | some msg => .error (Wrap DatabaseError "failed to create app version" msg)
  | none =>
    let row := insertedVersion v env.newID env.now env.dbNow
    if tbl.any (fun r => r.ID = row.ID ∨ r.Version = row.Version) then
      .error (Wrap DatabaseError "failed to create app version"
        "duplicate key value violates unique constraint")
    else .ok (tbl ++ [row], row)

/-- The first statement of the transaction in `SetActive` (lines 78-82):
`Model(&entity.AppVersion{}).Update("is_active", false)`, an update without
any condition.  GORM refuses to run it with `ErrMissingWhereClause` unless
`AllowGlobalUpdate` is set; when it runs, it also refreshes `updated_at`. -/
def deactivateAll (cfg : GormConfig) (tbl : VersionTable) (env : VersionEnv) :
    Except AppError VersionTable :=
  if cfg.AllowGlobalUpdate = false then
    .error (Wrap DatabaseError "failed to deactivate all versions" ErrMissingWhereClause)
  else
    match env.deactivateFault with
    | some msg => .error (Wrap DatabaseError "failed to deactivate all versions" msg)
    | none => .ok (tbl.map (fun r => { r with IsActive := false, UpdatedAt := env.now }))

/-- The second statement of the transaction in `SetActive` (lines 85-90):
`Where("version = ?", version).Update("is_active", true)`. -/
def activateVersion (tbl : VersionTable) (version : String) (env : VersionEnv) :
    Except AppError VersionTable :=
  match env.activateFault with
  | some msg => .error (Wrap DatabaseError "failed to activate version" msg)
  | none =>
    .ok (tbl.map (fun r =>
      if r.Version = version then { r with IsActive := true, UpdatedAt := env.now } else r))

/-- The method `appVersionRepositoryImpl.SetActive` (lines 74-94): both
updates inside `Transaction`, which commits when the function returns no
error and rolls back otherwise; an error of `Begin` or `Commit` is returned
as it is. -/
def SetActive (cfg : GormConfig) (tbl : VersionTable) (version : String) (env : VersionEnv) :
    Except GoError VersionTable :=
  match env.beginFault with
  | some msg => .error (.plain msg)
  | none =>
    match deactivateAll cfg tbl env with
    | .error err => .error (.app err)
    | .ok tbl1 =>
      match activateVersion tbl1 version env with
      | .error err => .error (.app err)
      | .ok tbl2 =>
        match env.commitFault with
        | some msg => .error (.plain msg)
        | none => .ok tbl2

/-- The DTO `AppVersionDTO`; `BuildTime` is in milliseconds. -/
structure AppVersionDTO where
  Version : String
  Name : String
  Description : String
  MinVersion : String
  ForceUpdate : Bool
  ReleaseNotes : String
  BuildTime : Int
deriving DecidableEq, Repr

/-- The DTO `CreateAppVersionRequest`. -/
structure CreateAppVersionRequest where
  Version : String
  Name : String
  Description : String
  MinVersion : String
  IsActive : Bool
  ForceUpdate : Bool
  ReleaseNotes : String
deriving DecidableEq, Repr

/-- The DTO the three reading and creating methods of the service build from
a row. -/
def versionDTO (v : AppVersion) : AppVersionDTO :=
  { Version := v.Version, Name := v.Name, Description := v.Description,
    MinVersion := v.MinVersion, ForceUpdate := v.ForceUpdate,
    ReleaseNotes := v.ReleaseNotes, BuildTime := UnixMilli v.BuildTime }

/-- The repository methods a call of the version service invoked, in order. -/
inductive VersionRepoCall where
  | FindActive
  | FindByVersion
  | Create
  | SetActive
deriving DecidableEq, Repr

/-- The outcome of a call of the version service that may write. -/
structure VersionOutcome (α : Type) where
  result : Except GoError α
  tbl : VersionTable
  calls : List VersionRepoCall

/-- The method `AppVersionService.GetCurrentVersion` (lines 24-40). -/
def GetCurrentVersion (tbl : VersionTable) (fault : Option String) :
    Except AppError AppVersionDTO :=
  match FindActive tbl fault with
  | .error err => .error err
  | .ok appVersion => .ok (versionDTO appVersion)

/-- The entity `CreateVersion` builds from the request (lines 67-75); the
fields it does not set keep their zero values. -/
def versionOfRequest (req : CreateAppVersionRequest) : AppVersion :=
  { ID := 0, Version := req.Version, Name := req.Name, Description := req.Description,
    MinVersion := req.MinVersion, IsActive := req.IsActive, ForceUpdate := req.ForceUpdate,
    ReleaseNotes := req.ReleaseNotes, BuildTime := zeroTime, CreatedAt := zeroTime,
    UpdatedAt := zeroTime }

/-- The method `AppVersionService.CreateVersion` (lines 60-90). -/
def CreateVersion (tbl : VersionTable) (req : CreateAppVersionRequest) (env : VersionEnv) :
    VersionOutcome AppVersionDTO :=
  if req.Version = "" then
    ⟨.error (.app (New ParamError "version is required")), tbl, []⟩
  else
    match CreateAppVersion tbl (versionOfRequest req) env with
    | .error err => ⟨.error (.app err), tbl, [.Create]⟩
    | .ok (tbl', appVersion) => ⟨.ok (versionDTO appVersion), tbl', [.Create]⟩

/-- The method `AppVersionService.SetActiveVersion` (lines 92-102), with the
configuration the database connection was opened with. -/
def SetActiveVersion (cfg : GormConfig) (tbl : VersionTable) (version : String)
    (env : VersionEnv) : VersionOutcome Unit :=
  match FindByVersion tbl version env.findFault with
  | .error err => ⟨.error (.app err), tbl, [.FindByVersion]⟩
  | .ok _ =>
    match SetActive cfg tbl version env with
    | .error err => ⟨.error err, tbl, [.FindByVersion, .SetActive]⟩
    | .ok tbl' => ⟨.ok (), tbl', [.FindByVersion, .SetActive]⟩

/-- The number of rows with `IsActive = true`. -/
def activeCount (tbl : VersionTable) : Nat := (tbl.filter (fun v => v.IsActive)).length

/-- At most one row per version string: what the unique index on `version`
maintains. -/
def UniqueVersion (tbl : VersionTable) : Prop :=
  ∀ version, (tbl.filter (fun v => v.Version = version)).length ≤ 1

/-- A call of one of the two writing methods of `AppVersionService`. -/
inductive VersionCall where
  | create (req : CreateAppVersionRequest) (env : VersionEnv)
  | setActive (version : String) (env : VersionEnv)

/-- The table after one call, and whether the call was a `CreateVersion`
that succeeded. -/
def stepVersion (cfg : GormConfig) (tbl : VersionTable) : VersionCall → VersionTable × Bool
  | .create req env =>
    ((CreateVersion tbl req env).tbl,
      match (CreateVersion tbl req env).result with
      | .ok _ => true
      | .error _ => false)
  | .setActive version env => ((SetActiveVersion cfg tbl version env).tbl, false)

/-- The table after a sequence of calls, one after the other, and the number
of `CreateVersion` calls among them that succeeded. -/
def runVersions (cfg : GormConfig) (tbl : VersionTable) : List VersionCall → VersionTable × Nat
  | [] => (tbl, 0)
  | c :: cs =>
    ((runVersions cfg (stepVersion cfg tbl c).1 cs).1,
      (if (stepVersion cfg tbl c).2 then 1 else 0) + (runVersions cfg (stepVersion cfg tbl c).1 cs).2)

/-- An environment in which nothing fails. -/
def quietEnv (newID now : Int) : VersionEnv :=
  { findFault := none, createFault := none, beginFault := none, deactivateFault := none,
    activateFault := none, commitFault := none, newID := newID, now := now, dbNow := now }

/-- A table with version 2.0.0 active and version 2.1.0 not. -/
def sampleVersions : VersionTable :=
  [{ ID := 1, Version := "2.0.0", Name := "Polaris", Description := "", MinVersion := "1.0.0",
     IsActive := true, ForceUpdate := false, ReleaseNotes := "",
     BuildTime := 1700000000000000000, CreatedAt := 1700000000000000000,
     UpdatedAt := 1700000000000000000 },
   { ID := 2, Version := "2.1.0", Name := "Polaris", Description := "", MinVersion := "1.0.0",
     IsActive := false, ForceUpdate := false, ReleaseNotes := "",
     BuildTime := 1700100000000000000, CreatedAt := 1700100000000000000,
     UpdatedAt := 1700100000000000000 }]

/-- A request to create a version that is to be active. -/
def sampleCreate (version : String) : CreateAppVersionRequest :=
  { Version := version, Name := "Polaris", Description := "", MinVersion := "",
    IsActive := true, ForceUpdate := false, ReleaseNotes := "" }

/-! ## File uploads -/

/-- The section `upload` of the configuration, with `server.base_url`. -/
structure UploadConfig where
  MaxSize : Int
  AllowedTypes : List String
  StoragePath : String
  BaseURL : String
deriving DecidableEq, Repr

/-- The fields of `multipart.FileHeader` the service reads: the declared file
name and the declared size. -/
structure FileHeader where
  Filename : String
  Size : Int
deriving DecidableEq, Repr

/-- The type `UploadType` (`type UploadType string`). -/
abbrev UploadType := String

def UploadTypeUserAvatar : UploadType := "user_avatar"
def UploadTypeBabyAvatar : UploadType := "baby_avatar"

/-- The struct `UploadResult`. -/
structure UploadResult where
  URL : String
  Path : String
  Filename : String
  Size : Int
deriving DecidableEq, Repr

/-- The clock reading `time.Now()` in the local time zone, as the calendar
fields that `Format` prints. -/
structure CivilTime where
  Year : Nat
  Month : Nat
  Day : Nat
  Hour : Nat
  Minute : Nat
  Second : Nat
deriving DecidableEq, Repr

/-- The decimal digits of `n`, most significant first (`fuel` bounds the
number of digits). -/
def digitsFuel : Nat → Nat → List Char
  | 0, n => [Nat.digitChar (n % 10)]
  | fuel + 1, n =>
    if n < 10 then [Nat.digitChar n]
    else digitsFuel fuel (n / 10) ++ [Nat.digitChar (n % 10)]

/-- The decimal digits of `n`. -/
def natDigits (n : Nat) : List Char := digitsFuel n n

/-- A non-negative integer printed with at least `width` digits, padded with
zeros on the left (what `Format` does for `2006`, `01`, `02`, `15`, `04`,
`05`). -/
def zeroPad (width n : Nat) : String :=
  String.mk (List.replicate (width - (natDigits n).length) '0' ++ natDigits n)

/-- The call `t.Format("20060102_150405")`: year, month, day, an underscore,
hour (24 h), minute, second. -/
def formatStamp (t : CivilTime) : String :=
  zeroPad 4 t.Year ++ zeroPad 2 t.Month ++ zeroPad 2 t.Day ++ "_" ++
    zeroPad 2 t.Hour ++ zeroPad 2 t.Minute ++ zeroPad 2 t.Second

/-- The scan of `filepath.Ext` over the reversed path: back from the end,
stop at a separator, return from the last dot on. -/
def extRev (acc : List Char) : List Char → List Char
  | [] => []
  | c :: cs =>
    if c = '/' then []
    else if c = '.' then '.' :: acc
    else extRev (c :: acc) cs

/-- The function `filepath.Ext`: the suffix beginning at the final dot in the
final element of the path, empty if there is no dot. -/
def Ext (path : String) : String := String.mk (extRev [] path.data.reverse)

/-- The pieces of a path between its separators. -/
def splitOnSlash : List Char → List (List Char)
  | [] => [[]]
  | c :: cs =>
    if c = '/' then [] :: splitOnSlash cs
    else
      match splitOnSlash cs with
      | [] => [[c]]
      | seg :: segs => (c :: seg) :: segs

/-- One element of a path in `filepath.Clean`; `stack` holds the elements
kept so far, last first.  Empty elements and `.` are dropped; `..` removes
the element before it, is dropped at the root, and is kept at the start of a
relative path. -/
def cleanStep (rooted : Bool) (stack : List String) (seg : String) : List String :=
  if seg = "" ∨ seg = "." then stack
  else if seg = ".." then
    match stack with
    | [] => if rooted then [] else [".."]
    | top :: rest => if top = ".." then ".." :: stack else rest
  else seg :: stack

/-- The function `filepath.Clean` on a system whose separator is the slash. -/
def Clean (path : String) : String :=
  let rooted : Bool := path.data.head? = some '/'
  let stack := ((splitOnSlash path.data).map String.mk).foldl (cleanStep rooted) []
  let body := "/".intercalate stack.reverse
  if rooted then "/" ++ body else if body = "" then "." else body

/-- The function `filepath.Join`: the elements from the first non-empty one
on, joined by slashes and cleaned; the empty string when all are empty. -/
def Join (elem : List String) : String :=
  match elem.dropWhile (fun e => e = "") with
  | [] => ""
  | rest => Clean ("/".intercalate rest)

/-- The map `mimeToExt` of `UploadFile` (lines 51-56) as a lookup. -/
def mimeToExt (key : String) : Option String :=
  if key = "image/jpeg" then some ".jpg"
  else if key = "image/jpg" then some ".jpg"
  else if key = "image/png" then some ".png"
  else if key = "image/gif" then some ".gif"
  else none

/-- The first loop of `UploadFile` (lines 62-69): the extensions of the
configured MIME types that the map knows.  `lower` is `strings.ToLower`. -/
def allowedExtensions (lower : String → String) (allowedTypes : List String) : List String :=
  allowedTypes.filterMap (fun mimeType => mimeToExt (lower mimeType))

/-- The second loop of `UploadFile` (lines 72-77). -/
def isAllowedExt (lower : String → String) (allowedExts : List String) (fileExt : String) :
    Bool :=
  allowedExts.any (fun ext => fileExt = lower ext)

/-- The method `UploadService.getSubDir` (lines 122-132). -/
def getSubDir (uploadType : UploadType) : String :=
  if uploadType = UploadTypeUserAvatar then "users"
  else if uploadType = UploadTypeBabyAvatar then "babies"
  else ""

/-- The method `UploadService.generateFilename` (lines 134-153) when the
clock reads `t`. -/
def generateFilename (originalFilename : String) (uploadType : UploadType)
    (relatedID : String) (t : CivilTime) : String :=
  let ext := if Ext originalFilename = "" then ".jpg" else Ext originalFilename
  let pre := if relatedID ≠ "" then uploadType ++ "_" ++ relatedID else uploadType
  pre ++ "_" ++ formatStamp t ++ ext

/-- An operation on the file system that the service invoked. -/
inductive FsOp where
  | MkdirAll (path : String)
  | Open (filename : String)
  | Create (path : String)
  | ReadFrom (path : String)
deriving DecidableEq, Repr

/-- Everything one `UploadFile` call reads from outside: the clock and the
failures of the file system, when there are any. -/
structure UploadEnv where
  now : CivilTime
  mkdirErr : Option String
  openErr : Option String
  createErr : Option String
  copyErr : Option String
deriving DecidableEq, Repr

/-- The outcome of `UploadFile`: what it returned and the operations on the
file system it invoked, in order. -/
structure UploadOutcome where
  result : Except AppError UploadResult
  fs : List FsOp

/-- The method `UploadService.saveFile` (lines 155-175): its error, if any,
and the operations it invoked. -/
def saveFile (fileHeader : FileHeader) (filePath : String) (env : UploadEnv) :
    Option AppError × List FsOp :=
  match env.openErr with
  | some err => (some (Wrap InternalError "Failed to open file" err), [.Open fileHeader.Filename])
  | none =>
    match env.createErr with
    | some err =>
      (some (Wrap InternalError "Failed to create file" err),
        [.Open fileHeader.Filename, .Create filePath])
    | none =>
      match env.copyErr with
      | some err =>
        (some (Wrap InternalError "Failed to save file" err),
          [.Open fileHeader.Filename, .Create filePath, .ReadFrom filePath])
      | none => (none, [.Open fileHeader.Filename, .Create filePath, .ReadFrom filePath])

/-- The part of `UploadFile` after the checks of type and size (lines
88-119): the sub-directory, the file name, the directory, the file, the
result. -/
def storeUpload (cfg : UploadConfig) (fileHeader : FileHeader) (uploadType : UploadType)
    (relatedID : String) (env : UploadEnv) : UploadOutcome :=
  let subDir := getSubDir uploadType
  if subDir = "" then ⟨.error (New ParamError "Unsupported upload type"), []⟩
  else
    let filename := generateFilename fileHeader.Filename uploadType relatedID env.now
    let dirPath := Join [cfg.StoragePath, "images", subDir]
    match env.mkdirErr with
    | some err =>
      ⟨.error (Wrap InternalError "Failed to create directory" err), [.MkdirAll dirPath]⟩
    | none =>
      let filePath := Join [dirPath, filename]
      match saveFile fileHeader filePath env with
      | (some err, ops) => ⟨.error err, .MkdirAll dirPath :: ops⟩
      | (none, ops) =>
        let relPath := Join ["uploads", "images", subDir, filename]
        ⟨.ok { URL := cfg.BaseURL ++ "/" ++ relPath, Path := "/" ++ relPath,
               Filename := filename, Size := fileHeader.Size },
          .MkdirAll dirPath :: ops⟩

/-- The method `UploadService.UploadFile` (lines 44-120); `lower` is
`strings.ToLower`, `fileHeader` is `none` for a nil pointer. -/
def UploadFile (lower : String → String) (cfg : UploadConfig) (fileHeader : Option FileHeader)
    (uploadType : UploadType) (relatedID : String) (env : UploadEnv) : UploadOutcome :=
  match fileHeader with
  | none => ⟨.error (New ParamError "File cannot be empty"), []⟩
  | some fh =>
    let allowedExts := allowedExtensions lower cfg.AllowedTypes
    let fileExt := lower (Ext fh.Filename)
    if !isAllowedExt lower allowedExts fileExt then
      ⟨.error (New ParamError
        ("Unsupported file type. Allowed types: " ++ ", ".intercalate allowedExts)), []⟩
    else if fh.Size > cfg.MaxSize then
      ⟨.error (New ParamError "File size exceeds limit"), []⟩
    else storeUpload cfg fh uploadType relatedID env

/-- Lower-casing of the ASCII letters, which is what `strings.ToLower` does
on strings without other letters. -/
def asciiLower (s : String) : String := String.mk (s.data.map Char.toLower)

/-- A sample upload configuration: 5 MiB, JPEG and PNG. -/
def sampleUpload : UploadConfig :=
  { MaxSize := 5242880, AllowedTypes := ["image/jpeg", "IMAGE/PNG", "application/pdf"],
    StoragePath := "./uploads", BaseURL := "https://api.example.com" }

/-- A sample environment for uploads: 5 March 2024, 09:07:01, nothing fails. -/
def sampleUploadEnv : UploadEnv :=
  { now := { Year := 2024, Month := 3, Day := 5, Hour := 9, Minute := 7, Second := 1 },
    mkdirErr := none, openErr := none, createErr := none, copyErr := none }

/-- The one fact about `strings.ToLower` that the type check of `UploadFile`
relies on: the three extensions of the map, already in lower case, are left
as they are. -/
def FixesExtensions (lower : String → String) : Prop :=
  lower ".jpg" = ".jpg" ∧ lower ".png" = ".png" ∧ lower ".gif" = ".gif"

/-- The error of the type check of `UploadFile` (line 80). -/
def unsupportedFileType (allowedExts : List String) : AppError :=
  New ParamError ("Unsupported file type. Allowed types: " ++ ", ".intercalate allowedExts)

/-! ## internal/domain: refund checks, phone numbers -/

/-- An error built with `github.com/pkg/errors`: `errors.New`/`errors.Errorf`
with a message, or `errors.Wrap` of a cause with a message.  Errors that come
from a collaborator (a gateway, a sender) are values of the same type. -/
inductive PkgError where
  | New (msg : String)
  | Wrap (cause : PkgError) (msg : String)
deriving DecidableEq, Repr

/-- The constant `PaymentStatusPaid`. -/
def PaymentStatusPaid : String := "paid"

/-- The method `PaymentDomainService.CanRefund` (payment_domain_service.go,
lines 157-176); `query` is what `gateway.QueryPayment` returned. -/
def CanRefund (query : Except PkgError String) (refundAmount paidAmount : Money) :
    Except PkgError (Bool × String) :=
  match query with
  | .error err => .error (.Wrap err "查询支付状态失败")
  | .ok status =>
    if status ≠ PaymentStatusPaid then .ok (false, "订单未支付或已退款")
    else if refundAmount.GreaterThan paidAmount then .ok (false, "退款金额不能大于支付金额")
    else .ok (true, "")

/-- The value object `Phone` (phone.go). -/
structure Phone where
  countryCode : String
  number : String
deriving DecidableEq, Repr

/-- The function `unicode.IsSpace`: the white-space characters of Latin-1 and
those of the Unicode property `White_Space` beyond it. -/
def isSpace (c : Char) : Bool :=
  let v := c.toNat
  (9 ≤ v ∧ v ≤ 13) ∨ v = 32 ∨ v = 133 ∨ v = 160 ∨ v = 5760 ∨ (8192 ≤ v ∧ v ≤ 8202) ∨
    v = 8232 ∨ v = 8233 ∨ v = 8239 ∨ v = 8287 ∨ v = 12288

/-- The function `strings.TrimSpace`: leading and trailing white space
removed. -/
def TrimSpace (s : String) : String :=
  String.mk ((s.data.dropWhile isSpace).reverse.dropWhile isSpace).reverse

/-- The list `whole` is `core` with white space around it: `pre` and `post`
consist of white space, and `core` neither begins nor ends with white space.
This says what "surrounding white space trimmed" means, without `TrimSpace`. -/
def SurroundedBySpace (whole pre core post : List Char) : Prop :=
  whole = pre ++ core ++ post ∧ (∀ c ∈ pre, isSpace c = true) ∧
  (∀ c ∈ post, isSpace c = true) ∧ (∀ c ∈ core.head?, isSpace c = false) ∧
  (∀ c ∈ core.getLast?, isSpace c = false)

/-- The characters of a list other than the space and the hyphen.  This says
what "every space and hyphen removed" means, without `ReplaceAll`. -/
def withoutSpacesAndHyphens (l : List Char) : List Char :=
  l.filter (fun c => c ≠ ' ' ∧ c ≠ '-')

/-- The call `strings.ReplaceAll(s, string(c), "")`: every occurrence of the
character removed. -/
def removeAll (c : Char) (s : String) : String :=
  String.mk (s.data.filter (fun x => x ≠ c))

/-- The call `strings.HasPrefix(s, "+")`. -/
def hasPlus (s : String) : Bool := s.data.head? = some '+'

/-- The class `\d` of Go's regular expressions: the ASCII digits. -/
def isDigit (c : Char) : Bool := '0' ≤ c ∧ c ≤ '9'

/-- The call `chinaPhoneRegex.MatchString` for the pattern `^1[3-9]\d{9}$`:
from the start of the text a `1`, a character of `3` to `9`, nine digits,
and then the end of the text. -/
def matchChinaPhone (number : String) : Bool :=
  match number.data with
  | c1 :: c2 :: rest =>
    c1 = '1' ∧ ('3' ≤ c2 ∧ c2 ≤ '9') ∧ rest.length = 9 ∧ rest.all isDigit
  | _ => false

/-- The function `NewPhoneWithCountryCode` (phone.go, lines 26-58); the
errors are plain `errors.New`, kept as their text. -/
def NewPhoneWithCountryCode (countryCode number : String) : Except String Phone :=
  let countryCode := TrimSpace countryCode
  let number := TrimSpace number
  if number = "" then .error "手机号码不能为空"
  else
    let number := removeAll '-' (removeAll ' ' number)
    let countryCode := if countryCode = "" then "+86" else countryCode
    let countryCode := if !hasPlus countryCode then "+" ++ countryCode else countryCode
    if countryCode = "+86" ∧ !matchChinaPhone number then .error "手机号格式不正确"
    else .ok { countryCode := countryCode, number := number }

/-- The function `NewPhone` (phone.go, lines 20-24). -/
def NewPhone (number : String) : Except String Phone :=
  NewPhoneWithCountryCode "+86" number

/-- The method `Phone.IsEmpty` (phone.go, lines 85-88). -/
def Phone.IsEmpty (p : Phone) : Bool := p.number = ""

/-- The UTF-8 encoding of a character: the bytes a Go string holds for it. -/
def utf8Bytes (c : Char) : List Nat :=
  let v := c.toNat
  if v ≤ 127 then [v]
  else if v ≤ 2047 then [192 + v / 64, 128 + v % 64]
  else if v ≤ 65535 then [224 + v / 4096, 128 + v / 64 % 64, 128 + v % 64]
  else [240 + v / 262144, 128 + v / 4096 % 64, 128 + v / 64 % 64, 128 + v % 64]

/-- The bytes of a Go string. -/
def goBytes (s : String) : List Nat := (s.data.map utf8Bytes).flatten

/-- The method `Phone.Masked` (phone.go, lines 90-96), as the bytes of the
string it returns: `len` and the slice expressions of Go count bytes. -/
def Phone.Masked (p : Phone) : List Nat :=
  let b := goBytes p.number
  if b.length < 7 then b
  else b.take 3 ++ goBytes "****" ++ b.drop (b.length - 4)

/-! ## internal/domain/service: notifications -/

/-- The value object `Email` (email.go): one string. -/
structure Email where
  value : String
deriving DecidableEq, Repr

/-- The method `Email.IsEmpty`. -/
def Email.IsEmpty (e : Email) : Bool := e.value = ""

/-- The type `NotificationChannel`, a string. -/
abbrev NotificationChannel := String

def ChannelSMS : NotificationChannel := "sms"
def ChannelEmail : NotificationChannel := "email"
def ChannelPush : NotificationChannel := "push"
def ChannelWechat : NotificationChannel := "wechat"

/-- A value of the Go type `interface{}` as far as `SendNotification` looks at
it: a string, or a value of some other dynamic type (nil included). -/
inductive DynValue where
  | str (s : String)
  | other (description : String)
deriving DecidableEq, Repr

/-- The struct `NotificationRequest`; the map `ExtraData` is a list of
entries, looked up by key. -/
structure NotificationRequest where
  UserID : Int
  Channel : NotificationChannel
  Phone : Phone
  Email : Email
  OpenID : String
  Title : String
  Content : String
  ExtraData : List (String × DynValue)
deriving DecidableEq, Repr

/-- One call of a method of the interface `NotificationSender`. -/
inductive SenderCall where
  | SendSMS (phone : Phone) (content : String)
  | SendEmail (email : Email) (subject content : String)
  | SendPush (userID : Int) (title content : String)
  | SendWechat (openID templateID : String) (data : List (String × DynValue))
deriving DecidableEq, Repr

/-- The interface `NotificationSender`.  An implementation has a state of
type `σ` (queues, counters, the network); each method returns its error
(`none` for nil) and the next state. -/
structure NotificationSender (σ : Type) where
  SendSMS : σ → Phone → String → Option PkgError × σ
  SendEmail : σ → Email → String → String → Option PkgError × σ
  SendPush : σ → Int → String → String → Option PkgError × σ
  SendWechat : σ → String → String → List (String × DynValue) → Option PkgError × σ

/-- What one call of `SendNotification` does: the returned error, the state
of the sender afterwards and the sender methods called. -/
structure NotifyOutcome (σ : Type) where
  result : Option PkgError
  state : σ
  calls : List SenderCall

/-- The type assertion `req.ExtraData["template_id"].(string)`: the string
and true when the key is present with a string value, else `""` and false. -/
def templateIDOf (extraData : List (String × DynValue)) : String × Bool :=
  match extraData.lookup "template_id" with
  | some (.str s) => (s, true)
  | _ => ("", false)

/-- The method `NotificationDomainService.SendNotification`
(notification_domain_service.go, lines 58-93). -/
def SendNotification {σ : Type} (sender : NotificationSender σ) (st : σ)
    (req : NotificationRequest) : NotifyOutcome σ :=
  if req.Channel = ChannelSMS then
    if req.Phone.IsEmpty then
      { result := some (.New "发送短信需要提供手机号"), state := st, calls := [] }
    else
      let r := sender.SendSMS st req.Phone req.Content
      { result := r.1, state := r.2, calls := [.SendSMS req.Phone req.Content] }
  else if req.Channel = ChannelEmail then
    if req.Email.IsEmpty then
      { result := some (.New "发送邮件需要提供邮箱地址"), state := st, calls := [] }
    else
      let r := sender.SendEmail st req.Email req.Title req.Content
      { result := r.1, state := r.2, calls := [.SendEmail req.Email req.Title req.Content] }
  else if req.Channel = ChannelPush then
    if req.UserID = 0 then
      { result := some (.New "发送推送需要提供用户ID"), state := st, calls := [] }
    else
      let r := sender.SendPush st req.UserID req.Title req.Content
      { result := r.1, state := r.2, calls := [.SendPush req.UserID req.Title req.Content] }
  else if req.Channel = ChannelWechat then
    if req.OpenID = "" then
      { result := some (.New "发送微信消息需要提供OpenID"), state := st, calls := [] }
    else
      let t := templateIDOf req.ExtraData
      if !t.2 ∨ t.1 = "" then
        { result := some (.New "发送微信消息需要提供模板ID"), state := st, calls := [] }
      else
        let r := sender.SendWechat st req.OpenID t.1 req.ExtraData
        { result := r.1, state := r.2, calls := [.SendWechat req.OpenID t.1 req.ExtraData] }
  else
    { result := some (.New ("不支持的通知渠道: " ++ req.Channel)), state := st, calls := [] }

/-- One turn of the loop of `SendMultiChannelNotification`: the channel, the
state of the sender before the call of `SendNotification`, and the error the
call returned. -/
structure Attempt (σ : Type) where
  channel : NotificationChannel
  before : σ
  result : Option PkgError

/-- What `SendMultiChannelNotification` does: the returned error, the state
of the sender afterwards, the turns of the loop in order and the sender
methods called in order. -/
structure MultiOutcome (σ : Type) where
  result : Option PkgError
  state : σ
  attempts : List (Attempt σ)
  calls : List SenderCall

/-- The code of `SendMultiChannelNotification` after the loop: the error
returned for the final value of `lastErr`. -/
def afterLoop (lastErr : Option PkgError) : PkgError :=
  match lastErr with
  | some e => .Wrap e "所有渠道发送均失败"
  | none => .New "没有指定通知渠道"

/-- The loop of `SendMultiChannelNotification` over the channels still to
try, with the current value of `lastErr`, followed by the code after the
loop. -/
def sendLoop {σ : Type} (sender : NotificationSender σ) (req : NotificationRequest) :
    List NotificationChannel → σ → Option PkgError → MultiOutcome σ
  | [], st, lastErr =>
    { result := some (afterLoop lastErr), state := st, attempts := [], calls := [] }
  | channel :: rest, st, _ =>
    let o := SendNotification sender st { req with Channel := channel }
    match o.result with
    | some err =>
      let r := sendLoop sender req rest o.state (some err)
      { result := r.result, state := r.state,
        attempts := { channel := channel, before := st, result := some err } :: r.attempts,
        calls := o.calls ++ r.calls }
    | none =>
      { result := none, state := o.state,
        attempts := [{ channel := channel, before := st, result := none }], calls := o.calls }

/-- The method `NotificationDomainService.SendMultiChannelNotification`
(notification_domain_service.go, lines 95-115). -/
def SendMultiChannelNotification {σ : Type} (sender : NotificationSender σ) (st : σ)
    (channels : List NotificationChannel) (req : NotificationRequest) : MultiOutcome σ :=
  sendLoop sender req channels st none

/-- The state in which a turn of the loop leaves the sender is the state the
next turn starts from. -/
def Follows {σ : Type} (sender : NotificationSender σ) (req : NotificationRequest)
    (a b : Attempt σ) : Prop :=
  b.before = (SendNotification sender a.before { req with Channel := a.channel }).state

/-- A sender for the examples: its state counts the calls; SMS and push
fail, e-mail and WeChat messages succeed. -/
def sampleSender : NotificationSender Nat where
  SendSMS := fun n _ _ => (some (.New "sms gateway down"), n + 1)
  SendEmail := fun n _ _ _ => (none, n + 1)
  SendPush := fun n _ _ _ => (some (.New "push gateway down"), n + 1)
  SendWechat := fun n _ _ _ => (none, n + 1)

/-- A request for the examples: a phone number and an e-mail address, no
user id and no OpenID. -/
def sampleNotification : NotificationRequest :=
  { UserID := 0, Channel := "", Phone := { countryCode := "+86", number := "13800138000" },
    Email := { value := "a@b.cn" }, OpenID := "", Title := "t", Content := "c",
    ExtraData := [] }

/-! ## pkg/utils: scene strings -/

/-- A Go `map[string]string`: its entries, with distinct keys, in the order
in which a `range` loop visits them (the runtime chooses that order). -/
abbrev StringMap := List (String × String)

/-- The entries of a map have distinct keys. -/
def DistinctKeys (m : StringMap) : Prop := (m.map Prod.fst).Nodup

/-- The expression `m[key]` with the comma-ok form: the value, if any. -/
def mapGet (m : StringMap) (key : String) : Option String :=
  (m.find? (fun e => e.1 = key)).map Prod.snd

/-- The assignment `m[key] = value`: the entry of the key is overwritten, or
a new entry is added. -/
def mapSet (m : StringMap) (key value : String) : StringMap :=
  if m.any (fun e => e.1 = key) then m.map (fun e => if e.1 = key then (key, value) else e)
  else m ++ [(key, value)]

/-- Split a list of characters at every occurrence of `sep`. -/
def splitChars (sep : Char) : List Char → List (List Char)
  | [] => [[]]
  | c :: cs =>
    if c = sep then [] :: splitChars sep cs
    else
      match splitChars sep cs with
      | [] => [[c]]
      | seg :: segs => (c :: seg) :: segs

/-- The call `strings.Split(s, sep)` for a one-character separator. -/
def Split (s : String) (sep : Char) : List String :=
  (splitChars sep s.data).map String.mk

/-- The function `ParseScene` (pkg/utils/string.go, lines 42-60). -/
def ParseScene (scene : String) : StringMap :=
  if scene = "" then []
  else
    (Split scene '&').foldl
      (fun result pair =>
        match SplitN2 pair '=' with
        | [k, v] => mapSet result k v
        | _ => result)
      []

/-- The function `BuildScene` (pkg/utils/string.go, lines 62-76); the loop
visits the entries in the order of the list. -/
def BuildScene (params : StringMap) : String :=
  if params.length = 0 then ""
  else "&".intercalate (params.map (fun e => e.1 ++ "=" ++ e.2))

/-- The condition of C28 on a map: no key contains `=` or `&`, no value
contains `&`. -/
def SceneSafe (m : StringMap) : Prop :=
  ∀ e ∈ m, '=' ∉ e.1.data ∧ '&' ∉ e.1.data ∧ '&' ∉ e.2.data

/-- A map for the examples. -/
def sampleScene : StringMap := [("uid", "42"), ("from", "a=b"), ("", "x")]

/-! ## Paths: the parts of `filepath.Clean` -/

/-- Whether a path begins with a separator. -/
def isRooted (path : String) : Bool := path.data.head? = some '/'

/-- The elements that `Clean` keeps of a path, last first. -/
def cleanStack (path : String) : List String :=
  ((splitOnSlash path.data).map String.mk).foldl (cleanStep (isRooted path)) []

/-- The path that `Clean` prints for the elements it kept. -/
def render (rooted : Bool) (stack : List String) : String :=
  if rooted then "/" ++ "/".intercalate stack.reverse
  else if "/".intercalate stack.reverse = "" then "." else "/".intercalate stack.reverse

/-- An ordinary element of a path: not empty, not `.`, not `..`, without a
separator. -/
def Plain (s : String) : Prop := s ≠ "" ∧ s ≠ "." ∧ s ≠ ".." ∧ '/' ∉ s.data

/-- The shape of the elements `Clean` keeps: ordinary elements on top of a
run of `..`, which is empty for a rooted path. -/
def StackOK (rooted : Bool) (stack : List String) : Prop :=
  ∃ (normals : List String) (n : Nat),
    stack = normals ++ List.replicate n ".." ∧ (rooted = true → n = 0) ∧
    ∀ x ∈ normals, Plain x

/-- The file `path` lies directly inside the directory `dir`: it is `dir`, a
separator and one non-empty name without a separator. -/
def DirectlyInside (dir path : String) : Prop :=
  ∃ name : String, name ≠ "" ∧ '/' ∉ name.data ∧ path = dir ++ "/" ++ name

/-! ## Basic facts about the users table -/

theorem firstByID_eq_none {l : List User} : firstByID l = none ↔ l = [] := by
  cases l with
  | nil => simp [firstByID]
  | cons u us =>
    simp only [firstByID]
    cases firstByID us with
    | none => simp
    | some v => by_cases h : u.ID ≤ v.ID <;> simp [h]

theorem firstByID_mem {l : List User} {u : User} (h : firstByID l = some u) : u ∈ l := by
  induction l generalizing u with
  | nil => simp [firstByID] at h
  | cons a as ih =>
    simp only [firstByID] at h
    cases hf : firstByID as with
    | none =>
      rw [hf] at h
      simp at h
      simp [h]
    | some v =>
      rw [hf] at h
      by_cases hle : a.ID ≤ v.ID
      · simp [hle] at h
        simp [h]
      · simp [hle] at h
        have := ih hf
        rw [← h]
        exact List.mem_cons_of_mem _ this

theorem FindByOpenID_ok {db : UserTable} {openID : String} {fault : Option String} {u : User}
    (h : FindByOpenID db openID fault = .ok u) :
    fault = none ∧ u ∈ db ∧ u.OpenID = openID ∧ u.DeletedAt = 0 := by
  unfold FindByOpenID gormFirstByOpenID at h
  cases fault with
  | some msg => simp at h
  | none =>
    simp only at h
    cases hf : firstByID (db.filter (fun u => u.OpenID = openID ∧ u.DeletedAt = 0)) with
    | none => rw [hf] at h; simp at h
    | some v =>
      rw [hf] at h
      simp only [Except.ok.injEq] at h
      subst h
      have hm := firstByID_mem hf
      simp only [List.mem_filter, decide_eq_true_eq] at hm
      exact ⟨rfl, hm.1, hm.2.1, hm.2.2⟩

theorem FindByOpenID_live {db : UserTable} {openID : String} (h : liveRow db openID) :
    ∃ u, FindByOpenID db openID none = .ok u := by
  obtain ⟨u, hu, h1, h2⟩ := h
  unfold FindByOpenID gormFirstByOpenID
  cases hf : firstByID (db.filter (fun u => u.OpenID = openID ∧ u.DeletedAt = 0)) with
  | none =>
    rw [firstByID_eq_none] at hf
    have : u ∈ db.filter (fun u => u.OpenID = openID ∧ u.DeletedAt = 0) := by
      simp [List.mem_filter, hu, h1, h2]
    rw [hf] at this
    simp at this
  | some v => exact ⟨v, by simp⟩

theorem FindByOpenID_not_live {db : UserTable} {openID : String} (h : ¬ liveRow db openID) :
    FindByOpenID db openID none = .error ErrUserNotFound := by
  unfold FindByOpenID gormFirstByOpenID
  cases hf : firstByID (db.filter (fun u => u.OpenID = openID ∧ u.DeletedAt = 0)) with
  | none => simp
  | some v =>
    exfalso
    have hm := firstByID_mem hf
    simp only [List.mem_filter, decide_eq_true_eq] at hm
    exact h ⟨v, hm.1, hm.2.1, hm.2.2⟩

theorem FindByOpenID_fault {db : UserTable} {openID msg : String} :
    FindByOpenID db openID (some msg) = .error (Wrap DatabaseError "failed to find user" msg) := by
  simp [FindByOpenID, gormFirstByOpenID]

theorem Update_ok {db db' : UserTable} {user : User} {dbNow : Int} {fault : Option String}
    (h : Update db user dbNow fault = .ok db') :
    fault = none ∧ db' = db.map (fun r =>
      if r.OpenID = user.OpenID ∧ r.DeletedAt = 0 then updatesRow r user dbNow else r) := by
  unfold Update gormUpdates at h
  cases fault with
  | some msg => simp at h
  | none => simp at h; exact ⟨rfl, h.symm⟩

theorem Update_rowKey {db db' : UserTable} {user : User} {dbNow : Int} {fault : Option String}
    (h : Update db user dbNow fault = .ok db') (hd : user.DeletedAt = 0) :
    db'.map rowKey = db.map rowKey := by
  obtain ⟨-, rfl⟩ := Update_ok h
  rw [List.map_map]
  apply List.map_congr_left
  intro r _
  simp only [Function.comp]
  by_cases hc : r.OpenID = user.OpenID ∧ r.DeletedAt = 0
  · rw [if_pos hc]
    simp only [rowKey, updatesRow, hd, if_true]
    by_cases he : user.OpenID = ""
    · simp [he]
    · simp [he, hc.1]
  · rw [if_neg hc]

theorem Create_ok {db db' : UserTable} {user : User} {newID dbNow : Int} {fault : Option String}
    (h : Create db user newID dbNow fault = .ok db') :
    fault = none ∧ db' = db ++ [insertedRow user newID dbNow] ∧
      ∀ r ∈ db, r.OpenID ≠ user.OpenID := by
  unfold Create gormCreate at h
  cases fault with
  | some msg => simp at h
  | none =>
    dsimp only at h
    by_cases hany : (db.any (fun r => r.ID = (insertedRow user newID dbNow).ID
        ∨ r.OpenID = (insertedRow user newID dbNow).OpenID)) = true
    · rw [if_pos hany] at h
      simp at h
    · rw [if_neg hany] at h
      simp only [Except.ok.injEq] at h
      refine ⟨rfl, h.symm, ?_⟩
      intro r hr heq
      apply hany
      rw [List.any_eq_true]
      exact ⟨r, hr, by simp [insertedRow, heq]⟩

theorem generateToken_ok {cfg : JWTConfig} {jwt : JWT} {now : Int} {openID t : String}
    (h : generateToken cfg jwt now openID = .ok t) :
    jwt.SignedString (tokenClaims cfg now openID) cfg.Secret = .ok t := by
  unfold generateToken at h
  cases hs : jwt.SignedString (tokenClaims cfg now openID) cfg.Secret with
  | error e => rw [hs] at h; simp at h
  | ok tok => rw [hs] at h; simp at h; rw [h]

theorem loginResponse_ok {d : Deps} {tokenNow : Int} {user : User} {b : Bool}
    {r : LoginResponse} (h : loginResponse d tokenNow user b = .ok r) :
    generateToken d.cfg d.jwt tokenNow user.OpenID = .ok r.Token ∧
      r.UserInfo = { OpenID := user.OpenID, NickName := user.NickName,
                     AvatarURL := user.AvatarURL, CreateTime := 0, LastLoginTime := 0 } ∧
      r.IsNewUser = b := by
  unfold loginResponse at h
  cases hg : generateToken d.cfg d.jwt tokenNow user.OpenID with
  | error e => rw [hg] at h; simp at h
  | ok tok =>
    rw [hg] at h
    simp only [Except.ok.injEq] at h
    subst h
    exact ⟨rfl, rfl, rfl⟩

/-- What a successful `WechatLogin` did: which branch it took, the repository
methods it called, its effect on the table and what it returned. -/
theorem WechatLogin_ok {d : Deps} {db : UserTable} {req : WechatLoginRequest} {env : LoginEnv}
    {r : LoginResponse} (h : (WechatLogin d db req env).result = .ok r) :
    env.exchangeErr = none ∧ env.session.ErrCode = 0 ∧
    generateToken d.cfg d.jwt env.tokenNow env.session.OpenID = .ok r.Token ∧
    r.UserInfo = { OpenID := env.session.OpenID, NickName := req.NickName,
                   AvatarURL := req.AvatarURL, CreateTime := 0, LastLoginTime := 0 } ∧
    ((FindByOpenID db env.session.OpenID env.findFault = .error ErrUserNotFound ∧
        r.IsNewUser = true ∧
        (WechatLogin d db req env).calls = [.FindByOpenID, .Create] ∧
        (∀ u ∈ db, u.OpenID ≠ env.session.OpenID) ∧
        (WechatLogin d db req env).db.map rowKey = db.map rowKey ++ [(env.session.OpenID, 0)]) ∨
     ((∃ u, FindByOpenID db env.session.OpenID env.findFault = .ok u) ∧
        r.IsNewUser = false ∧
        (WechatLogin d db req env).calls = [.FindByOpenID, .Update] ∧
        (WechatLogin d db req env).db.map rowKey = db.map rowKey)) := by
  unfold WechatLogin at h ⊢
  cases hx : env.exchangeErr with
  | some err => rw [hx] at h; simp at h
  | none =>
    rw [hx] at h
    dsimp only at h ⊢
    by_cases hc : env.session.ErrCode ≠ 0
    · rw [if_pos hc] at h; simp at h
    · rw [if_neg hc] at h ⊢
      have hc0 : env.session.ErrCode = 0 := by simpa using hc
      cases hF : FindByOpenID db env.session.OpenID env.findFault with
      | error e =>
        rw [hF] at h
        dsimp only at h ⊢
        by_cases hne : e ≠ ErrUserNotFound
        · rw [if_pos hne] at h; simp at h
        · rw [if_neg hne] at h ⊢
          have he : e = ErrUserNotFound := by simpa using hne
          subst he
          cases hC : Create db (newUser req env) env.newID env.dbNow env.writeFault with
          | error e2 => rw [hC] at h; simp at h
          | ok db' =>
            rw [hC] at h
            dsimp only at h ⊢
            obtain ⟨-, hdb, hfresh⟩ := Create_ok hC
            obtain ⟨hg, hu, hb⟩ := loginResponse_ok h
            refine ⟨rfl, hc0, hg, hu, Or.inl ⟨rfl, hb, rfl, hfresh, ?_⟩⟩
            rw [hdb]
            simp [rowKey, insertedRow, newUser, User.zero]
      | ok found =>
        rw [hF] at h
        dsimp only at h ⊢
        obtain ⟨-, -, hfo, hfd⟩ := FindByOpenID_ok hF
        cases hU : Update db (touchedUser found req env) env.dbNow env.writeFault with
        | error e2 => rw [hU] at h; simp at h
        | ok db' =>
          rw [hU] at h
          dsimp only at h ⊢
          obtain ⟨hg, hu, hb⟩ := loginResponse_ok h
          simp only [touchedUser, hfo] at hg hu
          exact ⟨rfl, hc0, hg, hu, Or.inr ⟨⟨found, rfl⟩, hb, rfl, Update_rowKey hU hfd⟩⟩

/-- Whatever its outcome, a `WechatLogin` call leaves the keys of the table
alone or appends one live row with a fresh openid. -/
theorem WechatLogin_rowKey (d : Deps) (db : UserTable) (req : WechatLoginRequest) (env : LoginEnv) :
    (WechatLogin d db req env).db.map rowKey = db.map rowKey ∨
    ((WechatLogin d db req env).db.map rowKey = db.map rowKey ++ [(env.session.OpenID, 0)] ∧
      ∀ u ∈ db, u.OpenID ≠ env.session.OpenID) := by
  unfold WechatLogin
  cases hx : env.exchangeErr with
  | some err => simp
  | none =>
    dsimp only
    by_cases hc : env.session.ErrCode ≠ 0
    · rw [if_pos hc]; simp
    · rw [if_neg hc]
      cases hF : FindByOpenID db env.session.OpenID env.findFault with
      | error e =>
        dsimp only
        by_cases hne : e ≠ ErrUserNotFound
        · rw [if_pos hne]; simp
        · rw [if_neg hne]
          cases hC : Create db (newUser req env) env.newID env.dbNow env.writeFault with
          | error e2 => simp
          | ok db' =>
            dsimp only
            obtain ⟨-, hdb, hfresh⟩ := Create_ok hC
            right
            refine ⟨?_, hfresh⟩
            rw [hdb]
            simp [rowKey, insertedRow, newUser, User.zero]
      | ok found =>
        dsimp only
        obtain ⟨-, -, -, hfd⟩ := FindByOpenID_ok hF
        cases hU : Update db (touchedUser found req env) env.dbNow env.writeFault with
        | error e2 => simp
        | ok db' =>
          dsimp only
          exact Or.inl (Update_rowKey hU hfd)

theorem UpdateUserInfo_rowKey (db : UserTable) (openID : String) (req : UpdateUserInfoRequest)
    (findFault writeFault : Option String) (dbNow : Int) :
    (UpdateUserInfo db openID req findFault writeFault dbNow).db.map rowKey = db.map rowKey := by
  unfold UpdateUserInfo
  cases hF : FindByOpenID db openID findFault with
  | error e => simp
  | ok found =>
    dsimp only
    obtain ⟨-, -, -, hfd⟩ := FindByOpenID_ok hF
    cases hU : Update db (editedUser found req) dbNow writeFault with
    | error e2 => simp
    | ok db' =>
      dsimp only
      exact Update_rowKey hU hfd

/-! ## Sequences of calls -/

theorem liveRow_iff {db : UserTable} {openID : String} :
    liveRow db openID ↔ (openID, (0 : Int)) ∈ db.map rowKey := by
  unfold liveRow
  simp only [List.mem_map, rowKey, Prod.mk.injEq]

theorem rowsWith_eq (db : UserTable) (openID : String) :
    rowsWith db openID = ((db.map rowKey).filter (fun k => k.1 = openID)).length := by
  unfold rowsWith
  induction db with
  | nil => simp
  | cons u us ih =>
    simp only [List.filter_cons, List.map_cons, rowKey] at ih ⊢
    by_cases h : u.OpenID = openID
    · simp [h, ih]
    · simp [h, ih]

theorem rowsWith_eq_zero {db : UserTable} {openID : String}
    (h : ∀ u ∈ db, u.OpenID ≠ openID) : rowsWith db openID = 0 := by
  unfold rowsWith
  rw [List.length_eq_zero, List.filter_eq_nil_iff]
  intro u hu
  simpa using h u hu

theorem rowsWith_pos {db : UserTable} {openID : String} (h : liveRow db openID) :
    1 ≤ rowsWith db openID := by
  obtain ⟨u, hu, h1, -⟩ := h
  unfold rowsWith
  apply List.length_pos_of_mem (a := u)
  simp [List.mem_filter, hu, h1]

theorem stepCall_rowKey (d : Deps) (db : UserTable) (c : AuthCall) :
    (stepCall d db c).map rowKey = db.map rowKey ∨
      ∃ e, (stepCall d db c).map rowKey = db.map rowKey ++ [(e, 0)] := by
  cases c with
  | login req env =>
    rcases WechatLogin_rowKey d db req env with h | ⟨h, -⟩
    · exact Or.inl h
    · exact Or.inr ⟨_, h⟩
  | updateUserInfo openID req f1 f2 dbNow =>
    exact Or.inl (UpdateUserInfo_rowKey db openID req f1 f2 dbNow)

theorem liveRow_stepCall {d : Deps} {db : UserTable} {openID : String} (c : AuthCall)
    (h : liveRow db openID) : liveRow (stepCall d db c) openID := by
  rw [liveRow_iff] at h ⊢
  rcases stepCall_rowKey d db c with hk | ⟨e, hk⟩
  · rw [hk]; exact h
  · rw [hk]; exact List.mem_append_left _ h

theorem liveRow_runCalls {d : Deps} {openID : String} (cs : List AuthCall) :
    ∀ {db : UserTable}, liveRow db openID → liveRow (runCalls d db cs) openID := by
  induction cs with
  | nil => intro db h; exact h
  | cons c cs ih => intro db h; exact ih (liveRow_stepCall c h)

/-- After a successful login the identity has a live row. -/
theorem liveRow_after_login {d : Deps} {db : UserTable} {req : WechatLoginRequest}
    {env : LoginEnv} {r : LoginResponse} (h : (WechatLogin d db req env).result = .ok r) :
    liveRow (WechatLogin d db req env).db env.session.OpenID := by
  obtain ⟨-, -, -, -, hbr⟩ := WechatLogin_ok h
  rw [liveRow_iff]
  rcases hbr with ⟨-, -, -, -, hk⟩ | ⟨⟨u, hu⟩, -, -, hk⟩
  · rw [hk]; simp
  · rw [hk, ← liveRow_iff]
    obtain ⟨-, hm, h1, h2⟩ := FindByOpenID_ok hu
    exact ⟨u, hm, h1, h2⟩

/-- A successful login for an identity with a live row took the update branch. -/
theorem login_of_liveRow {d : Deps} {db : UserTable} {req : WechatLoginRequest}
    {env : LoginEnv} {r : LoginResponse} (h : (WechatLogin d db req env).result = .ok r)
    (hl : liveRow db env.session.OpenID) :
    r.IsNewUser = false ∧ (WechatLogin d db req env).calls = [.FindByOpenID, .Update] ∧
      (WechatLogin d db req env).db.map rowKey = db.map rowKey := by
  obtain ⟨-, -, -, -, hbr⟩ := WechatLogin_ok h
  rcases hbr with ⟨hnf, -, -, -, -⟩ | ⟨-, hb, hc, hk⟩
  · exfalso
    cases hff : env.findFault with
    | some msg =>
      rw [hff, FindByOpenID_fault] at hnf
      simp [Wrap, ErrUserNotFound, New, DatabaseError, UserNotFound] at hnf
    | none =>
      rw [hff] at hnf
      obtain ⟨u, hu⟩ := FindByOpenID_live hl
      rw [hu] at hnf
      simp at hnf
  · exact ⟨hb, hc, hk⟩

/-- Claim C1.  A successful `WechatLogin` for the external identity `e` reports
`IsNewUser = true` when the lookup `FindByOpenID` of `e` in the table before
the call reports `ErrUserNotFound`, and every later successful `WechatLogin`
that the exchange maps to the same `e`, after any sequence of further calls of
the writing methods of the service, reports `IsNewUser = false`. -/
theorem C1_isNewUser_first_login_only (d : Deps) (db : UserTable) (req : WechatLoginRequest)
    (env : LoginEnv) (r : LoginResponse)
    (hok : (WechatLogin d db req env).result = .ok r) :
    (FindByOpenID db env.session.OpenID none = .error ErrUserNotFound → r.IsNewUser = true) ∧
    (∀ (cs : List AuthCall) (req2 : WechatLoginRequest) (env2 : LoginEnv) (r2 : LoginResponse),
      env2.session.OpenID = env.session.OpenID →
      (WechatLogin d (runCalls d (WechatLogin d db req env).db cs) req2 env2).result = .ok r2 →
      r2.IsNewUser = false) := by
  constructor
  · intro hnf
    obtain ⟨-, -, -, -, hbr⟩ := WechatLogin_ok hok
    rcases hbr with ⟨-, hb, -⟩ | ⟨⟨u, hu⟩, -⟩
    · exact hb
    · obtain ⟨hff, -⟩ := FindByOpenID_ok hu
      rw [hff, hnf] at hu
      simp at hu
  · intro cs req2 env2 r2 he h2
    have hl := liveRow_runCalls (d := d) cs (liveRow_after_login hok)
    rw [← he] at hl
    exact (login_of_liveRow h2 hl).1

/-- Worked example for C1 (the end-to-end scenario of the specification): on
an empty table the login for `ext-001` is a first login; after a login of
another identity, the next login for `ext-001` is not. -/
theorem C1_isNewUser_first_login_only_witness :
    (WechatLogin sampleDeps [] sampleReq sampleEnv).result = .ok (sampleResponse true) ∧
    FindByOpenID [] sampleEnv.session.OpenID none = .error ErrUserNotFound ∧
    (sampleResponse true).IsNewUser = true ∧
    (WechatLogin sampleDeps
        (runCalls sampleDeps (WechatLogin sampleDeps [] sampleReq sampleEnv).db
          [.login sampleReq sampleEnvOther])
        sampleReq sampleEnvLater).result = .ok (sampleResponse false) ∧
    (sampleResponse false).IsNewUser = false :=
  have h1 : (WechatLogin sampleDeps [] sampleReq sampleEnv).result
      = .ok (sampleResponse true) := by rfl
  have h2 : (WechatLogin sampleDeps
        (runCalls sampleDeps (WechatLogin sampleDeps [] sampleReq sampleEnv).db
          [.login sampleReq sampleEnvOther])
        sampleReq sampleEnvLater).result = .ok (sampleResponse false) := by rfl
  have h := C1_isNewUser_first_login_only sampleDeps [] sampleReq sampleEnv _ h1
  ⟨h1, by rfl, h.1 (by rfl), h2,
    h.2 [.login sampleReq sampleEnvOther] sampleReq sampleEnvLater _ rfl h2⟩

/-! ## One row per identity -/

theorem rowsWith_login (d : Deps) (db : UserTable) (req : WechatLoginRequest) (env : LoginEnv)
    (openID : String) :
    rowsWith (WechatLogin d db req env).db openID = rowsWith db openID ∨
      (rowsWith (WechatLogin d db req env).db openID = 1 ∧ rowsWith db openID = 0) := by
  rcases WechatLogin_rowKey d db req env with hk | ⟨hk, hfresh⟩
  · left
    rw [rowsWith_eq, rowsWith_eq, hk]
  · by_cases he : env.session.OpenID = openID
    · right
      have h0 : rowsWith db openID = 0 := rowsWith_eq_zero (he ▸ hfresh)
      refine ⟨?_, h0⟩
      rw [rowsWith_eq] at h0 ⊢
      rw [hk, List.filter_append, List.length_append, h0]
      simp [he]
    · left
      rw [rowsWith_eq, rowsWith_eq, hk, List.filter_append, List.length_append]
      simp [he]

theorem UniqueOpenID_login {d : Deps} {db : UserTable} (req : WechatLoginRequest)
    (env : LoginEnv) (h : UniqueOpenID db) : UniqueOpenID (WechatLogin d db req env).db := by
  intro openID
  rcases rowsWith_login d db req env openID with h1 | ⟨h1, -⟩
  · rw [h1]; exact h openID
  · rw [h1]

theorem rowsWith_le_login (d : Deps) (db : UserTable) (req : WechatLoginRequest)
    (env : LoginEnv) (openID : String) :
    rowsWith db openID ≤ rowsWith (WechatLogin d db req env).db openID := by
  rcases rowsWith_login d db req env openID with h1 | ⟨h1, h0⟩
  · rw [h1]
  · rw [h1, h0]; exact Nat.zero_le 1

theorem loginAll_invariant (d : Deps) (cs : List (WechatLoginRequest × LoginEnv)) :
    ∀ (db dbn : UserTable), loginAll d db cs = some dbn →
      (UniqueOpenID db → UniqueOpenID dbn) ∧
      (∀ openID, rowsWith db openID ≤ rowsWith dbn openID) ∧
      (∀ c ∈ cs, 1 ≤ rowsWith dbn c.2.session.OpenID) := by
  induction cs with
  | nil =>
    intro db dbn h
    simp only [loginAll, Option.some.injEq] at h
    subst h
    exact ⟨id, fun _ => le_refl _, by simp⟩
  | cons c cs ih =>
    intro db dbn h
    obtain ⟨req, env⟩ := c
    simp only [loginAll] at h
    cases hr : (WechatLogin d db req env).result with
    | error e => rw [hr] at h; simp at h
    | ok r =>
      rw [hr] at h
      dsimp only at h
      obtain ⟨hu, hmono, hall⟩ := ih _ _ h
      refine ⟨fun h0 => hu (UniqueOpenID_login req env h0),
        fun o => le_trans (rowsWith_le_login d db req env o) (hmono o), ?_⟩
      intro c hc
      rcases List.mem_cons.mp hc with rfl | hc
      · exact le_trans (rowsWith_pos (liveRow_after_login hr)) (hmono _)
      · exact hall c hc

/-- Claim C2.  From a table with at most one row per openid, after any finite
sequence of `WechatLogin` calls that all succeed, run one after the other,
the table still has at most one row per openid and exactly one row for every
identity that logged in; and a successful login for an identity that already
has a row calls `FindByOpenID` and `Update`, never `Create`, and leaves the
number of rows of every identity unchanged. -/
theorem C2_one_row_per_identity (d : Deps) (db0 dbn : UserTable)
    (cs : List (WechatLoginRequest × LoginEnv))
    (h0 : UniqueOpenID db0) (hrun : loginAll d db0 cs = some dbn) :
    UniqueOpenID dbn ∧
    (∀ c ∈ cs, rowsWith dbn c.2.session.OpenID = 1) ∧
    (∀ (db : UserTable) (req : WechatLoginRequest) (env : LoginEnv) (r : LoginResponse),
      (∃ u ∈ db, u.OpenID = env.session.OpenID) →
      (WechatLogin d db req env).result = .ok r →
      (WechatLogin d db req env).calls = [.FindByOpenID, .Update] ∧
      RepoCall.Create ∉ (WechatLogin d db req env).calls ∧
      ∀ openID, rowsWith (WechatLogin d db req env).db openID = rowsWith db openID) := by
  obtain ⟨hu, -, hall⟩ := loginAll_invariant d cs db0 dbn hrun
  refine ⟨hu h0, fun c hc => le_antisymm (hu h0 _) (hall c hc), ?_⟩
  intro db req env r hex hok
  obtain ⟨-, -, -, -, hbr⟩ := WechatLogin_ok hok
  rcases hbr with ⟨-, -, -, hfresh, -⟩ | ⟨-, -, hc, hk⟩
  · obtain ⟨u, hu1, hu2⟩ := hex
    exact absurd hu2 (hfresh u hu1)
  · refine ⟨hc, ?_, ?_⟩
    · rw [hc]; decide
    · intro o
      rw [rowsWith_eq, rowsWith_eq, hk]

/-- Worked example for C2: three logins in a row from the empty table, two of
them for the same identity, leave one row for it. -/
theorem C2_one_row_per_identity_witness :
    UniqueOpenID [] ∧
    loginAll sampleDeps []
      [(sampleReq, sampleEnv), (sampleReq, sampleEnvOther), (sampleReq, sampleEnvLater)]
      = some (runCalls sampleDeps []
          [.login sampleReq sampleEnv, .login sampleReq sampleEnvOther,
           .login sampleReq sampleEnvLater]) ∧
    rowsWith (runCalls sampleDeps []
          [.login sampleReq sampleEnv, .login sampleReq sampleEnvOther,
           .login sampleReq sampleEnvLater]) "ext-001" = 1 :=
  have h0 : UniqueOpenID [] := fun _ => Nat.zero_le 1
  have hrun : loginAll sampleDeps []
      [(sampleReq, sampleEnv), (sampleReq, sampleEnvOther), (sampleReq, sampleEnvLater)]
      = some (runCalls sampleDeps []
          [.login sampleReq sampleEnv, .login sampleReq sampleEnvOther,
           .login sampleReq sampleEnvLater]) := by rfl
  ⟨h0, hrun,
    (C2_one_row_per_identity sampleDeps [] _ _ h0 hrun).2.1 (sampleReq, sampleEnv)
      (List.mem_cons_self _ _)⟩

/-! ## Failures of the identity exchange -/

/-- Counterexample to C3 as stated: a transport failure of the identity
exchange makes `WechatLogin` fail with `InternalError`, which the response
layer maps to HTTP 500, not 401; and so does a provider error code, which
the SDK reports as an error as well. -/
theorem C3_transport_failure_is_500 :
    (WechatLogin sampleDeps [] sampleReq sampleEnvTransport).result
      = .error (Wrap InternalError "调用微信API失败" "dial tcp: i/o timeout") ∧
    getHTTPStatus (Wrap InternalError "调用微信API失败" "dial tcp: i/o timeout").Code = 500 ∧
    getHTTPStatus (Wrap InternalError "调用微信API失败" "dial tcp: i/o timeout").Code ≠ 401 ∧
    sampleEnvRejected.session.ErrCode = 40029 ∧
    (WechatLogin sampleDeps [] sampleReq sampleEnvRejected).result
      = .error (Wrap InternalError "调用微信API失败"
          "Code2Session error : errcode=40029 , errmsg=invalid code") ∧
    getHTTPStatus (Wrap InternalError "调用微信API失败"
      "Code2Session error : errcode=40029 , errmsg=invalid code").Code = 500 := by
  refine ⟨by rfl, by decide, by decide, by rfl, by rfl, by decide⟩

theorem FindByOpenID_error_code {db : UserTable} {openID : String} {fault : Option String}
    {err : AppError} (h : FindByOpenID db openID fault = .error err) (hne : err ≠ ErrUserNotFound) :
    err.Code = DatabaseError := by
  unfold FindByOpenID at h
  cases hg : gormFirstByOpenID db openID fault with
  | error e =>
    rw [hg] at h
    cases e with
    | ErrRecordNotFound =>
      simp only [Except.error.injEq] at h
      exact absurd h.symm hne
    | Other msg =>
      simp only [Except.error.injEq] at h
      rw [← h]; rfl
  | ok u => rw [hg] at h; simp at h

theorem Create_error_code {db : UserTable} {user : User} {newID dbNow : Int}
    {fault : Option String} {err : AppError} (h : Create db user newID dbNow fault = .error err) :
    err.Code = DatabaseError := by
  unfold Create at h
  cases hg : gormCreate db user newID dbNow fault with
  | error e =>
    rw [hg] at h
    cases e <;> simp only [Except.error.injEq] at h <;> rw [← h] <;> rfl
  | ok u => rw [hg] at h; simp at h

theorem Update_error_code {db : UserTable} {user : User} {dbNow : Int}
    {fault : Option String} {err : AppError} (h : Update db user dbNow fault = .error err) :
    err.Code = DatabaseError := by
  unfold Update at h
  cases hg : gormUpdates db user dbNow fault with
  | error e =>
    rw [hg] at h
    cases e <;> simp only [Except.error.injEq] at h <;> rw [← h] <;> rfl
  | ok u => rw [hg] at h; simp at h

theorem loginResponse_error_code {d : Deps} {tokenNow : Int} {user : User} {isNewUser : Bool}
    {err : AppError} (h : loginResponse d tokenNow user isNewUser = .error err) :
    err.Code = InternalError := by
  unfold loginResponse generateToken at h
  cases hs : d.jwt.SignedString (tokenClaims d.cfg tokenNow user.OpenID) d.cfg.Secret with
  | error e =>
    rw [hs] at h
    simp only [Except.error.injEq] at h
    rw [← h]; rfl
  | ok t => rw [hs] at h; simp at h

/-- When `Code2SessionContext` keeps its contract, every error `WechatLogin`
returns is an `InternalError` or a `DatabaseError`. -/
theorem WechatLogin_error_code (d : Deps) (db : UserTable) (req : WechatLoginRequest)
    (env : LoginEnv) (hsdk : ExchangeContract env) (e : AppError)
    (h : (WechatLogin d db req env).result = .error e) :
    e.Code = InternalError ∨ e.Code = DatabaseError := by
  unfold WechatLogin at h
  cases hx : env.exchangeErr with
  | some msg =>
    rw [hx] at h
    simp only [Except.error.injEq] at h
    rw [← h]; exact Or.inl rfl
  | none =>
    rw [hx] at h
    dsimp only at h
    have hc : ¬ env.session.ErrCode ≠ 0 := fun hne => hne (hsdk hx)
    rw [if_neg hc] at h
    cases hf : FindByOpenID db env.session.OpenID env.findFault with
    | error err =>
      rw [hf] at h
      dsimp only at h
      by_cases hne : err ≠ ErrUserNotFound
      · rw [if_pos hne] at h
        simp only [Except.error.injEq] at h
        rw [← h]
        exact Or.inr (FindByOpenID_error_code hf hne)
      · rw [if_neg hne] at h
        cases hcr : Create db (newUser req env) env.newID env.dbNow env.writeFault with
        | error err2 =>
          rw [hcr] at h
          simp only [Except.error.injEq] at h
          rw [← h]
          exact Or.inr (Create_error_code hcr)
        | ok db2 =>
          rw [hcr] at h
          exact Or.inl (loginResponse_error_code h)
    | ok found =>
      rw [hf] at h
      dsimp only at h
      cases hup : Update db (touchedUser found req env) env.dbNow env.writeFault with
      | error err2 =>
        rw [hup] at h
        simp only [Except.error.injEq] at h
        rw [← h]
        exact Or.inr (Update_error_code hup)
      | ok db2 =>
        rw [hup] at h
        exact Or.inl (loginResponse_error_code h)

/-- Claim C3, amended.  `Code2SessionContext` returns an error both when the
identity exchange fails in transport and when the provider reports a non-zero
error code (the contract of the SDK, `ExchangeContract`).  For every login
request: whenever it returns an error, `WechatLogin` fails with an
`InternalError` wrapping that error, which the response layer maps to HTTP
500, not 401, calls no repository method and leaves the table unchanged; a
non-zero provider error code is such a case.  No error `WechatLogin` returns
is mapped to HTTP 401: the `Unauthorized` return for a non-zero `ErrCode`
(lines 48-50) is never reached. -/
theorem C3_exchange_failures (d : Deps) (db : UserTable) (req : WechatLoginRequest)
    (env : LoginEnv) (hsdk : ExchangeContract env) :
    (∀ msg, env.exchangeErr = some msg →
      (WechatLogin d db req env).result = .error (Wrap InternalError "调用微信API失败" msg) ∧
      getHTTPStatus (Wrap InternalError "调用微信API失败" msg).Code = 500 ∧
      (WechatLogin d db req env).db = db ∧ (WechatLogin d db req env).calls = []) ∧
    (env.session.ErrCode ≠ 0 →
      ∃ msg, env.exchangeErr = some msg ∧
        (WechatLogin d db req env).result = .error (Wrap InternalError "调用微信API失败" msg) ∧
        getHTTPStatus (Wrap InternalError "调用微信API失败" msg).Code = 500 ∧
        (WechatLogin d db req env).db = db ∧ (WechatLogin d db req env).calls = []) ∧
    (∀ e, (WechatLogin d db req env).result = .error e →
      getHTTPStatus e.Code = 500 ∧ getHTTPStatus e.Code ≠ 401 ∧ e.Code ≠ Unauthorized) := by
  have h1 : ∀ msg, env.exchangeErr = some msg →
      (WechatLogin d db req env).result = .error (Wrap InternalError "调用微信API失败" msg) ∧
      getHTTPStatus (Wrap InternalError "调用微信API失败" msg).Code = 500 ∧
      (WechatLogin d db req env).db = db ∧ (WechatLogin d db req env).calls = [] := by
    intro msg hx
    unfold WechatLogin
    rw [hx]
    exact ⟨rfl, rfl, rfl, rfl⟩
  refine ⟨h1, ?_, ?_⟩
  · intro hc
    cases hx : env.exchangeErr with
    | none => exact absurd (hsdk hx) hc
    | some msg => exact ⟨msg, rfl, h1 msg hx⟩
  · intro e he
    rcases WechatLogin_error_code d db req env hsdk e he with h | h
    · rw [h]; exact ⟨by decide, by decide, by decide⟩
    · rw [h]; exact ⟨by decide, by decide, by decide⟩

/-- Worked example for the amended C3: a transport failure and a provider
error code, on the sample table. -/
theorem C3_exchange_failures_witness :
    ExchangeContract sampleEnvRejected ∧ sampleEnvRejected.session.ErrCode ≠ 0 ∧
    (∃ msg, sampleEnvRejected.exchangeErr = some msg ∧
      (WechatLogin sampleDeps sampleTable sampleReq sampleEnvRejected).result
        = .error (Wrap InternalError "调用微信API失败" msg) ∧
      getHTTPStatus (Wrap InternalError "调用微信API失败" msg).Code = 500 ∧
      (WechatLogin sampleDeps sampleTable sampleReq sampleEnvRejected).db = sampleTable ∧
      (WechatLogin sampleDeps sampleTable sampleReq sampleEnvRejected).calls = []) ∧
    (WechatLogin sampleDeps sampleTable sampleReq sampleEnvRejected).result
      = .error (Wrap InternalError "调用微信API失败"
          "Code2Session error : errcode=40029 , errmsg=invalid code") ∧
    (WechatLogin sampleDeps sampleTable sampleReq sampleEnvTransport).result
      = .error (Wrap InternalError "调用微信API失败" "dial tcp: i/o timeout") :=
  have hsdk : ExchangeContract sampleEnvRejected := fun h => absurd h (by decide)
  ⟨hsdk, by decide,
    (C3_exchange_failures sampleDeps sampleTable sampleReq sampleEnvRejected hsdk).2.1 (by decide),
    by rfl, by rfl⟩

/-! ## What a login returns -/

/-- Claim C4.  For every successful `WechatLogin`, through the create branch
or the update branch alike, the returned `UserInfo.OpenID` is the identity the
exchange returned, `UserInfo.NickName` and `UserInfo.AvatarURL` are the values
of the request, and the returned token is the signature, under the configured
secret, of a claims set whose subject is that identity. -/
theorem C4_login_response_fields (d : Deps) (db : UserTable) (req : WechatLoginRequest)
    (env : LoginEnv) (r : LoginResponse)
    (hok : (WechatLogin d db req env).result = .ok r) :
    r.UserInfo.OpenID = env.session.OpenID ∧
    r.UserInfo.NickName = req.NickName ∧
    r.UserInfo.AvatarURL = req.AvatarURL ∧
    d.jwt.SignedString (tokenClaims d.cfg env.tokenNow env.session.OpenID) d.cfg.Secret
      = .ok r.Token ∧
    (tokenClaims d.cfg env.tokenNow env.session.OpenID).Subject = env.session.OpenID := by
  obtain ⟨-, -, hg, hu, -⟩ := WechatLogin_ok hok
  rw [hu]
  exact ⟨rfl, rfl, rfl, generateToken_ok hg, rfl⟩

/-- Worked example for C4: a login of an existing user with other profile
values. -/
theorem C4_login_response_fields_witness :
    (WechatLogin sampleDeps sampleTable
        { Code := "xyz", NickName := "Bob", AvatarURL := "" } sampleEnvLater).result
      = .ok { Token := "s3cret.ext-001",
              UserInfo := { OpenID := "ext-001", NickName := "Bob", AvatarURL := "",
                            CreateTime := 0, LastLoginTime := 0 },
              IsNewUser := false } ∧
    ("ext-001" = sampleEnvLater.session.OpenID ∧ "Bob" = "Bob" ∧ "" = "" ∧
      sampleDeps.jwt.SignedString
          (tokenClaims sampleDeps.cfg sampleEnvLater.tokenNow sampleEnvLater.session.OpenID)
          sampleDeps.cfg.Secret = .ok "s3cret.ext-001" ∧
      (tokenClaims sampleDeps.cfg sampleEnvLater.tokenNow sampleEnvLater.session.OpenID).Subject
        = sampleEnvLater.session.OpenID) :=
  have h : (WechatLogin sampleDeps sampleTable
        { Code := "xyz", NickName := "Bob", AvatarURL := "" } sampleEnvLater).result
      = .ok { Token := "s3cret.ext-001",
              UserInfo := { OpenID := "ext-001", NickName := "Bob", AvatarURL := "",
                            CreateTime := 0, LastLoginTime := 0 },
              IsNewUser := false } := by rfl
  ⟨h, C4_login_response_fields sampleDeps sampleTable _ sampleEnvLater _ h⟩

/-! ## Refreshing a token -/

/-- Claim C5.  When the lookup runs, `RefreshToken` for an openid with no
(live) user in the table fails with `ErrUserNotFound`, whose code the response
layer maps to HTTP 404, and so returns no token; for an openid with a (live)
user it returns, whenever the library signs, the signature of a claims set
whose subject is that openid, the `OpenID` of the user found. -/
theorem C5_refresh_token (d : Deps) (db : UserTable) (openID : String) (tokenNow : Int) :
    (¬ liveRow db openID →
      RefreshToken d db openID none tokenNow = .error ErrUserNotFound ∧
      ErrUserNotFound.Code = UserNotFound ∧ getHTTPStatus ErrUserNotFound.Code = 404) ∧
    (liveRow db openID →
      (∀ c : RegisteredClaims, ∃ t, d.jwt.SignedString c d.cfg.Secret = .ok t) →
      ∃ u t, FindByOpenID db openID none = .ok u ∧ u.OpenID = openID ∧
        RefreshToken d db openID none tokenNow = .ok { Token := t, ExpiresIn := 0 } ∧
        d.jwt.SignedString (tokenClaims d.cfg tokenNow u.OpenID) d.cfg.Secret = .ok t ∧
        (tokenClaims d.cfg tokenNow u.OpenID).Subject = u.OpenID) := by
  constructor
  · intro hn
    unfold RefreshToken
    rw [FindByOpenID_not_live hn]
    exact ⟨rfl, rfl, by decide⟩
  · intro hl hs
    obtain ⟨u, hu⟩ := FindByOpenID_live hl
    obtain ⟨-, -, ho, -⟩ := FindByOpenID_ok hu
    obtain ⟨t, ht⟩ := hs (tokenClaims d.cfg tokenNow u.OpenID)
    refine ⟨u, t, hu, ho, ?_, ht, rfl⟩
    unfold RefreshToken generateToken
    rw [hu]
    dsimp only
    rw [ht]

/-- Worked example for C5: an unknown openid and a known one, on the sample
table. -/
theorem C5_refresh_token_witness :
    (¬ liveRow sampleTable "ext-404" ∧
      RefreshToken sampleDeps sampleTable "ext-404" none 1700000000000000000
        = .error ErrUserNotFound ∧
      ErrUserNotFound.Code = UserNotFound ∧ getHTTPStatus ErrUserNotFound.Code = 404) ∧
    (liveRow sampleTable "ext-001" ∧
      RefreshToken sampleDeps sampleTable "ext-001" none 1700000000000000000
        = .ok { Token := "s3cret.ext-001", ExpiresIn := 0 } ∧
      ∃ u t, FindByOpenID sampleTable "ext-001" none = .ok u ∧ u.OpenID = "ext-001" ∧
        RefreshToken sampleDeps sampleTable "ext-001" none 1700000000000000000
          = .ok { Token := t, ExpiresIn := 0 } ∧
        sampleDeps.jwt.SignedString
          (tokenClaims sampleDeps.cfg 1700000000000000000 u.OpenID) sampleDeps.cfg.Secret
          = .ok t ∧
        (tokenClaims sampleDeps.cfg 1700000000000000000 u.OpenID).Subject = u.OpenID) :=
  have hn : ¬ liveRow sampleTable "ext-404" := by
    rintro ⟨u, hu, h1, -⟩
    simp [sampleTable] at hu
    subst hu
    simp at h1
  have hl : liveRow sampleTable "ext-001" := ⟨_, List.mem_singleton.mpr rfl, rfl, rfl⟩
  ⟨⟨hn, (C5_refresh_token sampleDeps sampleTable "ext-404" 1700000000000000000).1 hn⟩,
   ⟨hl, by rfl,
    (C5_refresh_token sampleDeps sampleTable "ext-001" 1700000000000000000).2 hl
      (fun _ => ⟨_, rfl⟩)⟩⟩

/-! ## Updating the profile -/

theorem liveRows_eq_singleton {db : UserTable} {openID : String} {u : User}
    (hu : UniqueOpenID db) (hm : u ∈ db) (h1 : u.OpenID = openID) (h2 : u.DeletedAt = 0) :
    db.filter (fun r => r.OpenID = openID ∧ r.DeletedAt = 0) = [u] := by
  have hsub : db.filter (fun r => r.OpenID = openID ∧ r.DeletedAt = 0)
      = (db.filter (fun r => r.OpenID = openID)).filter (fun r => decide (r.DeletedAt = 0)) := by
    rw [List.filter_filter]
    congr 1
    funext r
    simp [Bool.and_comm]
  have hlen : (db.filter (fun r => r.OpenID = openID ∧ r.DeletedAt = 0)).length ≤ 1 := by
    rw [hsub]
    exact le_trans (List.length_filter_le _ _) (hu openID)
  have hmem : u ∈ db.filter (fun r => r.OpenID = openID ∧ r.DeletedAt = 0) := by
    simp [List.mem_filter, hm, h1, h2]
  generalize db.filter (fun r => r.OpenID = openID ∧ r.DeletedAt = 0) = l at hlen hmem
  match l, hlen, hmem with
  | [a], _, hmem => simp at hmem; rw [hmem]
  | _ :: _ :: _, hlen, _ => simp at hlen

/-- What `UpdateUserInfo` stores.  On a table with at most one row per openid,
after a successful `UpdateUserInfo` the next `GetUserInfo` for the same openid
returns, for each of the two fields, the supplied value when it is not empty
and the value stored before when it is empty. -/
theorem UpdateUserInfo_then_GetUserInfo {db : UserTable} {openID : String}
    {req : UpdateUserInfoRequest} {dbNow : Int} {dto : UserInfoDTO}
    (hu : UniqueOpenID db)
    (hok : (UpdateUserInfo db openID req none none dbNow).result = .ok dto) :
    ∃ old, FindByOpenID db openID none = .ok old ∧
      dto = { OpenID := openID, NickName := req.NickName, AvatarURL := req.AvatarURL,
              CreateTime := old.CreatedAt, LastLoginTime := old.LastLoginTime } ∧
      GetUserInfo (UpdateUserInfo db openID req none none dbNow).db openID none
        = .ok { OpenID := openID,
                NickName := if req.NickName = "" then old.NickName else req.NickName,
                AvatarURL := if req.AvatarURL = "" then old.AvatarURL else req.AvatarURL,
                CreateTime := old.CreatedAt, LastLoginTime := old.LastLoginTime } := by
  unfold UpdateUserInfo at hok ⊢
  cases hF : FindByOpenID db openID none with
  | error e => rw [hF] at hok; simp at hok
  | ok old =>
    rw [hF] at hok
    dsimp only at hok ⊢
    obtain ⟨-, hm, ho, hd⟩ := FindByOpenID_ok hF
    cases hU : Update db (editedUser old req) dbNow none with
    | error e => rw [hU] at hok; simp at hok
    | ok db' =>
      rw [hU] at hok
      dsimp only at hok ⊢
      simp only [Except.ok.injEq] at hok
      refine ⟨old, rfl, ?_, ?_⟩
      · rw [← hok]; simp [editedUser, ho]
      · obtain ⟨-, hdb⟩ := Update_ok hU
        have hfil : db'.filter (fun r => r.OpenID = openID ∧ r.DeletedAt = 0)
            = [updatesRow old (editedUser old req) dbNow] := by
          rw [hdb, List.filter_map]
          have hcomp : ((fun r : User => decide (r.OpenID = openID ∧ r.DeletedAt = 0)) ∘
              (fun r : User => if r.OpenID = (editedUser old req).OpenID ∧ r.DeletedAt = 0
                then updatesRow r (editedUser old req) dbNow else r))
              = (fun r : User => decide (r.OpenID = openID ∧ r.DeletedAt = 0)) := by
            funext r
            simp only [Function.comp]
            by_cases hc : r.OpenID = (editedUser old req).OpenID ∧ r.DeletedAt = 0
            · simp only [if_pos hc]
              have hro : r.OpenID = openID := by rw [hc.1]; simp [editedUser, ho]
              have hk : (updatesRow r (editedUser old req) dbNow).OpenID = openID := by
                simp only [updatesRow, editedUser, ho]
                by_cases he : openID = ""
                · simp [he] at hro ⊢; exact hro
                · simp [he]
              have hk2 : (updatesRow r (editedUser old req) dbNow).DeletedAt = 0 := by
                simp [updatesRow, editedUser, hd, hc.2]
              simp [hk, hk2, hro, hc.2]
            · simp only [if_neg hc]
          rw [hcomp, liveRows_eq_singleton hu hm ho hd]
          simp [editedUser, ho, hd]
        unfold GetUserInfo FindByOpenID gormFirstByOpenID
        dsimp only
        rw [hfil]
        simp only [firstByID]
        simp only [updatesRow, editedUser, ho]
        by_cases he : openID = ""
        · simp [he]
        · simp [he]

/-- Evaluation for C6 at the failing input.  On the sample table,
`UpdateUserInfo` with nick name `Bob` and an empty avatar URL succeeds and
returns a DTO with the empty avatar URL, but `Updates` skipped that zero-valued
field: the stored avatar URL is still the old one, and that is what the next
`GetUserInfo` returns. -/
theorem C6_empty_avatar_is_not_stored :
    (UpdateUserInfo sampleTable "ext-001" { NickName := "Bob", AvatarURL := "" }
        none none 1700000900000).result
      = .ok { OpenID := "ext-001", NickName := "Bob", AvatarURL := "",
              CreateTime := 1700000000000, LastLoginTime := 1700000000000 } ∧
    (UpdateUserInfo sampleTable "ext-001" { NickName := "Bob", AvatarURL := "" }
        none none 1700000900000).calls = [.FindByOpenID, .Update] ∧
    GetUserInfo
        (UpdateUserInfo sampleTable "ext-001" { NickName := "Bob", AvatarURL := "" }
          none none 1700000900000).db
        "ext-001" none
      = .ok { OpenID := "ext-001", NickName := "Bob", AvatarURL := "http://img/a.png",
              CreateTime := 1700000000000, LastLoginTime := 1700000000000 } := by
  refine ⟨by rfl, by rfl, by rfl⟩

/-! ## The claims of a token -/

theorem wrapInt64_of_fits {x : Int} (h1 : -(2 ^ 63) ≤ x) (h2 : x < 2 ^ 63) :
    wrapInt64 x = x := by
  unfold wrapInt64
  rw [Int.emod_eq_of_lt (by omega) (by omega)]
  omega

theorem NewNumericDate_add_seconds (t k : Int) :
    NewNumericDate (t + 1000000000 * k) = NewNumericDate t + 1000000000 * k := by
  unfold NewNumericDate
  rw [Int.add_mul_ediv_left t k (by norm_num : (1000000000 : Int) ≠ 0)]
  ring

/-- Counterexample to C7 as stated.  At half a second past a whole second the
issued-at claim is not the clock reading but the reading truncated to the
second; and with `ExpireHours = 2562048` the product `time.Hour * ExpireHours`
wraps around, so the expiry lies before the issue instant and the difference
is not `ExpireHours * 3600` seconds. -/
theorem C7_not_for_every_clock_and_ttl :
    (tokenClaims hugeCfg 1700000000500000000 "ext-001").IssuedAt
      = some 1700000000000000000 ∧
    (1700000000000000000 : Int) ≠ 1700000000500000000 ∧
    (tokenClaims hugeCfg 1700000000500000000 "ext-001").ExpiresAt
      = some (-7523371274000000000) ∧
    (-7523371274000000000 : Int) - 1700000000000000000
      ≠ hugeCfg.ExpireHours * 3600 * 1000000000 := by
  refine ⟨by rfl, by decide, by rfl, by decide⟩

/-- Claim C7, amended.  For every openID and clock reading `now`, the claims
set built by `generateToken` (the one it signs) has `Subject = openID`,
`IssuedAt` = `now` truncated to the whole second, and `ExpiresAt` =
`now + ExpireHours` hours, as an `int64` number of nanoseconds, truncated to
the whole second.  When `ExpireHours` hours fit in an `int64` number of
nanoseconds, `ExpiresAt - IssuedAt` is exactly `ExpireHours * 3600` seconds;
and when `now` is a whole second, `IssuedAt = now`. -/
theorem C7_token_claims (cfg : JWTConfig) (jwt : JWT) (now : Int) (openID : String) :
    (∀ t, generateToken cfg jwt now openID = .ok t →
      jwt.SignedString (tokenClaims cfg now openID) cfg.Secret = .ok t) ∧
    (tokenClaims cfg now openID).Subject = openID ∧
    (tokenClaims cfg now openID).IssuedAt = some (NewNumericDate now) ∧
    (tokenClaims cfg now openID).ExpiresAt
      = some (NewNumericDate (now + wrapInt64 (Hour * cfg.ExpireHours))) ∧
    (-(2 ^ 63) ≤ Hour * cfg.ExpireHours → Hour * cfg.ExpireHours < 2 ^ 63 →
      (tokenClaims cfg now openID).ExpiresAt
        = some (NewNumericDate now + cfg.ExpireHours * 3600 * 1000000000)) ∧
    (now % 1000000000 = 0 → (tokenClaims cfg now openID).IssuedAt = some now) := by
  refine ⟨fun t h => generateToken_ok h, rfl, rfl, rfl, ?_, ?_⟩
  · intro h1 h2
    simp only [tokenClaims, wrapInt64_of_fits h1 h2, Option.some.injEq]
    have : Hour * cfg.ExpireHours = 1000000000 * (3600 * cfg.ExpireHours) := by
      unfold Hour; ring
    rw [this, NewNumericDate_add_seconds]
    ring
  · intro h
    simp only [tokenClaims, NewNumericDate, Option.some.injEq]
    omega

/-- Worked example for the amended C7: 72 hours from a whole second. -/
theorem C7_token_claims_witness :
    (-(2 ^ 63) ≤ Hour * sampleCfg.ExpireHours ∧ Hour * sampleCfg.ExpireHours < 2 ^ 63 ∧
      (1700000000000000000 : Int) % 1000000000 = 0) ∧
    (tokenClaims sampleCfg 1700000000000000000 "ext-001").ExpiresAt
      = some (NewNumericDate 1700000000000000000 + sampleCfg.ExpireHours * 3600 * 1000000000) ∧
    (tokenClaims sampleCfg 1700000000000000000 "ext-001").IssuedAt
      = some 1700000000000000000 ∧
    (tokenClaims sampleCfg 1700000000000000000 "ext-001").ExpiresAt
      = some 1700259200000000000 :=
  ⟨⟨by decide, by decide, by decide⟩,
   (C7_token_claims sampleCfg signAllJWT 1700000000000000000 "ext-001").2.2.2.2.1
     (by decide) (by decide),
   (C7_token_claims sampleCfg signAllJWT 1700000000000000000 "ext-001").2.2.2.2.2 (by decide),
   by rfl⟩

/-! ## The middleware -/

theorem SplitN2_bearer (tok : String) : SplitN2 ("Bearer " ++ tok) ' ' = ["Bearer", tok] := by
  unfold SplitN2
  have h : ("Bearer " ++ tok).data = 'B' :: 'e' :: 'a' :: 'r' :: 'e' :: 'r' :: ' ' :: tok.data := by
    rw [String.data_append]
    rfl
  rw [h]
  simp [cutAt]

theorem bearer_ne_empty (tok : String) : "Bearer " ++ tok ≠ "" := by
  intro h
  have := congrArg String.length h
  simp [String.length_append] at this
  have h2 : "Bearer ".length = 7 := by decide
  omega

/-- The middleware on a header `Bearer <token>`: only the verification of the
token decides. -/
theorem Auth_bearer (cfg : JWTConfig) (jwt : JWT) (now : Int) (tok : String) :
    Auth cfg jwt now ("Bearer " ++ tok) =
      match jwt.ParseWithClaims tok cfg.Secret now with
      | .error _ => abortWith now ErrInvalidToken
      | .ok token =>
        if !token.Valid then abortWith now ErrInvalidToken
        else { reply := none, aborted := false, openid := some token.Claims.Subject,
               nextCalled := true } := by
  unfold Auth
  rw [if_neg (bearer_ne_empty tok), SplitN2_bearer]
  simp

theorem oneTokenJWT_roundTrip (c0 : RegisteredClaims) (k0 t0 : String) :
    (oneTokenJWT c0 k0 t0).RoundTrip := by
  intro c key t exp now hs he hlt
  simp only [oneTokenJWT] at hs ⊢
  by_cases hc : c = c0 ∧ key = k0
  · rw [if_pos hc] at hs
    simp only [Except.ok.injEq] at hs
    obtain ⟨rfl, rfl⟩ := hc
    subst hs
    simp [he, hlt]
  · rw [if_neg hc] at hs
    simp at hs

/-- Claim C8.  With a JWT library that keeps its verification contract, for
every subject `s` and secret, a token produced by `generateToken` for `s`
and presented as `Bearer <token>` to the middleware configured with the same
secret, at any instant before the expiry of the token, is accepted: the
middleware writes no reply, does not abort, calls the next handler and sets
`openid` to exactly `s`. -/
theorem C8_issued_token_is_accepted (cfg : JWTConfig) (jwt : JWT) (hrt : jwt.RoundTrip)
    (s tok : String) (issuedNow now : Int)
    (hgen : generateToken cfg jwt issuedNow s = .ok tok)
    (hbefore : now < NewNumericDate (issuedNow + wrapInt64 (Hour * cfg.ExpireHours))) :
    Auth cfg jwt now ("Bearer " ++ tok)
      = { reply := none, aborted := false, openid := some s, nextCalled := true } := by
  rw [Auth_bearer]
  rw [hrt (tokenClaims cfg issuedNow s) cfg.Secret tok _ now (generateToken_ok hgen) rfl hbefore]
  rfl

/-- Worked example for C8: the sample token, one hour before it expires. -/
theorem C8_issued_token_is_accepted_witness :
    sampleJWT.RoundTrip ∧
    generateToken sampleCfg sampleJWT 1700000000000000000 "ext-001" = .ok "tok-1" ∧
    (1700255600000000000 : Int)
      < NewNumericDate (1700000000000000000 + wrapInt64 (Hour * sampleCfg.ExpireHours)) ∧
    Auth sampleCfg sampleJWT 1700255600000000000 ("Bearer " ++ "tok-1")
      = { reply := none, aborted := false, openid := some "ext-001", nextCalled := true } :=
  ⟨oneTokenJWT_roundTrip _ _ _, by rfl, by decide,
   C8_issued_token_is_accepted sampleCfg sampleJWT (oneTokenJWT_roundTrip _ _ _)
     "ext-001" "tok-1" 1700000000000000000 1700255600000000000 (by rfl) (by decide)⟩

/-- Counterexample to C9 as stated.  The sample token presented at its expiry
instant: the library reports `Expired`, and the middleware answers with the
code `InvalidToken` (3002), not `TokenExpired` (3003).  The same token under
another secret, one hour earlier: the library reports `SignatureInvalid`, and
the middleware answers with the same code and message. -/
theorem C9_expiry_is_not_told_apart :
    sampleJWT.ParseWithClaims "tok-1" sampleCfg.Secret 1700259200000000000 = .error .Expired ∧
    (Auth sampleCfg sampleJWT 1700259200000000000 "Bearer tok-1").reply
      = some { Status := 401,
               Body := { Code := 3002, Message := "无效的令牌", Timestamp := 1700259200 } } ∧
    (3002 : Int) ≠ TokenExpired ∧
    sampleJWT.ParseWithClaims "tok-1" otherCfg.Secret 1700255600000000000
      = .error .SignatureInvalid ∧
    (Auth otherCfg sampleJWT 1700255600000000000 "Bearer tok-1").reply
      = some { Status := 401,
               Body := { Code := 3002, Message := "无效的令牌", Timestamp := 1700255600 } } := by
  refine ⟨by rfl, by rfl, by decide, by rfl, by rfl⟩

/-- Claim C9, amended.  For every token whose verification the library
rejects, whatever the reason (expiry elapsed, signature mismatch, malformed
or other), the middleware aborts with the one error `ErrInvalidToken`: HTTP
status 401, code `InvalidToken`, never the code `TokenExpired`; `openid` is
not set and the next handler is not called.  Expiry and signature mismatch
are therefore reported alike. -/
theorem C9_rejected_token_is_invalid_token (cfg : JWTConfig) (jwt : JWT) (now : Int)
    (tok : String) (err : JWTError)
    (hrej : jwt.ParseWithClaims tok cfg.Secret now = .error err) :
    Auth cfg jwt now ("Bearer " ++ tok)
      = { reply := some { Status := 401,
                          Body := { Code := InvalidToken, Message := "无效的令牌",
                                    Timestamp := now / 1000000000 } },
          aborted := true, openid := none, nextCalled := false } ∧
    InvalidToken ≠ TokenExpired := by
  rw [Auth_bearer, hrej]
  exact ⟨rfl, by decide⟩

/-- Worked example for the amended C9: the expired sample token. -/
theorem C9_rejected_token_is_invalid_token_witness :
    sampleJWT.ParseWithClaims "tok-1" sampleCfg.Secret 1700259200000000000 = .error .Expired ∧
    Auth sampleCfg sampleJWT 1700259200000000000 ("Bearer " ++ "tok-1")
      = { reply := some { Status := 401,
                          Body := { Code := InvalidToken, Message := "无效的令牌",
                                    Timestamp := 1700259200000000000 / 1000000000 } },
          aborted := true, openid := none, nextCalled := false } ∧
    InvalidToken ≠ TokenExpired :=
  ⟨by rfl,
   C9_rejected_token_is_invalid_token sampleCfg sampleJWT 1700259200000000000 "tok-1"
     .Expired (by rfl)⟩

theorem Auth_bearer_fails {cfg : JWTConfig} {jwt : JWT} {now : Int} {tok : String}
    (h : verificationFails jwt cfg.Secret now tok) :
    Auth cfg jwt now ("Bearer " ++ tok) = abortWith now ErrInvalidToken := by
  rw [Auth_bearer]
  unfold verificationFails at h
  cases hp : jwt.ParseWithClaims tok cfg.Secret now with
  | error e => rfl
  | ok token =>
    rw [hp] at h
    dsimp only at h ⊢
    simp [h]

/-- Claim C10.  For any two bearer tokens whose verification fails in the
middleware (the library reports an error of any kind, or the token is not
valid), at any two instants, the replies carry the same HTTP status, the same
error code (`InvalidToken`) and the same message; neither request gets an
`openid` or reaches the next handler.  The reply is a function of the header,
the configuration and the clock alone: on a route behind the middleware, such
as `GET /auth/user-info`, what the client gets is the same whatever the users
table holds. -/
theorem C10_failures_are_uniform (cfg : JWTConfig) (jwt : JWT) (now1 now2 : Int)
    (tok1 tok2 : String)
    (h1 : verificationFails jwt cfg.Secret now1 tok1)
    (h2 : verificationFails jwt cfg.Secret now2 tok2) :
    (∃ r1 r2,
      Auth cfg jwt now1 ("Bearer " ++ tok1)
        = { reply := some r1, aborted := true, openid := none, nextCalled := false } ∧
      Auth cfg jwt now2 ("Bearer " ++ tok2)
        = { reply := some r2, aborted := true, openid := none, nextCalled := false } ∧
      r1.Status = r2.Status ∧ r1.Body.Code = r2.Body.Code ∧
      r1.Body.Message = r2.Body.Message ∧
      r1.Status = 401 ∧ r1.Body.Code = InvalidToken ∧ r1.Body.Message = "无效的令牌") ∧
    (∀ (db1 db2 : UserTable) (f1 f2 : Option String),
      serveGetUserInfo cfg jwt db1 now1 ("Bearer " ++ tok1) f1
        = serveGetUserInfo cfg jwt db2 now1 ("Bearer " ++ tok1) f2) := by
  refine ⟨⟨Error now1 (.app ErrInvalidToken), Error now2 (.app ErrInvalidToken),
    Auth_bearer_fails h1, Auth_bearer_fails h2, rfl, rfl, rfl, rfl, rfl, rfl⟩, ?_⟩
  intro db1 db2 f1 f2
  unfold serveGetUserInfo
  rw [Auth_bearer_fails h1]
  rfl

/-- Worked example for C10: a malformed string and the expired sample token,
with a subject that has a user in one table and none in the other. -/
theorem C10_failures_are_uniform_witness :
    verificationFails sampleJWT sampleCfg.Secret 1700000000000000000 "garbage" ∧
    verificationFails sampleJWT sampleCfg.Secret 1700259200000000000 "tok-1" ∧
    (Auth sampleCfg sampleJWT 1700000000000000000 "Bearer garbage").reply
      = some { Status := 401,
               Body := { Code := 3002, Message := "无效的令牌", Timestamp := 1700000000 } } ∧
    (Auth sampleCfg sampleJWT 1700259200000000000 "Bearer tok-1").reply
      = some { Status := 401,
               Body := { Code := 3002, Message := "无效的令牌", Timestamp := 1700259200 } } ∧
    serveGetUserInfo sampleCfg sampleJWT sampleTable 1700259200000000000
        ("Bearer " ++ "tok-1") none
      = serveGetUserInfo sampleCfg sampleJWT [] 1700259200000000000
        ("Bearer " ++ "tok-1") none :=
  have h1 : verificationFails sampleJWT sampleCfg.Secret 1700000000000000000 "garbage" := by
    unfold verificationFails; trivial
  have h2 : verificationFails sampleJWT sampleCfg.Secret 1700259200000000000 "tok-1" := by
    unfold verificationFails; trivial
  ⟨h1, h2, by rfl, by rfl,
   (C10_failures_are_uniform sampleCfg sampleJWT 1700259200000000000 1700000000000000000
      "tok-1" "garbage" h2 h1).2 sampleTable [] none none⟩

/-! ## The scheme of the Authorization header -/

theorem cutAt_eq_some {sep : Char} {l a b : List Char} (h : cutAt sep l = some (a, b)) :
    l = a ++ sep :: b := by
  induction l generalizing a with
  | nil => simp [cutAt] at h
  | cons c cs ih =>
    simp only [cutAt] at h
    by_cases hc : c = sep
    · rw [if_pos hc] at h
      simp only [Option.some.injEq, Prod.mk.injEq] at h
      obtain ⟨rfl, rfl⟩ := h
      simp [hc]
    · rw [if_neg hc] at h
      cases hr : cutAt sep cs with
      | none => rw [hr] at h; simp at h
      | some p =>
        rw [hr] at h
        simp only [Option.map_some', Option.some.injEq, Prod.mk.injEq] at h
        obtain ⟨rfl, rfl⟩ := h
        have := ih (a := p.1) (by rw [hr])
        rw [this]
        simp

theorem SplitN2_bearer_iff (h tok : String) :
    SplitN2 h ' ' = ["Bearer", tok] ↔ h = "Bearer " ++ tok := by
  constructor
  · intro hs
    unfold SplitN2 at hs
    cases hc : cutAt ' ' h.data with
    | none => rw [hc] at hs; simp at hs
    | some p =>
      obtain ⟨a, b⟩ := p
      rw [hc] at hs
      simp only [List.cons.injEq, and_true] at hs
      obtain ⟨ha, hb⟩ := hs
      have hd := cutAt_eq_some hc
      have ha2 : a = "Bearer".data := by rw [← ha]
      have hb2 : b = tok.data := by rw [← hb]
      apply String.ext
      rw [hd, ha2, hb2, String.data_append]
      rfl
  · intro hs
    rw [hs]
    exact SplitN2_bearer tok

theorem abortWith_unauthorized_ne_invalid (now : Int) :
    abortWith now ErrInvalidToken ≠ abortWith now ErrUnauthorized := by
  intro h
  have := congrArg (fun r => r.reply.map (fun x => x.Body.Code)) h
  simp [abortWith, Error, ErrInvalidToken, ErrUnauthorized, New, InvalidToken, Unauthorized] at this

/-- The middleware on a header that is not of the form `Bearer <token>`. -/
theorem Auth_not_bearer (cfg : JWTConfig) (jwt : JWT) (now : Int) (h : String)
    (hn : ¬ ∃ tok, SplitN2 h ' ' = ["Bearer", tok]) :
    Auth cfg jwt now h = abortWith now ErrUnauthorized := by
  unfold Auth
  by_cases he : h = ""
  · rw [if_pos he]
  · rw [if_neg he]
    unfold SplitN2 at hn ⊢
    cases hc : cutAt ' ' h.data with
    | none => rfl
    | some p =>
      obtain ⟨a, b⟩ := p
      rw [hc] at hn
      dsimp only at hn ⊢
      by_cases hs : String.mk a = "Bearer"
      · exact absurd ⟨String.mk b, by rw [hs]⟩ hn
      · simp [hs]

/-- Claim C11.  For every value `h` of the `Authorization` header: splitting
`h` at its first space gives the two parts `Bearer` and `tok` exactly when
`h` is `Bearer`, one space, `tok`; in that case the middleware hands `tok` to
the verification of the library and answers by its outcome; for every other
`h` it aborts with `ErrUnauthorized` (HTTP 401), sets no `openid` and does not
call the next handler.  So the reply is the `Unauthorized` one exactly when
the header does not have that form. -/
theorem C11_bearer_scheme (cfg : JWTConfig) (jwt : JWT) (now : Int) (h : String) :
    (∀ tok, SplitN2 h ' ' = ["Bearer", tok] ↔ h = "Bearer " ++ tok) ∧
    (∀ tok, SplitN2 h ' ' = ["Bearer", tok] →
      Auth cfg jwt now h =
        match jwt.ParseWithClaims tok cfg.Secret now with
        | .error _ => abortWith now ErrInvalidToken
        | .ok token =>
          if !token.Valid then abortWith now ErrInvalidToken
          else { reply := none, aborted := false, openid := some token.Claims.Subject,
                 nextCalled := true }) ∧
    ((¬ ∃ tok, SplitN2 h ' ' = ["Bearer", tok]) →
      Auth cfg jwt now h =
        { reply := some { Status := 401,
                          Body := { Code := Unauthorized, Message := "未授权",
                                    Timestamp := now / 1000000000 } },
          aborted := true, openid := none, nextCalled := false }) ∧
    ((∃ tok, SplitN2 h ' ' = ["Bearer", tok]) ↔
      Auth cfg jwt now h ≠ abortWith now ErrUnauthorized) := by
  refine ⟨fun tok => SplitN2_bearer_iff h tok, ?_, ?_, ?_⟩
  · intro tok hs
    rw [(SplitN2_bearer_iff h tok).mp hs]
    exact Auth_bearer cfg jwt now tok
  · intro hn
    rw [Auth_not_bearer cfg jwt now h hn]
    rfl
  · constructor
    · rintro ⟨tok, hs⟩
      rw [(SplitN2_bearer_iff h tok).mp hs, Auth_bearer]
      cases jwt.ParseWithClaims tok cfg.Secret now with
      | error e => exact abortWith_unauthorized_ne_invalid now
      | ok token =>
        dsimp only
        by_cases hv : (!token.Valid) = true
        · rw [if_pos hv]; exact abortWith_unauthorized_ne_invalid now
        · rw [if_neg hv]
          intro hcontra
          have := congrArg AuthResult.aborted hcontra
          simp [abortWith] at this
    · intro hne
      by_contra hn
      exact hne (Auth_not_bearer cfg jwt now h hn)

/-- Worked example for C11: the sample token behind the scheme `Bearer` is
verified; a lower-case scheme, another scheme, a header without a space and
the empty header are answered with 401 without verification. -/
theorem C11_bearer_scheme_witness :
    (SplitN2 "Bearer tok-1" ' ' = ["Bearer", "tok-1"] ∧
      Auth sampleCfg sampleJWT 1700255600000000000 "Bearer tok-1"
        = { reply := none, aborted := false, openid := some "ext-001", nextCalled := true }) ∧
    ((¬ ∃ tok, SplitN2 "bearer tok-1" ' ' = ["Bearer", tok]) ∧
      Auth sampleCfg sampleJWT 1700255600000000000 "bearer tok-1"
        = { reply := some { Status := 401,
                            Body := { Code := Unauthorized, Message := "未授权",
                                      Timestamp := 1700255600000000000 / 1000000000 } },
            aborted := true, openid := none, nextCalled := false }) ∧
    Auth sampleCfg sampleJWT 1700255600000000000 "Basic dXNlcg==" = abortWith 1700255600000000000 ErrUnauthorized ∧
    Auth sampleCfg sampleJWT 1700255600000000000 "Bearer" = abortWith 1700255600000000000 ErrUnauthorized ∧
    Auth sampleCfg sampleJWT 1700255600000000000 "" = abortWith 1700255600000000000 ErrUnauthorized :=
  have h1 : SplitN2 "Bearer tok-1" ' ' = ["Bearer", "tok-1"] := by rfl
  have h2 : ¬ ∃ tok, SplitN2 "bearer tok-1" ' ' = ["Bearer", tok] := by
    rintro ⟨tok, ht⟩
    have : SplitN2 "bearer tok-1" ' ' = ["bearer", "tok-1"] := by rfl
    rw [this] at ht
    simp at ht
  ⟨⟨h1, ((C11_bearer_scheme sampleCfg sampleJWT 1700255600000000000 "Bearer tok-1").2.1
          "tok-1" h1).trans (by rfl)⟩,
   ⟨h2, (C11_bearer_scheme sampleCfg sampleJWT 1700255600000000000 "bearer tok-1").2.2.1 h2⟩,
   by rfl, by rfl, by rfl⟩

/-! ## Error codes and HTTP status -/

/-- Counterexample to C12 as stated: `PermissionDenied` is an error code that
is none of those listed, and its HTTP status is 403, not 500; the code
`Success` gives 200. -/
theorem C12_permission_denied_is_403 :
    getHTTPStatus PermissionDenied = 403 ∧ getHTTPStatus PermissionDenied ≠ 500 ∧
    getHTTPStatus Success = 200 := by
  refine ⟨by decide, by decide, by decide⟩

/-- Claim C12, amended.  For every error code `c`, `getHTTPStatus c` is 200
when `c` is `Success`, 400 when it is `ParamError`, 401 when it is
`Unauthorized`, `InvalidToken` or `TokenExpired`, 404 when it is `NotFound`,
`UserNotFound`, `BabyNotFound`, `FamilyNotFound` or `RecordNotFound`, 409 when
it is `Conflict`, 403 when it is `PermissionDenied`, and 500 for every other
code. -/
theorem C12_status_of_code (c : ErrorCode) :
    (c = Success → getHTTPStatus c = 200) ∧
    (c = ParamError → getHTTPStatus c = 400) ∧
    (c = Unauthorized ∨ c = InvalidToken ∨ c = TokenExpired → getHTTPStatus c = 401) ∧
    (c = NotFound ∨ c = UserNotFound ∨ c = BabyNotFound ∨ c = FamilyNotFound
      ∨ c = RecordNotFound → getHTTPStatus c = 404) ∧
    (c = Conflict → getHTTPStatus c = 409) ∧
    (c = PermissionDenied → getHTTPStatus c = 403) ∧
    (c ≠ Success → c ≠ ParamError → c ≠ Unauthorized → c ≠ InvalidToken → c ≠ TokenExpired →
      c ≠ NotFound → c ≠ UserNotFound → c ≠ BabyNotFound → c ≠ FamilyNotFound →
      c ≠ RecordNotFound → c ≠ Conflict → c ≠ PermissionDenied → getHTTPStatus c = 500) := by
  refine ⟨?_, ?_, ?_, ?_, ?_, ?_, ?_⟩
  · rintro rfl; decide
  · rintro rfl; decide
  · rintro (rfl | rfl | rfl) <;> decide
  · rintro (rfl | rfl | rfl | rfl | rfl) <;> decide
  · rintro rfl; decide
  · rintro rfl; decide
  · intro h1 h2 h3 h4 h5 h6 h7 h8 h9 h10 h11 h12
    unfold getHTTPStatus
    simp [h1, h2, h3, h4, h5, h6, h7, h8, h9, h10, h11, h12]

/-- Worked example for the amended C12: one code of each class, and the codes
`DatabaseError` and 9999 among the others. -/
theorem C12_status_of_code_witness :
    getHTTPStatus Success = 200 ∧ getHTTPStatus ParamError = 400 ∧
    getHTTPStatus TokenExpired = 401 ∧ getHTTPStatus FamilyNotFound = 404 ∧
    getHTTPStatus Conflict = 409 ∧ getHTTPStatus PermissionDenied = 403 ∧
    getHTTPStatus DatabaseError = 500 ∧ getHTTPStatus 9999 = 500 :=
  ⟨(C12_status_of_code Success).1 rfl,
   (C12_status_of_code ParamError).2.1 rfl,
   (C12_status_of_code TokenExpired).2.2.1 (Or.inr (Or.inr rfl)),
   (C12_status_of_code FamilyNotFound).2.2.2.1 (Or.inr (Or.inr (Or.inr (Or.inl rfl)))),
   (C12_status_of_code Conflict).2.2.2.2.1 rfl,
   (C12_status_of_code PermissionDenied).2.2.2.2.2.1 rfl,
   (C12_status_of_code DatabaseError).2.2.2.2.2.2 (by decide) (by decide) (by decide)
     (by decide) (by decide) (by decide) (by decide) (by decide) (by decide) (by decide)
     (by decide) (by decide),
   (C12_status_of_code 9999).2.2.2.2.2.2 (by decide) (by decide) (by decide)
     (by decide) (by decide) (by decide) (by decide) (by decide) (by decide) (by decide)
     (by decide) (by decide)⟩

/-! ## Refund amounts -/

/-- Counterexample to C20 as stated: for the zero value `Money{}`, whose
currency is the empty string, the pro-rata refund comes back in `CNY`, not in
the currency of the original amount. -/
theorem C20_empty_currency_becomes_CNY :
    CalculateRefundAmount Money.zero 1 4 = .ok { amount := 0, currency := "CNY" } ∧
    ("CNY" : String) ≠ Money.zero.currency := by
  refine ⟨by rfl, by decide⟩

/-- Claim C20, amended.  For every `Money` of non-negative amount `a` and
currency `c` and all day counts (with `totalDays` a value of Go's `int`):
`CalculateRefundAmount` fails exactly when `usedDays < 0` or `totalDays <= 0`,
provided the product `a * (totalDays - usedDays)` fits in 64 bits; otherwise
it returns the amount zero when `usedDays >= totalDays`, and the pro-rata
amount `a * (totalDays - usedDays) / totalDays`, rounded down, when
`usedDays < totalDays` and the product fits in 64 bits; the currency of the
result is `c`, or `CNY` when `c` is empty; and the refund `r` satisfies
`0 <= r <= a`. -/
theorem C20_refund_amount (a : Int) (c : String) (usedDays totalDays : Int)
    (ha : 0 ≤ a) (ht : totalDays < 2 ^ 63)
    (hfit : a * (totalDays - usedDays) < 2 ^ 63) :
    ((∃ msg, CalculateRefundAmount { amount := a, currency := c } usedDays totalDays
        = .error msg) ↔ (usedDays < 0 ∨ totalDays ≤ 0)) ∧
    (0 ≤ usedDays → 0 < totalDays → usedDays ≥ totalDays →
      CalculateRefundAmount { amount := a, currency := c } usedDays totalDays
        = .ok { amount := 0, currency := if c = "" then CurrencyCNY else c }) ∧
    (0 ≤ usedDays → 0 < totalDays → usedDays < totalDays →
      CalculateRefundAmount { amount := a, currency := c } usedDays totalDays
        = .ok { amount := a * (totalDays - usedDays) / totalDays,
                currency := if c = "" then CurrencyCNY else c }) ∧
    (∀ r, CalculateRefundAmount { amount := a, currency := c } usedDays totalDays = .ok r →
      0 ≤ r.amount ∧ r.amount ≤ a ∧ r.currency = if c = "" then CurrencyCNY else c) := by
  have hzero : ¬ (usedDays < 0 ∨ totalDays ≤ 0) → usedDays ≥ totalDays →
      CalculateRefundAmount { amount := a, currency := c } usedDays totalDays
        = .ok { amount := 0, currency := if c = "" then CurrencyCNY else c } := by
    intro h1 h2
    unfold CalculateRefundAmount
    rw [if_neg h1, if_pos h2]
    rfl
  have hpro : ¬ (usedDays < 0 ∨ totalDays ≤ 0) → usedDays < totalDays →
      CalculateRefundAmount { amount := a, currency := c } usedDays totalDays
        = .ok { amount := a * (totalDays - usedDays) / totalDays,
                currency := if c = "" then CurrencyCNY else c } ∧
      0 ≤ a * (totalDays - usedDays) / totalDays ∧
      a * (totalDays - usedDays) / totalDays ≤ a := by
    intro h1 h2
    have hu : 0 ≤ usedDays := by omega
    have hT : 0 < totalDays := by omega
    have hrem : wrapInt64 (totalDays - usedDays) = totalDays - usedDays :=
      wrapInt64_of_fits (by omega) (by omega)
    have hp0 : 0 ≤ a * (totalDays - usedDays) := Int.mul_nonneg ha (by omega)
    have hprod : wrapInt64 (a * (totalDays - usedDays)) = a * (totalDays - usedDays) :=
      wrapInt64_of_fits (by omega) hfit
    have hq0 : 0 ≤ a * (totalDays - usedDays) / totalDays := Int.ediv_nonneg hp0 (by omega)
    have hqa : a * (totalDays - usedDays) / totalDays ≤ a := by
      have h3 : a * (totalDays - usedDays) ≤ a * totalDays :=
        Int.mul_le_mul_of_nonneg_left (by omega) ha
      calc a * (totalDays - usedDays) / totalDays
          ≤ a * totalDays / totalDays := Int.ediv_le_ediv hT h3
        _ = a := Int.mul_ediv_cancel a (by omega)
    refine ⟨?_, hq0, hqa⟩
    unfold CalculateRefundAmount
    rw [if_neg h1, if_neg (by omega : ¬ usedDays ≥ totalDays)]
    dsimp only
    rw [hrem, hprod, Int.tdiv_eq_ediv hp0 (by omega)]
    unfold NewMoney
    rw [if_neg (by omega)]
  refine ⟨?_, ?_, ?_, ?_⟩
  · constructor
    · rintro ⟨msg, hmsg⟩
      by_contra h1
      by_cases h2 : usedDays ≥ totalDays
      · rw [hzero h1 h2] at hmsg; simp at hmsg
      · rw [(hpro h1 (by omega)).1] at hmsg; simp at hmsg
    · intro h1
      exact ⟨_, by unfold CalculateRefundAmount; rw [if_pos h1]⟩
  · intro h1 h2 h3
    exact hzero (by omega) h3
  · intro h1 h2 h3
    exact (hpro (by omega) h3).1
  · intro r hr
    by_cases h1 : usedDays < 0 ∨ totalDays ≤ 0
    · unfold CalculateRefundAmount at hr
      rw [if_pos h1] at hr
      simp at hr
    · by_cases h2 : usedDays ≥ totalDays
      · rw [hzero h1 h2] at hr
        simp only [Except.ok.injEq] at hr
        subst hr
        exact ⟨le_refl _, ha, rfl⟩
      · obtain ⟨he, hq0, hqa⟩ := hpro h1 (by omega)
        rw [he] at hr
        simp only [Except.ok.injEq] at hr
        subst hr
        exact ⟨hq0, hqa, rfl⟩

/-- Worked example for the amended C20: 1000 cents in USD, 10 of 30 days
used, give back 666 cents in USD. -/
theorem C20_refund_amount_witness :
    ((0 : Int) ≤ 1000 ∧ (30 : Int) < 2 ^ 63 ∧ (1000 : Int) * (30 - 10) < 2 ^ 63) ∧
    CalculateRefundAmount { amount := 1000, currency := "USD" } 10 30
      = .ok { amount := 1000 * (30 - 10) / 30, currency := if "USD" = "" then CurrencyCNY else "USD" } ∧
    CalculateRefundAmount { amount := 1000, currency := "USD" } 10 30
      = .ok { amount := 666, currency := "USD" } :=
  ⟨⟨by decide, by decide, by decide⟩,
   (C20_refund_amount 1000 "USD" 10 30 (by decide) (by decide) (by decide)).2.2.1
     (by decide) (by decide) (by decide),
   by rfl⟩

/-! ## The app-versions table: basic facts -/

theorem firstVersionByID_eq_none {l : List AppVersion} : firstVersionByID l = none ↔ l = [] := by
  cases l with
  | nil => simp [firstVersionByID]
  | cons u us =>
    simp only [firstVersionByID]
    cases firstVersionByID us with
    | none => simp
    | some v => by_cases h : u.ID ≤ v.ID <;> simp [h]

theorem FindByVersion_absent {tbl : VersionTable} {version : String}
    (h : ∀ r ∈ tbl, r.Version ≠ version) :
    FindByVersion tbl version none = .error (New NotFound "app version not found") := by
  unfold FindByVersion
  have : tbl.filter (fun v => v.Version = version) = [] := by
    rw [List.filter_eq_nil_iff]
    intro r hr
    simpa using h r hr
  rw [this]
  rfl

theorem FindByVersion_present {tbl : VersionTable} {version : String}
    (h : ∃ r ∈ tbl, r.Version = version) :
    ∃ v, FindByVersion tbl version none = .ok v := by
  obtain ⟨r, hr, hv⟩ := h
  unfold FindByVersion
  cases hf : firstVersionByID (tbl.filter (fun v => v.Version = version)) with
  | none =>
    rw [firstVersionByID_eq_none] at hf
    have : r ∈ tbl.filter (fun v => v.Version = version) := by
      simp [List.mem_filter, hr, hv]
    rw [hf] at this
    simp at this
  | some v => exact ⟨v, rfl⟩

theorem FindByVersion_ok {tbl : VersionTable} {version : String} {fault : Option String}
    {v : AppVersion} (h : FindByVersion tbl version fault = .ok v) :
    ∃ r ∈ tbl, r.Version = version := by
  unfold FindByVersion at h
  cases fault with
  | some msg => simp at h
  | none =>
    dsimp only at h
    cases hf : firstVersionByID (tbl.filter (fun v => v.Version = version)) with
    | none => rw [hf] at h; simp at h
    | some w =>
      have hne : tbl.filter (fun v => v.Version = version) ≠ [] := by
        intro hnil
        rw [hnil] at hf
        simp [firstVersionByID] at hf
      obtain ⟨r, hr⟩ := List.exists_mem_of_ne_nil _ hne
      simp only [List.mem_filter, decide_eq_true_eq] at hr
      exact ⟨r, hr.1, hr.2⟩

/-- With the configuration of `NewDatabase`, `SetActive` fails on its first
statement, whatever the table and the version. -/
theorem SetActive_without_global_update (tbl : VersionTable) (version : String)
    (env : VersionEnv) (hb : env.beginFault = none) :
    SetActive NewDatabaseConfig tbl version env
      = .error (.app (Wrap DatabaseError "failed to deactivate all versions"
          ErrMissingWhereClause)) := by
  unfold SetActive
  rw [hb]
  rfl

/-- What a successful `SetActive` stores when global updates are allowed. -/
theorem SetActive_ok {cfg : GormConfig} {tbl tbl' : VersionTable} {version : String}
    {env : VersionEnv} (h : SetActive cfg tbl version env = .ok tbl') :
    cfg.AllowGlobalUpdate = true ∧
    tbl' = tbl.map (fun r =>
      { r with IsActive := decide (r.Version = version), UpdatedAt := env.now }) := by
  unfold SetActive at h
  cases hb : env.beginFault with
  | some msg => rw [hb] at h; simp at h
  | none =>
    rw [hb] at h
    dsimp only at h
    unfold deactivateAll at h
    by_cases hg : cfg.AllowGlobalUpdate = false
    · rw [if_pos hg] at h; simp at h
    · rw [if_neg hg] at h
      cases hd : env.deactivateFault with
      | some msg => rw [hd] at h; simp at h
      | none =>
        rw [hd] at h
        dsimp only at h
        unfold activateVersion at h
        cases ha : env.activateFault with
        | some msg => rw [ha] at h; simp at h
        | none =>
          rw [ha] at h
          dsimp only at h
          cases hc : env.commitFault with
          | some msg => rw [hc] at h; simp at h
          | none =>
            rw [hc] at h
            simp only [Except.ok.injEq] at h
            refine ⟨by simpa using hg, ?_⟩
            rw [← h, List.map_map]
            apply List.map_congr_left
            intro r _
            simp only [Function.comp]
            by_cases hv : r.Version = version
            · simp [hv]
            · simp [hv]

/-- The table after `SetActiveVersion`: unchanged, or the one `SetActive`
stored. -/
theorem SetActiveVersion_tbl (cfg : GormConfig) (tbl : VersionTable) (version : String)
    (env : VersionEnv) :
    ((SetActiveVersion cfg tbl version env).tbl = tbl ∧
      ∀ u, (SetActiveVersion cfg tbl version env).result ≠ .ok u) ∨
    ((SetActiveVersion cfg tbl version env).result = .ok () ∧
      cfg.AllowGlobalUpdate = true ∧ (∃ r ∈ tbl, r.Version = version) ∧
      (SetActiveVersion cfg tbl version env).tbl = tbl.map (fun r =>
        { r with IsActive := decide (r.Version = version), UpdatedAt := env.now })) := by
  unfold SetActiveVersion
  cases hF : FindByVersion tbl version env.findFault with
  | error e => left; exact ⟨rfl, fun u => by simp⟩
  | ok v =>
    dsimp only
    cases hS : SetActive cfg tbl version env with
    | error e => left; exact ⟨rfl, fun u => by simp⟩
    | ok tbl' =>
      right
      obtain ⟨hg, ht⟩ := SetActive_ok hS
      exact ⟨rfl, hg, FindByVersion_ok hF, ht⟩

theorem activeCount_after_set (tbl : VersionTable) (version : String) (now : Int) :
    (tbl.map (fun r => { r with IsActive := decide (r.Version = version), UpdatedAt := now })).filter
        (fun v => v.IsActive)
      = (tbl.filter (fun v => v.Version = version)).map
          (fun r => { r with IsActive := true, UpdatedAt := now }) := by
  induction tbl with
  | nil => rfl
  | cons r rs ih =>
    simp only [List.map_cons, List.filter_cons]
    by_cases hv : r.Version = version
    · simp [hv, ih]
    · simp [hv, ih]

/-- What a successful `CreateVersion` stores. -/
theorem CreateVersion_ok {tbl : VersionTable} {req : CreateAppVersionRequest}
    {env : VersionEnv} {dto : AppVersionDTO}
    (h : (CreateVersion tbl req env).result = .ok dto) :
    req.Version ≠ "" ∧ (∀ r ∈ tbl, r.Version ≠ req.Version) ∧
    (CreateVersion tbl req env).tbl
      = tbl ++ [insertedVersion (versionOfRequest req) env.newID env.now env.dbNow] ∧
    (CreateVersion tbl req env).calls = [.Create] := by
  unfold CreateVersion at h ⊢
  by_cases hv : req.Version = ""
  · rw [if_pos hv] at h; simp at h
  · rw [if_neg hv] at h ⊢
    unfold CreateAppVersion at h ⊢
    cases hc : env.createFault with
    | some msg => rw [hc] at h; simp at h
    | none =>
      rw [hc] at h
      dsimp only at h ⊢
      by_cases hany : (tbl.any (fun r =>
          r.ID = (insertedVersion (versionOfRequest req) env.newID env.now env.dbNow).ID ∨
          r.Version
            = (insertedVersion (versionOfRequest req) env.newID env.now env.dbNow).Version))
          = true
      · rw [if_pos hany] at h; simp at h
      · rw [if_neg hany]
        refine ⟨hv, ?_, rfl, rfl⟩
        intro r hr heq
        apply hany
        rw [List.any_eq_true]
        exact ⟨r, hr, by simp [insertedVersion, versionOfRequest, heq]⟩

/-- A `CreateVersion` that fails leaves the table as it was. -/
theorem CreateVersion_error {tbl : VersionTable} {req : CreateAppVersionRequest}
    {env : VersionEnv} {e : GoError}
    (h : (CreateVersion tbl req env).result = .error e) :
    (CreateVersion tbl req env).tbl = tbl := by
  unfold CreateVersion at h ⊢
  by_cases hv : req.Version = ""
  · rw [if_pos hv]
  · rw [if_neg hv] at h ⊢
    cases hc : CreateAppVersion tbl (versionOfRequest req) env with
    | error err => rfl
    | ok p => rw [hc] at h; simp at h

/-! ## Activating a version -/

/-- Claim C17.  For every version string that no record carries,
`SetActiveVersion` fails and leaves the table unchanged: it calls
`FindByVersion` only, never the repository's `SetActive`, so the version that
`GetCurrentVersion` reports stays the same; when the lookup runs, the error is
the not-found error of `FindByVersion`, which the response layer maps to HTTP
404.  This holds with and without GORM's global updates. -/
theorem C17_set_active_unknown_version (cfg : GormConfig) (tbl : VersionTable)
    (version : String) (env : VersionEnv)
    (hnone : ∀ r ∈ tbl, r.Version ≠ version) :
    (∃ err, (SetActiveVersion cfg tbl version env).result = .error (.app err)) ∧
    (env.findFault = none →
      (SetActiveVersion cfg tbl version env).result
        = .error (.app (New NotFound "app version not found")) ∧
      getHTTPStatus (New NotFound "app version not found").Code = 404) ∧
    (SetActiveVersion cfg tbl version env).tbl = tbl ∧
    (SetActiveVersion cfg tbl version env).calls = [.FindByVersion] ∧
    VersionRepoCall.SetActive ∉ (SetActiveVersion cfg tbl version env).calls ∧
    (∀ fault, GetCurrentVersion (SetActiveVersion cfg tbl version env).tbl fault
      = GetCurrentVersion tbl fault) := by
  have hfind : ∃ err, FindByVersion tbl version env.findFault = .error err := by
    cases hf : env.findFault with
    | some msg => exact ⟨_, rfl⟩
    | none => exact ⟨_, FindByVersion_absent hnone⟩
  obtain ⟨err, herr⟩ := hfind
  have hout : SetActiveVersion cfg tbl version env = ⟨.error (.app err), tbl, [.FindByVersion]⟩ := by
    unfold SetActiveVersion
    rw [herr]
  rw [hout]
  refine ⟨⟨err, rfl⟩, ?_, rfl, rfl, by simp, fun _ => rfl⟩
  intro hf
  rw [hf, FindByVersion_absent hnone] at herr
  simp only [Except.error.injEq] at herr
  rw [← herr]
  exact ⟨rfl, rfl⟩

/-- Worked example for C17: version 3.0.0 is not in the sample table. -/
theorem C17_set_active_unknown_version_witness :
    (∀ r ∈ sampleVersions, r.Version ≠ "3.0.0") ∧
    (SetActiveVersion NewDatabaseConfig sampleVersions "3.0.0" (quietEnv 3 1700200000000000000)).result
      = .error (.app (New NotFound "app version not found")) ∧
    (SetActiveVersion NewDatabaseConfig sampleVersions "3.0.0" (quietEnv 3 1700200000000000000)).tbl
      = sampleVersions ∧
    (SetActiveVersion NewDatabaseConfig sampleVersions "3.0.0" (quietEnv 3 1700200000000000000)).calls
      = [.FindByVersion] :=
  have h : ∀ r ∈ sampleVersions, r.Version ≠ "3.0.0" := by
    intro r hr
    simp [sampleVersions] at hr
    rcases hr with rfl | rfl <;> decide
  have hc := C17_set_active_unknown_version NewDatabaseConfig sampleVersions "3.0.0"
    (quietEnv 3 1700200000000000000) h
  ⟨h, (hc.2.1 rfl).1, hc.2.2.1, hc.2.2.2.1⟩

theorem filter_version_singleton {tbl : VersionTable} {version : String}
    (hu : UniqueVersion tbl) (hex : ∃ r ∈ tbl, r.Version = version) :
    ∃ r, r ∈ tbl ∧ r.Version = version ∧ tbl.filter (fun v => v.Version = version) = [r] := by
  obtain ⟨r, hr, hv⟩ := hex
  have hmem : r ∈ tbl.filter (fun v => v.Version = version) := by
    simp [List.mem_filter, hr, hv]
  have hlen := hu version
  refine ⟨r, hr, hv, ?_⟩
  generalize tbl.filter (fun v => v.Version = version) = l at hlen hmem
  match l, hlen, hmem with
  | [a], _, hmem => simp at hmem; rw [hmem]
  | _ :: _ :: _, hlen, _ => simp at hlen

/-- What `SetActiveVersion` would do if GORM ran the update without a
condition (`AllowGlobalUpdate`): on a table with unique version strings,
after it succeeds exactly one record is active, it is the record of the
requested version, and `GetCurrentVersion` returns that version. -/
theorem SetActiveVersion_with_global_update {cfg : GormConfig} {tbl : VersionTable}
    {version : String} {env : VersionEnv} (hu : UniqueVersion tbl)
    (hok : (SetActiveVersion cfg tbl version env).result = .ok ()) :
    activeCount (SetActiveVersion cfg tbl version env).tbl = 1 ∧
    (∀ r ∈ (SetActiveVersion cfg tbl version env).tbl,
      r.IsActive = true ↔ r.Version = version) ∧
    (∃ dto, GetCurrentVersion (SetActiveVersion cfg tbl version env).tbl none = .ok dto ∧
      dto.Version = version) := by
  rcases SetActiveVersion_tbl cfg tbl version env with ⟨-, hne⟩ | ⟨-, -, hex, ht⟩
  · exact absurd hok (hne ())
  · obtain ⟨r, -, hv, hfil⟩ := filter_version_singleton hu hex
    have hact := activeCount_after_set tbl version env.now
    rw [hfil] at hact
    rw [ht]
    refine ⟨?_, ?_, ?_⟩
    · unfold activeCount
      rw [hact]
      rfl
    · intro x hx
      simp only [List.mem_map] at hx
      obtain ⟨y, -, rfl⟩ := hx
      simp
    · unfold GetCurrentVersion FindActive
      dsimp only
      rw [hact]
      simp only [List.map_cons, List.map_nil, latestCreated]
      exact ⟨_, rfl, hv⟩

/-- Evaluation for C18 at the failing inputs.  With the configuration the
connection is opened with, `SetActiveVersion("2.1.0")` on the table where
2.0.0 is active and 2.1.0 exists fails: GORM refuses the update without a
condition that is to deactivate every record, the transaction is rolled
back, the table is unchanged and `GetCurrentVersion` still returns 2.0.0.
The same happens on a table built by the service itself: after creating
1.0.0 and 1.1.0, `SetActiveVersion("1.0.0")` fails, both records are
active, and 1.1.0 stays current. -/
theorem C18_set_active_never_commits :
    (SetActiveVersion NewDatabaseConfig sampleVersions "2.1.0" (quietEnv 3 1700200000000000000)).result
      = .error (.app (Wrap DatabaseError "failed to deactivate all versions"
          "WHERE conditions required")) ∧
    (SetActiveVersion NewDatabaseConfig sampleVersions "2.1.0" (quietEnv 3 1700200000000000000)).calls
      = [.FindByVersion, .SetActive] ∧
    (SetActiveVersion NewDatabaseConfig sampleVersions "2.1.0" (quietEnv 3 1700200000000000000)).tbl
      = sampleVersions ∧
    (GetCurrentVersion sampleVersions none).map (fun d => d.Version) = .ok "2.0.0" ∧
    (SetActiveVersion NewDatabaseConfig
      (runVersions NewDatabaseConfig []
        [.create (sampleCreate "1.0.0") (quietEnv 1 1700000000000000000),
         .create (sampleCreate "1.1.0") (quietEnv 2 1700100000000000000)]).1
      "1.0.0" (quietEnv 3 1700200000000000000)).result
      = .error (.app (Wrap DatabaseError "failed to deactivate all versions"
          "WHERE conditions required")) ∧
    activeCount (SetActiveVersion NewDatabaseConfig
      (runVersions NewDatabaseConfig []
        [.create (sampleCreate "1.0.0") (quietEnv 1 1700000000000000000),
         .create (sampleCreate "1.1.0") (quietEnv 2 1700100000000000000)]).1
      "1.0.0" (quietEnv 3 1700200000000000000)).tbl = 2 ∧
    (GetCurrentVersion (SetActiveVersion NewDatabaseConfig
      (runVersions NewDatabaseConfig []
        [.create (sampleCreate "1.0.0") (quietEnv 1 1700000000000000000),
         .create (sampleCreate "1.1.0") (quietEnv 2 1700100000000000000)]).1
      "1.0.0" (quietEnv 3 1700200000000000000)).tbl none).map (fun d => d.Version)
      = .ok "1.1.0" := by
  refine ⟨by rfl, by rfl, by rfl, by rfl, by rfl, by rfl, by rfl⟩

/-! ## How many versions are active -/

theorem UniqueVersion_append {tbl : VersionTable} {row : AppVersion}
    (hu : UniqueVersion tbl) (hfresh : ∀ r ∈ tbl, r.Version ≠ row.Version) :
    UniqueVersion (tbl ++ [row]) := by
  intro version
  rw [List.filter_append, List.length_append]
  by_cases hv : row.Version = version
  · have : tbl.filter (fun v => v.Version = version) = [] := by
      rw [List.filter_eq_nil_iff]
      intro r hr
      have := hfresh r hr
      rw [hv] at this
      simpa using this
    rw [this]
    simp [hv]
  · have := hu version
    simp [hv]
    exact this

theorem UniqueVersion_set {tbl : VersionTable} (version : String) (now : Int)
    (hu : UniqueVersion tbl) :
    UniqueVersion (tbl.map (fun r =>
      { r with IsActive := decide (r.Version = version), UpdatedAt := now })) := by
  intro x
  rw [List.filter_map, List.length_map]
  exact hu x

theorem stepVersion_invariant (cfg : GormConfig) (tbl : VersionTable) (c : VersionCall)
    (hu : UniqueVersion tbl) :
    UniqueVersion (stepVersion cfg tbl c).1 ∧
    (stepVersion cfg tbl c).1.length
      = tbl.length + (if (stepVersion cfg tbl c).2 then 1 else 0) := by
  cases c with
  | create req env =>
    simp only [stepVersion]
    have hcases : (∃ e, (CreateVersion tbl req env).result = .error e) ∨
        (∃ dto, (CreateVersion tbl req env).result = .ok dto) := by
      cases (CreateVersion tbl req env).result with
      | error e => exact Or.inl ⟨e, rfl⟩
      | ok dto => exact Or.inr ⟨dto, rfl⟩
    rcases hcases with ⟨e, hr⟩ | ⟨dto, hr⟩
    · simp only [hr]
      rw [CreateVersion_error hr]
      exact ⟨hu, by simp⟩
    · simp only [hr]
      obtain ⟨-, hfresh, ht, -⟩ := CreateVersion_ok hr
      rw [ht]
      refine ⟨UniqueVersion_append hu ?_, by simp⟩
      intro r hr2
      simpa [insertedVersion, versionOfRequest] using hfresh r hr2
  | setActive version env =>
    simp only [stepVersion]
    rcases SetActiveVersion_tbl cfg tbl version env with ⟨ht, -⟩ | ⟨-, -, -, ht⟩
    · rw [ht]; exact ⟨hu, by simp⟩
    · rw [ht]; exact ⟨UniqueVersion_set version env.now hu, by simp⟩

theorem runVersions_invariant (cfg : GormConfig) (cs : List VersionCall) :
    ∀ tbl : VersionTable, UniqueVersion tbl →
      UniqueVersion (runVersions cfg tbl cs).1 ∧
      (runVersions cfg tbl cs).1.length = tbl.length + (runVersions cfg tbl cs).2 := by
  induction cs with
  | nil => intro tbl hu; exact ⟨hu, rfl⟩
  | cons c cs ih =>
    intro tbl hu
    obtain ⟨hu1, hl1⟩ := stepVersion_invariant cfg tbl c hu
    obtain ⟨hu2, hl2⟩ := ih _ hu1
    simp only [runVersions]
    refine ⟨hu2, ?_⟩
    rw [hl2, hl1]
    omega

theorem insertedVersion_active (v : AppVersion) (newID now dbNow : Int) :
    (insertedVersion v newID now dbNow).IsActive = true := by
  unfold insertedVersion
  cases h : v.IsActive <;> simp [h]

/-- With the configuration of `NewDatabase`, `SetActiveVersion` never
succeeds and never changes the table. -/
theorem SetActiveVersion_never (tbl : VersionTable) (version : String) (env : VersionEnv) :
    (SetActiveVersion NewDatabaseConfig tbl version env).tbl = tbl ∧
    (SetActiveVersion NewDatabaseConfig tbl version env).result ≠ .ok () := by
  rcases SetActiveVersion_tbl NewDatabaseConfig tbl version env with ⟨ht, hr⟩ | ⟨-, hcfg, -, -⟩
  · exact ⟨ht, hr ()⟩
  · exact absurd hcfg (by decide)

theorem stepVersion_all_active (tbl : VersionTable) (c : VersionCall)
    (h : ∀ r ∈ tbl, r.IsActive = true) :
    ∀ r ∈ (stepVersion NewDatabaseConfig tbl c).1, r.IsActive = true := by
  cases c with
  | create req env =>
    simp only [stepVersion]
    have hcases : (∃ e, (CreateVersion tbl req env).result = .error e) ∨
        (∃ dto, (CreateVersion tbl req env).result = .ok dto) := by
      cases (CreateVersion tbl req env).result with
      | error e => exact Or.inl ⟨e, rfl⟩
      | ok dto => exact Or.inr ⟨dto, rfl⟩
    rcases hcases with ⟨e, hr⟩ | ⟨dto, hr⟩
    · rw [CreateVersion_error hr]; exact h
    · obtain ⟨-, -, ht, -⟩ := CreateVersion_ok hr
      rw [ht]
      intro r hr2
      rcases List.mem_append.mp hr2 with hr2 | hr2
      · exact h r hr2
      · rw [List.mem_singleton.mp hr2]
        exact insertedVersion_active _ _ _ _
  | setActive version env =>
    simp only [stepVersion]
    rw [(SetActiveVersion_never tbl version env).1]
    exact h

theorem runVersions_all_active (cs : List VersionCall) :
    ∀ tbl : VersionTable, (∀ r ∈ tbl, r.IsActive = true) →
      ∀ r ∈ (runVersions NewDatabaseConfig tbl cs).1, r.IsActive = true := by
  induction cs with
  | nil => intro tbl h; exact h
  | cons c cs ih =>
    intro tbl h
    simp only [runVersions]
    exact ih _ (stepVersion_all_active tbl c h)

/-- Evaluation for C19.  From the empty table, two `CreateVersion` calls that
both ask for a version that is not active succeed and leave two active
records: the value `false` of `IsActive` is replaced by the default `true` of
the column when the row is inserted.  `SetActiveVersion`, which is to leave
exactly one version active, then fails and leaves both active.  In general,
with the configuration of `NewDatabase`: every successful `CreateVersion`
stores an active record whatever the request asks for, `SetActiveVersion`
never changes the table, so after every sequence of calls from the empty
table every record is active, and at most one record is active only as long
as at most one `CreateVersion` has succeeded. -/
theorem C19_every_stored_version_is_active (cs : List VersionCall) :
    activeCount (runVersions NewDatabaseConfig []
      [.create { sampleCreate "1.0.0" with IsActive := false }
        (quietEnv 1 1700000000000000000)]).1 = 1 ∧
    (runVersions NewDatabaseConfig []
      [.create { sampleCreate "1.0.0" with IsActive := false } (quietEnv 1 1700000000000000000),
       .create { sampleCreate "1.1.0" with IsActive := false }
        (quietEnv 2 1700100000000000000)]).1.map (fun r => (r.Version, r.IsActive))
      = [("1.0.0", true), ("1.1.0", true)] ∧
    activeCount (runVersions NewDatabaseConfig []
      [.create { sampleCreate "1.0.0" with IsActive := false } (quietEnv 1 1700000000000000000),
       .create { sampleCreate "1.1.0" with IsActive := false }
        (quietEnv 2 1700100000000000000)]).1 = 2 ∧
    (SetActiveVersion NewDatabaseConfig
      (runVersions NewDatabaseConfig []
        [.create { sampleCreate "1.0.0" with IsActive := false }
          (quietEnv 1 1700000000000000000),
         .create { sampleCreate "1.1.0" with IsActive := false }
          (quietEnv 2 1700100000000000000)]).1
      "1.0.0" (quietEnv 3 1700200000000000000)).result
      = .error (.app (Wrap DatabaseError "failed to deactivate all versions"
          "WHERE conditions required")) ∧
    activeCount (runVersions NewDatabaseConfig []
      [.create { sampleCreate "1.0.0" with IsActive := false } (quietEnv 1 1700000000000000000),
       .create { sampleCreate "1.1.0" with IsActive := false } (quietEnv 2 1700100000000000000),
       .setActive "1.0.0" (quietEnv 3 1700200000000000000)]).1 = 2 ∧
    (∀ (tbl : VersionTable) (req : CreateAppVersionRequest) (env : VersionEnv)
      (dto : AppVersionDTO), (CreateVersion tbl req env).result = .ok dto →
      ∃ row, (CreateVersion tbl req env).tbl = tbl ++ [row] ∧ row.Version = req.Version ∧
        row.IsActive = true) ∧
    (∀ (tbl : VersionTable) (version : String) (env : VersionEnv),
      (SetActiveVersion NewDatabaseConfig tbl version env).tbl = tbl ∧
      (SetActiveVersion NewDatabaseConfig tbl version env).result ≠ .ok ()) ∧
    (∀ r ∈ (runVersions NewDatabaseConfig [] cs).1, r.IsActive = true) ∧
    activeCount (runVersions NewDatabaseConfig [] cs).1
      = (runVersions NewDatabaseConfig [] cs).2 ∧
    (activeCount (runVersions NewDatabaseConfig [] cs).1 ≤ 1 ↔
      (runVersions NewDatabaseConfig [] cs).2 ≤ 1) := by
  have hall := runVersions_all_active cs [] (by simp)
  have hrun := runVersions_invariant NewDatabaseConfig cs [] (fun _ => Nat.zero_le 1)
  have hcount : activeCount (runVersions NewDatabaseConfig [] cs).1
      = (runVersions NewDatabaseConfig [] cs).2 := by
    unfold activeCount
    rw [List.filter_eq_self.mpr (fun r hr => hall r hr), hrun.2]
    simp
  refine ⟨by rfl, by rfl, by rfl, by rfl, by rfl, ?_, SetActiveVersion_never, hall, hcount,
    by rw [hcount]⟩
  intro tbl req env dto hok
  obtain ⟨-, -, ht, -⟩ := CreateVersion_ok hok
  exact ⟨_, ht, rfl, insertedVersion_active _ _ _ _⟩

/-! ## File uploads: the checks -/

theorem mem_allowedExtensions {lower : String → String} {allowedTypes : List String}
    {e : String} :
    e ∈ allowedExtensions lower allowedTypes ↔
      ∃ m ∈ allowedTypes, mimeToExt (lower m) = some e := by
  unfold allowedExtensions
  simp only [List.mem_filterMap]

theorem mimeToExt_values {key e : String} (h : mimeToExt key = some e) :
    e = ".jpg" ∨ e = ".png" ∨ e = ".gif" := by
  unfold mimeToExt at h
  split_ifs at h <;> simp at h <;> simp [← h]

theorem isAllowedExt_iff {lower : String → String} (hfix : FixesExtensions lower)
    (allowedTypes : List String) (fileExt : String) :
    isAllowedExt lower (allowedExtensions lower allowedTypes) fileExt = true ↔
      fileExt ∈ allowedExtensions lower allowedTypes := by
  have hl : ∀ e ∈ allowedExtensions lower allowedTypes, lower e = e := by
    intro e he
    obtain ⟨m, -, hm⟩ := mem_allowedExtensions.mp he
    rcases mimeToExt_values hm with rfl | rfl | rfl
    · exact hfix.1
    · exact hfix.2.1
    · exact hfix.2.2
  unfold isAllowedExt
  rw [List.any_eq_true]
  constructor
  · rintro ⟨e, he, heq⟩
    have heq2 : fileExt = lower e := by simpa using heq
    rw [heq2, hl e he]
    exact he
  · intro hmem
    exact ⟨fileExt, hmem, by simp [hl fileExt hmem]⟩

theorem unsupportedFileType_message_ne (x : String) :
    "Unsupported file type. Allowed types: " ++ x ≠ "Unsupported upload type" ∧
    "Unsupported file type. Allowed types: " ++ x ≠ "File size exceeds limit" := by
  have h1 : ("Unsupported file type. Allowed types: " ++ x).data
      = "Unsupported file type. Allowed types: ".data ++ x.data := String.data_append _ _
  constructor
  · intro h
    have h2 := congrArg String.data h
    rw [h1] at h2
    have h3 := congrArg (List.take 13) h2
    rw [List.take_append_of_le_length (by decide)] at h3
    exact absurd h3 (by decide)
  · intro h
    have h2 := congrArg String.data h
    rw [h1] at h2
    have h3 := congrArg (List.take 1) h2
    rw [List.take_append_of_le_length (by decide)] at h3
    exact absurd h3 (by decide)

/-- What `storeUpload` can return is never one of the two errors of the checks
before it. -/
theorem storeUpload_result_ne (cfg : UploadConfig) (fh : FileHeader) (uploadType : UploadType)
    (relatedID : String) (env : UploadEnv) (x : List String) :
    (storeUpload cfg fh uploadType relatedID env).result ≠ .error (unsupportedFileType x) ∧
    (storeUpload cfg fh uploadType relatedID env).result
      ≠ .error (New ParamError "File size exceeds limit") := by
  unfold storeUpload saveFile
  dsimp only
  by_cases hs : getSubDir uploadType = ""
  · rw [if_pos hs]
    constructor
    · intro h
      simp only [Except.error.injEq, unsupportedFileType, New, AppError.mk.injEq] at h
      exact (unsupportedFileType_message_ne _).1 h.2.1.symm
    · intro h
      simp only [Except.error.injEq, New, AppError.mk.injEq] at h
      exact absurd h.2.1 (by decide)
  · rw [if_neg hs]
    cases env.mkdirErr with
    | some e => simp [Wrap, New, unsupportedFileType]
    | none =>
      cases env.openErr with
      | some e => simp [Wrap, New, unsupportedFileType]
      | none =>
        cases env.createErr with
        | some e => simp [Wrap, New, unsupportedFileType]
        | none =>
          cases env.copyErr with
          | some e => simp [Wrap, New, unsupportedFileType]
          | none => simp

/-- Claim C13.  For every configured list of allowed MIME types and every
file name, the type check of `UploadFile` passes exactly when the lower-cased
extension of the file name is `mimeToExt` of the lower-cased form of one of
the configured types.  When it passes, `UploadFile` goes on to the size check
and to the storing; when it does not, `UploadFile` returns the validation
error `ParamError` of the type check, and only then, and invokes no operation
on the file system. -/
theorem C13_type_check (lower : String → String) (hfix : FixesExtensions lower)
    (cfg : UploadConfig) (fh : FileHeader) (uploadType : UploadType) (relatedID : String)
    (env : UploadEnv) :
    (isAllowedExt lower (allowedExtensions lower cfg.AllowedTypes) (lower (Ext fh.Filename)) = true
      ↔ ∃ m ∈ cfg.AllowedTypes, mimeToExt (lower m) = some (lower (Ext fh.Filename))) ∧
    ((∃ m ∈ cfg.AllowedTypes, mimeToExt (lower m) = some (lower (Ext fh.Filename))) →
      UploadFile lower cfg (some fh) uploadType relatedID env
        = if fh.Size > cfg.MaxSize then
            ⟨.error (New ParamError "File size exceeds limit"), []⟩
          else storeUpload cfg fh uploadType relatedID env) ∧
    ((¬ ∃ m ∈ cfg.AllowedTypes, mimeToExt (lower m) = some (lower (Ext fh.Filename))) →
      (UploadFile lower cfg (some fh) uploadType relatedID env).result
        = .error (unsupportedFileType (allowedExtensions lower cfg.AllowedTypes)) ∧
      (unsupportedFileType (allowedExtensions lower cfg.AllowedTypes)).Code = ParamError ∧
      (UploadFile lower cfg (some fh) uploadType relatedID env).fs = []) ∧
    ((UploadFile lower cfg (some fh) uploadType relatedID env).result
        = .error (unsupportedFileType (allowedExtensions lower cfg.AllowedTypes))
      ↔ ¬ ∃ m ∈ cfg.AllowedTypes, mimeToExt (lower m) = some (lower (Ext fh.Filename))) := by
  have hiff : isAllowedExt lower (allowedExtensions lower cfg.AllowedTypes)
      (lower (Ext fh.Filename)) = true
      ↔ ∃ m ∈ cfg.AllowedTypes, mimeToExt (lower m) = some (lower (Ext fh.Filename)) :=
    (isAllowedExt_iff hfix _ _).trans mem_allowedExtensions
  have hpass : (∃ m ∈ cfg.AllowedTypes, mimeToExt (lower m) = some (lower (Ext fh.Filename))) →
      UploadFile lower cfg (some fh) uploadType relatedID env
        = if fh.Size > cfg.MaxSize then
            ⟨.error (New ParamError "File size exceeds limit"), []⟩
          else storeUpload cfg fh uploadType relatedID env := by
    intro h
    unfold UploadFile
    dsimp only
    rw [hiff.mpr h]
    simp
  have hfail : (¬ ∃ m ∈ cfg.AllowedTypes,
        mimeToExt (lower m) = some (lower (Ext fh.Filename))) →
      UploadFile lower cfg (some fh) uploadType relatedID env
        = ⟨.error (unsupportedFileType (allowedExtensions lower cfg.AllowedTypes)), []⟩ := by
    intro h
    have hb : isAllowedExt lower (allowedExtensions lower cfg.AllowedTypes)
        (lower (Ext fh.Filename)) = false := by
      cases hc : isAllowedExt lower (allowedExtensions lower cfg.AllowedTypes)
          (lower (Ext fh.Filename)) with
      | false => rfl
      | true => exact absurd (hiff.mp hc) h
    unfold UploadFile
    dsimp only
    rw [hb]
    rfl
  refine ⟨hiff, hpass, ?_, ?_⟩
  · intro h
    rw [hfail h]
    exact ⟨rfl, rfl, rfl⟩
  · constructor
    · intro hres h
      rw [hpass h] at hres
      by_cases hsz : fh.Size > cfg.MaxSize
      · rw [if_pos hsz] at hres
        simp only [Except.error.injEq, unsupportedFileType, New, AppError.mk.injEq] at hres
        exact (unsupportedFileType_message_ne _).2 hres.2.1.symm
      · rw [if_neg hsz] at hres
        exact (storeUpload_result_ne cfg fh uploadType relatedID env _).1 hres
    · intro h
      rw [hfail h]

/-- Worked example for C13 with the sample configuration (JPEG and PNG, one
of them written in upper case, and a type the map does not know): `Photo.PNG`
passes the type check and is stored, `notes.pdf` is rejected. -/
theorem C13_type_check_witness :
    FixesExtensions asciiLower ∧
    (∃ m ∈ sampleUpload.AllowedTypes,
      mimeToExt (asciiLower m) = some (asciiLower (Ext "Photo.PNG"))) ∧
    UploadFile asciiLower sampleUpload (some { Filename := "Photo.PNG", Size := 1000 })
        "user_avatar" "42" sampleUploadEnv
      = (if (1000 : Int) > sampleUpload.MaxSize then
          ⟨.error (New ParamError "File size exceeds limit"), []⟩
        else storeUpload sampleUpload { Filename := "Photo.PNG", Size := 1000 }
          "user_avatar" "42" sampleUploadEnv) ∧
    (¬ ∃ m ∈ sampleUpload.AllowedTypes,
      mimeToExt (asciiLower m) = some (asciiLower (Ext "notes.pdf"))) ∧
    (UploadFile asciiLower sampleUpload (some { Filename := "notes.pdf", Size := 1000 })
        "user_avatar" "42" sampleUploadEnv).result
      = .error (New ParamError "Unsupported file type. Allowed types: .jpg, .png") ∧
    (UploadFile asciiLower sampleUpload (some { Filename := "notes.pdf", Size := 1000 })
        "user_avatar" "42" sampleUploadEnv).fs = [] :=
  have hfix : FixesExtensions asciiLower := ⟨by rfl, by rfl, by rfl⟩
  have h1 : ∃ m ∈ sampleUpload.AllowedTypes,
      mimeToExt (asciiLower m) = some (asciiLower (Ext "Photo.PNG")) :=
    ⟨"IMAGE/PNG", by simp [sampleUpload], by rfl⟩
  have h2 : ¬ ∃ m ∈ sampleUpload.AllowedTypes,
      mimeToExt (asciiLower m) = some (asciiLower (Ext "notes.pdf")) := by
    rintro ⟨m, hm, he⟩
    simp only [sampleUpload, List.mem_cons, List.mem_singleton, List.not_mem_nil,
      or_false] at hm
    rcases hm with rfl | rfl | rfl
    · exact absurd he (by decide)
    · exact absurd he (by decide)
    · exact absurd he (by decide)
  have hc := C13_type_check asciiLower hfix sampleUpload { Filename := "notes.pdf", Size := 1000 }
    "user_avatar" "42" sampleUploadEnv
  ⟨hfix, h1,
   (C13_type_check asciiLower hfix sampleUpload { Filename := "Photo.PNG", Size := 1000 }
      "user_avatar" "42" sampleUploadEnv).2.1 h1,
   h2, ((hc.2.2.1 h2).1).trans (by rfl), (hc.2.2.1 h2).2.2⟩

/-- Claim C14.  For every file whose extension passes the type check,
`UploadFile` returns the validation error `ParamError` of the size check
exactly when the declared size is strictly greater than the configured
`MaxSize`; it then invokes no operation on the file system.  A file of
exactly `MaxSize` bytes, like every smaller one, passes the size check and
goes on to the storing. -/
theorem C14_size_check (lower : String → String) (cfg : UploadConfig) (fh : FileHeader)
    (uploadType : UploadType) (relatedID : String) (env : UploadEnv)
    (hallowed : isAllowedExt lower (allowedExtensions lower cfg.AllowedTypes)
      (lower (Ext fh.Filename)) = true) :
    ((UploadFile lower cfg (some fh) uploadType relatedID env).result
        = .error (New ParamError "File size exceeds limit") ↔ fh.Size > cfg.MaxSize) ∧
    (New ParamError "File size exceeds limit").Code = ParamError ∧
    (fh.Size > cfg.MaxSize →
      (UploadFile lower cfg (some fh) uploadType relatedID env).fs = []) ∧
    (fh.Size ≤ cfg.MaxSize →
      UploadFile lower cfg (some fh) uploadType relatedID env
        = storeUpload cfg fh uploadType relatedID env) := by
  have hbig : fh.Size > cfg.MaxSize →
      UploadFile lower cfg (some fh) uploadType relatedID env
        = ⟨.error (New ParamError "File size exceeds limit"), []⟩ := by
    intro h
    unfold UploadFile
    dsimp only
    rw [hallowed]
    simp [h]
  have hsmall : fh.Size ≤ cfg.MaxSize →
      UploadFile lower cfg (some fh) uploadType relatedID env
        = storeUpload cfg fh uploadType relatedID env := by
    intro h
    unfold UploadFile
    dsimp only
    rw [hallowed]
    simp [not_lt.mpr h]
  refine ⟨?_, rfl, ?_, hsmall⟩
  · constructor
    · intro hres
      by_contra hle
      rw [hsmall (not_lt.mp hle)] at hres
      exact (storeUpload_result_ne cfg fh uploadType relatedID env []).2 hres
    · intro h
      rw [hbig h]
  · intro h
    rw [hbig h]

/-- Worked example for C14 with the sample configuration (`MaxSize` 5242880):
one byte more is rejected, exactly `MaxSize` is stored. -/
theorem C14_size_check_witness :
    isAllowedExt asciiLower (allowedExtensions asciiLower sampleUpload.AllowedTypes)
      (asciiLower (Ext "a.jpg")) = true ∧
    ((5242881 : Int) > sampleUpload.MaxSize ∧
      (UploadFile asciiLower sampleUpload (some { Filename := "a.jpg", Size := 5242881 })
        "user_avatar" "" sampleUploadEnv).result
        = .error (New ParamError "File size exceeds limit") ∧
      (UploadFile asciiLower sampleUpload (some { Filename := "a.jpg", Size := 5242881 })
        "user_avatar" "" sampleUploadEnv).fs = []) ∧
    ((5242880 : Int) ≤ sampleUpload.MaxSize ∧
      UploadFile asciiLower sampleUpload (some { Filename := "a.jpg", Size := 5242880 })
        "user_avatar" "" sampleUploadEnv
        = storeUpload sampleUpload { Filename := "a.jpg", Size := 5242880 }
          "user_avatar" "" sampleUploadEnv ∧
      (UploadFile asciiLower sampleUpload (some { Filename := "a.jpg", Size := 5242880 })
        "user_avatar" "" sampleUploadEnv).result
        = .ok { URL := "https://api.example.com/uploads/images/users/user_avatar_20240305_090701.jpg",
                Path := "/uploads/images/users/user_avatar_20240305_090701.jpg",
                Filename := "user_avatar_20240305_090701.jpg", Size := 5242880 }) :=
  have ha : isAllowedExt asciiLower (allowedExtensions asciiLower sampleUpload.AllowedTypes)
      (asciiLower (Ext "a.jpg")) = true := by rfl
  have hb : (5242881 : Int) > sampleUpload.MaxSize := by decide
  have hs : (5242880 : Int) ≤ sampleUpload.MaxSize := by decide
  have h1 := C14_size_check asciiLower sampleUpload { Filename := "a.jpg", Size := 5242881 }
    "user_avatar" "" sampleUploadEnv ha
  have h2 := C14_size_check asciiLower sampleUpload { Filename := "a.jpg", Size := 5242880 }
    "user_avatar" "" sampleUploadEnv ha
  ⟨ha, ⟨hb, h1.1.mpr hb, h1.2.2.1 hb⟩, ⟨hs, h2.2.2.2 hs, by rfl⟩⟩

theorem storeUpload_unknown_type (cfg : UploadConfig) (fh : FileHeader)
    (uploadType : UploadType) (relatedID : String) (env : UploadEnv)
    (h1 : uploadType ≠ UploadTypeUserAvatar) (h2 : uploadType ≠ UploadTypeBabyAvatar) :
    storeUpload cfg fh uploadType relatedID env
      = ⟨.error (New ParamError "Unsupported upload type"), []⟩ := by
  have hs : getSubDir uploadType = "" := by
    unfold getSubDir
    rw [if_neg h1, if_neg h2]
  unfold storeUpload
  dsimp only
  rw [if_pos hs]

/-- Claim C15.  For every upload-type tag other than `user_avatar` and
`baby_avatar` and for every file, nil or not, whatever its name and size,
`UploadFile` returns a validation error (an error built by `errors.New` with
the code `ParamError`, which the response layer maps to HTTP 400) and invokes
no operation on the file system. -/
theorem C15_unknown_upload_type (lower : String → String) (cfg : UploadConfig)
    (fileHeader : Option FileHeader) (uploadType : UploadType) (relatedID : String)
    (env : UploadEnv)
    (h1 : uploadType ≠ "user_avatar") (h2 : uploadType ≠ "baby_avatar") :
    (∃ msg, (UploadFile lower cfg fileHeader uploadType relatedID env).result
      = .error (New ParamError msg)) ∧
    getHTTPStatus ParamError = 400 ∧
    (UploadFile lower cfg fileHeader uploadType relatedID env).fs = [] := by
  have hmain : ∃ msg, UploadFile lower cfg fileHeader uploadType relatedID env
      = ⟨.error (New ParamError msg), []⟩ := by
    unfold UploadFile
    cases fileHeader with
    | none => exact ⟨_, rfl⟩
    | some fh =>
      dsimp only
      by_cases ha : (!isAllowedExt lower (allowedExtensions lower cfg.AllowedTypes)
          (lower (Ext fh.Filename))) = true
      · rw [if_pos ha]; exact ⟨_, rfl⟩
      · rw [if_neg ha]
        by_cases hsz : fh.Size > cfg.MaxSize
        · rw [if_pos hsz]; exact ⟨_, rfl⟩
        · rw [if_neg hsz]
          exact ⟨_, storeUpload_unknown_type cfg fh uploadType relatedID env h1 h2⟩
  obtain ⟨msg, hm⟩ := hmain
  rw [hm]
  exact ⟨⟨msg, rfl⟩, by decide, rfl⟩

/-- Worked example for C15: the tag `other_avatar` with a file that passes
the checks of type and size, and with no file at all. -/
theorem C15_unknown_upload_type_witness :
    (("other_avatar" : String) ≠ "user_avatar" ∧ ("other_avatar" : String) ≠ "baby_avatar") ∧
    (UploadFile asciiLower sampleUpload (some { Filename := "a.jpg", Size := 10 })
      "other_avatar" "7" sampleUploadEnv).result
      = .error (New ParamError "Unsupported upload type") ∧
    (UploadFile asciiLower sampleUpload none "other_avatar" "7" sampleUploadEnv).result
      = .error (New ParamError "File cannot be empty") ∧
    (UploadFile asciiLower sampleUpload (some { Filename := "a.jpg", Size := 10 })
      "other_avatar" "7" sampleUploadEnv).fs = [] ∧
    (UploadFile asciiLower sampleUpload none "other_avatar" "7" sampleUploadEnv).fs = [] :=
  ⟨⟨by decide, by decide⟩, by rfl, by rfl,
   (C15_unknown_upload_type asciiLower sampleUpload (some { Filename := "a.jpg", Size := 10 })
      "other_avatar" "7" sampleUploadEnv (by decide) (by decide)).2.2,
   (C15_unknown_upload_type asciiLower sampleUpload none
      "other_avatar" "7" sampleUploadEnv (by decide) (by decide)).2.2⟩

/-! ## File uploads: the name of the stored file -/

theorem storeUpload_ok {cfg : UploadConfig} {fh : FileHeader} {uploadType : UploadType}
    {relatedID : String} {env : UploadEnv} {r : UploadResult}
    (h : (storeUpload cfg fh uploadType relatedID env).result = .ok r) :
    r.Filename = generateFilename fh.Filename uploadType relatedID env.now ∧
    r.Size = fh.Size := by
  unfold storeUpload saveFile at h
  dsimp only at h
  by_cases hs : getSubDir uploadType = ""
  · rw [if_pos hs] at h; simp at h
  · rw [if_neg hs] at h
    cases hm : env.mkdirErr with
    | some e => rw [hm] at h; simp at h
    | none =>
      rw [hm] at h
      cases ho : env.openErr with
      | some e => rw [ho] at h; simp at h
      | none =>
        rw [ho] at h
        cases hc : env.createErr with
        | some e => rw [hc] at h; simp at h
        | none =>
          rw [hc] at h
          cases hp : env.copyErr with
          | some e => rw [hp] at h; simp at h
          | none =>
            rw [hp] at h
            simp only [Except.ok.injEq] at h
            rw [← h]
            exact ⟨rfl, rfl⟩

theorem UploadFile_ok {lower : String → String} {cfg : UploadConfig} {fh : FileHeader}
    {uploadType : UploadType} {relatedID : String} {env : UploadEnv} {r : UploadResult}
    (h : (UploadFile lower cfg (some fh) uploadType relatedID env).result = .ok r) :
    (storeUpload cfg fh uploadType relatedID env).result = .ok r := by
  unfold UploadFile at h
  dsimp only at h
  by_cases ha : (!isAllowedExt lower (allowedExtensions lower cfg.AllowedTypes)
      (lower (Ext fh.Filename))) = true
  · rw [if_pos ha] at h; simp at h
  · rw [if_neg ha] at h
    by_cases hsz : fh.Size > cfg.MaxSize
    · rw [if_pos hsz] at h; simp at h
    · rw [if_neg hsz] at h
      exact h

/-- Claim C16.  For every original file name, upload type, relatedID and
clock reading `t`, `generateFilename` returns the upload type, followed by an
underscore and the relatedID when that is not empty, followed by an
underscore and `t` printed as year, month, day, underscore, hour, minute,
second (zero-padded to 4, 2, 2, 2, 2, 2 digits), followed by the extension of
the original file name as written, or `.jpg` when it has none.  Whenever
`UploadFile` succeeds, the `Filename` it returns is that name for the declared
file name and the clock of the call, and `Size` is the declared size. -/
theorem C16_generated_filename (originalFilename : String) (uploadType : UploadType)
    (relatedID : String) (t : CivilTime) (lower : String → String) (cfg : UploadConfig)
    (fh : FileHeader) (env : UploadEnv) :
    generateFilename originalFilename uploadType relatedID t
      = uploadType ++ (if relatedID = "" then "" else "_" ++ relatedID) ++ "_" ++
          formatStamp t ++ (if Ext originalFilename = "" then ".jpg" else Ext originalFilename) ∧
    formatStamp t
      = zeroPad 4 t.Year ++ zeroPad 2 t.Month ++ zeroPad 2 t.Day ++ "_" ++
          zeroPad 2 t.Hour ++ zeroPad 2 t.Minute ++ zeroPad 2 t.Second ∧
    (∀ r, (UploadFile lower cfg (some fh) uploadType relatedID env).result = .ok r →
      r.Filename = generateFilename fh.Filename uploadType relatedID env.now ∧
      r.Size = fh.Size) := by
  refine ⟨?_, rfl, fun r h => storeUpload_ok (UploadFile_ok h)⟩
  unfold generateFilename
  by_cases hr : relatedID = ""
  · simp [hr]
  · simp [hr, String.append_assoc]

/-- Worked example for C16: `Photo.PNG` uploaded as the avatar of user 42 on
5 March 2024 at 09:07:01, and a file name without extension and without
relatedID. -/
theorem C16_generated_filename_witness :
    generateFilename "Photo.PNG" "user_avatar" "42" sampleUploadEnv.now
      = "user_avatar_42_20240305_090701.PNG" ∧
    generateFilename "photo" "baby_avatar" "" sampleUploadEnv.now
      = "baby_avatar_20240305_090701.jpg" ∧
    (UploadFile asciiLower sampleUpload (some { Filename := "Photo.PNG", Size := 1000 })
        "user_avatar" "42" sampleUploadEnv).result
      = .ok { URL := "https://api.example.com/uploads/images/users/user_avatar_42_20240305_090701.PNG",
              Path := "/uploads/images/users/user_avatar_42_20240305_090701.PNG",
              Filename := "user_avatar_42_20240305_090701.PNG", Size := 1000 } ∧
    ("user_avatar_42_20240305_090701.PNG"
        = generateFilename "Photo.PNG" "user_avatar" "42" sampleUploadEnv.now ∧
      (1000 : Int) = 1000) :=
  have hok : (UploadFile asciiLower sampleUpload (some { Filename := "Photo.PNG", Size := 1000 })
        "user_avatar" "42" sampleUploadEnv).result
      = .ok { URL := "https://api.example.com/uploads/images/users/user_avatar_42_20240305_090701.PNG",
              Path := "/uploads/images/users/user_avatar_42_20240305_090701.PNG",
              Filename := "user_avatar_42_20240305_090701.PNG", Size := 1000 } := by rfl
  ⟨by rfl, by rfl, hok,
   (C16_generated_filename "Photo.PNG" "user_avatar" "42" sampleUploadEnv.now asciiLower
      sampleUpload { Filename := "Photo.PNG", Size := 1000 } sampleUploadEnv).2.2 _ hok⟩

/-! ## The response of RefreshToken -/

/-- Claim C26.  For every successful `RefreshToken` call, whatever the
configured `ExpireHours`, the field `ExpiresIn` of the response is 0, while
the token issued alongside it expires `ExpireHours` hours (as an `int64`
number of nanoseconds) after the clock reading. -/
theorem C26_expires_in_is_zero (d : Deps) (db : UserTable) (openID : String)
    (findFault : Option String) (tokenNow : Int) (r : RefreshTokenResponse)
    (hok : RefreshToken d db openID findFault tokenNow = .ok r) :
    r.ExpiresIn = 0 ∧
    ∃ u, FindByOpenID db openID findFault = .ok u ∧
      d.jwt.SignedString (tokenClaims d.cfg tokenNow u.OpenID) d.cfg.Secret = .ok r.Token ∧
      (tokenClaims d.cfg tokenNow u.OpenID).ExpiresAt
        = some (NewNumericDate (tokenNow + wrapInt64 (Hour * d.cfg.ExpireHours))) := by
  unfold RefreshToken at hok
  cases hF : FindByOpenID db openID findFault with
  | error e => rw [hF] at hok; simp at hok
  | ok u =>
    rw [hF] at hok
    dsimp only at hok
    cases hG : generateToken d.cfg d.jwt tokenNow u.OpenID with
    | error e => rw [hG] at hok; simp at hok
    | ok t =>
      rw [hG] at hok
      simp only [Except.ok.injEq] at hok
      subst hok
      exact ⟨rfl, u, rfl, generateToken_ok hG, rfl⟩

/-- Worked example for C26: 72 hours configured, `ExpiresIn` is 0. -/
theorem C26_expires_in_is_zero_witness :
    RefreshToken sampleDeps sampleTable "ext-001" none 1700000000000000000
      = .ok { Token := "s3cret.ext-001", ExpiresIn := 0 } ∧
    sampleDeps.cfg.ExpireHours = 72 ∧
    ({ Token := "s3cret.ext-001", ExpiresIn := 0 } : RefreshTokenResponse).ExpiresIn = 0 :=
  have h : RefreshToken sampleDeps sampleTable "ext-001" none 1700000000000000000
      = .ok { Token := "s3cret.ext-001", ExpiresIn := 0 } := by rfl
  ⟨h, rfl,
   (C26_expires_in_is_zero sampleDeps sampleTable "ext-001" none 1700000000000000000 _ h).1⟩

/-! ## May a payment be refunded -/

/-- Counterexample to C24 as stated: the payment is paid, the refund is 1000
in USD and the paid amount 100 in CNY; the refund amount is greater than the
paid amount, and `CanRefund` allows it, because `GreaterThan` is false for
two amounts in different currencies. -/
theorem C24_other_currency_is_allowed :
    CanRefund (.ok "paid") { amount := 1000, currency := "USD" }
        { amount := 100, currency := "CNY" } = .ok (true, "") ∧
    (1000 : Int) > 100 := by
  refine ⟨by rfl, by decide⟩

/-- Claim C24, amended.  When the gateway query succeeds with `status`,
`CanRefund` returns `allowed = true`, with an empty reason, exactly when the
status is paid and it is not the case that both Money values have the same
currency and the refund amount is greater than the paid amount; when the
status is not paid, or the currencies are equal and the refund amount is
greater, it returns `false` with a non-empty reason.  Amounts in different
currencies are not compared. -/
theorem C24_can_refund (status : String) (refundAmount paidAmount : Money) :
    ∃ allowed reason, CanRefund (.ok status) refundAmount paidAmount = .ok (allowed, reason) ∧
      (allowed = true ↔ status = PaymentStatusPaid ∧
        ¬ (refundAmount.currency = paidAmount.currency ∧
            refundAmount.amount > paidAmount.amount)) ∧
      (allowed = true → reason = "") ∧
      (allowed = false → reason ≠ "") ∧
      (status ≠ PaymentStatusPaid → allowed = false ∧ reason = "订单未支付或已退款") ∧
      (status = PaymentStatusPaid → refundAmount.currency = paidAmount.currency →
        refundAmount.amount > paidAmount.amount →
        allowed = false ∧ reason = "退款金额不能大于支付金额") := by
  unfold CanRefund
  dsimp only
  by_cases hs : status ≠ PaymentStatusPaid
  · rw [if_pos hs]
    refine ⟨false, _, rfl, ?_, ?_, ?_, ?_, ?_⟩
    · simp [hs]
    · simp
    · intro _; decide
    · intro _; exact ⟨rfl, rfl⟩
    · intro h; exact absurd h hs
  · rw [if_neg hs]
    have hs2 : status = PaymentStatusPaid := by simpa using hs
    by_cases hg : refundAmount.GreaterThan paidAmount = true
    · rw [if_pos hg]
      have hg2 : refundAmount.currency = paidAmount.currency ∧
          refundAmount.amount > paidAmount.amount := by
        simpa [Money.GreaterThan] using hg
      refine ⟨false, _, rfl, ?_, ?_, ?_, ?_, ?_⟩
      · simp [hg2]
      · simp
      · intro _; decide
      · intro h; exact absurd hs2 h
      · intro _ _ _; exact ⟨rfl, rfl⟩
    · rw [if_neg hg]
      have hg2 : ¬ (refundAmount.currency = paidAmount.currency ∧
          refundAmount.amount > paidAmount.amount) := by
        simpa [Money.GreaterThan] using hg
      refine ⟨true, _, rfl, ?_, ?_, ?_, ?_, ?_⟩
      · simp only [true_iff]; exact ⟨hs2, hg2⟩
      · intro _; rfl
      · simp
      · intro h; exact absurd hs2 h
      · intro _ h1 h2; exact absurd ⟨h1, h2⟩ hg2

/-! ## Phone numbers -/

theorem hasPlus_prepend (s : String) : hasPlus ("+" ++ s) = true := by
  unfold hasPlus
  rw [String.data_append]
  rfl

/-- Whenever `NewPhoneWithCountryCode` succeeds, the country code of the
result starts with `+`. -/
theorem NewPhoneWithCountryCode_plus {countryCode number : String} {p : Phone}
    (h : NewPhoneWithCountryCode countryCode number = .ok p) :
    hasPlus p.countryCode = true := by
  have hplus : ∀ x : String, hasPlus (if (!hasPlus x) = true then "+" ++ x else x) = true := by
    intro x
    cases hx : hasPlus x with
    | true => simp [hx]
    | false => simp [hasPlus_prepend]
  unfold NewPhoneWithCountryCode at h
  dsimp only at h
  by_cases hn : TrimSpace number = ""
  · rw [if_pos hn] at h; simp at h
  · rw [if_neg hn] at h
    generalize (if TrimSpace countryCode = "" then "+86" else TrimSpace countryCode) = x at h
    have hy := hplus x
    generalize (if (!hasPlus x) = true then "+" ++ x else x) = y at h hy
    split at h
    · simp at h
    · simp only [Except.ok.injEq] at h
      rw [← h]
      exact hy

/-- Evaluation for C27 at the failing input.  With the country code `+1` and
the number `-`, `NewPhoneWithCountryCode` succeeds: the emptiness check comes
before the hyphens are removed, the number left is empty, and `IsEmpty` is
true of the resulting `Phone`.  Its country code does start with `+`. -/
theorem C27_hyphen_gives_empty_number :
    NewPhoneWithCountryCode "+1" "-" = .ok { countryCode := "+1", number := "" } ∧
    ({ countryCode := "+1", number := "" } : Phone).IsEmpty = true ∧
    hasPlus ({ countryCode := "+1", number := "" } : Phone).countryCode = true ∧
    NewPhoneWithCountryCode "44" " - - " = .ok { countryCode := "+44", number := "" } := by
  refine ⟨by rfl, by rfl, by rfl, by rfl⟩

/-- Worked example for the amended C24: same currency, refund within the
paid amount, and refund above it. -/
theorem C24_can_refund_witness :
    CanRefund (.ok "paid") { amount := 50, currency := "CNY" }
        { amount := 100, currency := "CNY" } = .ok (true, "") ∧
    CanRefund (.ok "paid") { amount := 150, currency := "CNY" }
        { amount := 100, currency := "CNY" } = .ok (false, "退款金额不能大于支付金额") ∧
    CanRefund (.ok "refunded") { amount := 50, currency := "CNY" }
        { amount := 100, currency := "CNY" } = .ok (false, "订单未支付或已退款") ∧
    (∃ allowed reason,
      CanRefund (.ok "paid") { amount := 150, currency := "CNY" }
        { amount := 100, currency := "CNY" } = .ok (allowed, reason) ∧
      allowed = false ∧ reason = "退款金额不能大于支付金额") :=
  ⟨by rfl, by rfl, by rfl,
   (C24_can_refund "paid" { amount := 150, currency := "CNY" }
      { amount := 100, currency := "CNY" }).elim
     (fun allowed h => h.elim (fun reason hr =>
       ⟨allowed, reason, hr.1, hr.2.2.2.2.2 rfl rfl (by decide)⟩))⟩

theorem isDigit_of_three_nine {c : Char} (h1 : '3' ≤ c) (h2 : c ≤ '9') : isDigit c = true := by
  unfold isDigit
  have h0 : ('0' : Char) ≤ '3' := by decide
  simp [le_trans h0 h1, h2]

theorem matchChinaPhone_iff (n : String) :
    matchChinaPhone n = true ↔
      n.data.length = 11 ∧ (∀ c ∈ n.data, isDigit c = true) ∧ n.data[0]? = some '1' ∧
      ∃ c2, n.data[1]? = some c2 ∧ '3' ≤ c2 ∧ c2 ≤ '9' := by
  unfold matchChinaPhone
  cases hd : n.data with
  | nil => simp
  | cons c1 t =>
    cases t with
    | nil => simp
    | cons c2 rest =>
      simp only [List.length_cons, List.mem_cons, List.getElem?_cons_zero,
        List.getElem?_cons_succ, Option.some.injEq, decide_eq_true_eq, Bool.decide_and,
        Bool.and_eq_true, List.all_eq_true, forall_eq_or_imp]
      constructor
      · rintro ⟨h1, ⟨h2, h3⟩, h4, h5⟩
        refine ⟨by omega, ⟨?_, isDigit_of_three_nine h2 h3, h5⟩, h1, c2, rfl, h2, h3⟩
        rw [h1]; rfl
      · rintro ⟨h1, ⟨-, -, h5⟩, h3, c, hc, h6, h7⟩
        subst hc
        exact ⟨h3, ⟨h6, h7⟩, by omega, h5⟩

theorem matchChinaPhone_empty : matchChinaPhone (removeAll '-' (removeAll ' ' "")) = false := by
  rfl

/-- The function `NewPhone` in one step: the checks and the result. -/
theorem NewPhone_eq (s : String) :
    NewPhone s =
      if matchChinaPhone (removeAll '-' (removeAll ' ' (TrimSpace s))) = true then
        .ok { countryCode := "+86", number := removeAll '-' (removeAll ' ' (TrimSpace s)) }
      else if TrimSpace s = "" then .error "手机号码不能为空"
      else .error "手机号格式不正确" := by
  unfold NewPhone NewPhoneWithCountryCode
  have hcc : TrimSpace "+86" = "+86" := by rfl
  dsimp only
  rw [hcc]
  have h1 : (if ("+86" : String) = "" then "+86" else "+86") = "+86" := by rfl
  have h2 : (if (!hasPlus "+86") = true then "+" ++ "+86" else "+86") = "+86" := by rfl
  rw [h1, h2]
  by_cases hn : TrimSpace s = ""
  · rw [if_pos hn, hn, matchChinaPhone_empty]
    simp
  · rw [if_neg hn]
    cases hm : matchChinaPhone (removeAll '-' (removeAll ' ' (TrimSpace s))) with
    | true => simp
    | false => simp [hn]

theorem dropWhile_of_all {p : Char → Bool} {l : List Char} (h : ∀ c ∈ l, p c = true)
    (r : List Char) : (l ++ r).dropWhile p = r.dropWhile p := by
  induction l with
  | nil => rfl
  | cons a t ih =>
    rw [List.cons_append, List.dropWhile_cons, if_pos (h a (List.mem_cons_self _ _))]
    exact ih (fun c hc => h c (List.mem_cons_of_mem _ hc))

theorem dropWhile_of_head {p : Char → Bool} {l : List Char}
    (h : ∀ c ∈ l.head?, p c = false) : l.dropWhile p = l := by
  cases l with
  | nil => rfl
  | cons a t =>
    have ha : p a = false := h a rfl
    rw [List.dropWhile_cons, if_neg (by rw [ha]; simp)]

theorem head_dropWhile {p : Char → Bool} (l : List Char) :
    ∀ c ∈ (l.dropWhile p).head?, p c = false := by
  induction l with
  | nil => intro c hc; simp at hc
  | cons a t ih =>
    intro c hc
    rw [List.dropWhile_cons] at hc
    by_cases ha : p a = true
    · rw [if_pos ha] at hc
      exact ih c hc
    · rw [if_neg ha] at hc
      simp only [List.head?_cons, Option.mem_def, Option.some.injEq] at hc
      rw [← hc]
      simpa using ha

theorem getLast_dropWhile {p : Char → Bool} (l : List Char) :
    ∀ c ∈ (l.dropWhile p).getLast?, c ∈ l.getLast? := by
  induction l with
  | nil => intro c hc; simp at hc
  | cons a t ih =>
    intro c hc
    rw [List.dropWhile_cons] at hc
    by_cases ha : p a = true
    · rw [if_pos ha] at hc
      have ht := ih c hc
      cases t with
      | nil => simp at ht
      | cons b u =>
        rw [List.getLast?_cons_cons]
        exact ht
    · rw [if_neg ha] at hc
      exact hc

/-- What `TrimSpace` returns is the one list that the white space of the
string surrounds. -/
theorem TrimSpace_unique (s : String) (pre core post : List Char)
    (h : SurroundedBySpace s.data pre core post) : (TrimSpace s).data = core := by
  obtain ⟨hs, hpre, hpost, hhead, hlast⟩ := h
  unfold TrimSpace
  show ((s.data.dropWhile isSpace).reverse.dropWhile isSpace).reverse = core
  have hpost2 : ∀ c ∈ post.reverse, isSpace c = true :=
    fun c hc => hpost c (List.mem_reverse.mp hc)
  have hlast2 : ∀ c ∈ core.reverse.head?, isSpace c = false := by
    intro c hc
    rw [List.head?_reverse] at hc
    exact hlast c hc
  have hcp : ∀ c ∈ (core ++ post).head?, isSpace c = false ∨ core = [] := by
    intro c hc
    cases core with
    | nil => exact Or.inr rfl
    | cons a t => exact Or.inl (hhead c hc)
  rw [hs, List.append_assoc, dropWhile_of_all hpre]
  cases core with
  | nil =>
    have hall : ∀ c ∈ post ++ [], isSpace c = true := by simpa using hpost
    have h0 := dropWhile_of_all hall []
    simp only [List.append_nil, List.dropWhile_nil, List.nil_append] at h0 ⊢
    rw [h0]
    rfl
  | cons a t =>
    have h1 : ((a :: t) ++ post).dropWhile isSpace = (a :: t) ++ post :=
      dropWhile_of_head (fun c hc => hhead c hc)
    rw [h1, List.reverse_append, dropWhile_of_all hpost2, dropWhile_of_head hlast2,
      List.reverse_reverse]

/-- Every string has its white space around what `TrimSpace` returns. -/
theorem TrimSpace_surrounded (s : String) :
    SurroundedBySpace s.data (s.data.takeWhile isSpace) (TrimSpace s).data
      ((s.data.dropWhile isSpace).reverse.takeWhile isSpace).reverse := by
  have hcore : (TrimSpace s).data
      = ((s.data.dropWhile isSpace).reverse.dropWhile isSpace).reverse := rfl
  rw [hcore]
  refine ⟨?_, ?_, ?_, ?_, ?_⟩
  · rw [List.append_assoc, ← List.reverse_append, List.takeWhile_append_dropWhile,
      List.reverse_reverse, List.takeWhile_append_dropWhile]
  · intro c hc
    exact List.mem_takeWhile_imp hc
  · intro c hc
    exact List.mem_takeWhile_imp (List.mem_reverse.mp hc)
  · intro c hc
    rw [List.head?_reverse] at hc
    have h1 := getLast_dropWhile (p := isSpace) (s.data.dropWhile isSpace).reverse c hc
    rw [List.getLast?_reverse] at h1
    exact head_dropWhile s.data c h1
  · intro c hc
    rw [List.getLast?_reverse] at hc
    exact head_dropWhile _ c hc

theorem removeAll_data (s : String) :
    (removeAll '-' (removeAll ' ' s)).data = withoutSpacesAndHyphens s.data := by
  unfold removeAll withoutSpacesAndHyphens
  show (s.data.filter _).filter _ = _
  rw [List.filter_filter]
  apply List.filter_congr
  intro c _
  by_cases h1 : c = ' ' <;> by_cases h2 : c = '-' <;> simp [h1, h2]

/-- Claim C22.  Every string `s` is some `core` with white space
(`unicode.IsSpace`) before and after it, where `core` neither begins nor ends
with white space; and for every such way of writing `s`, `NewPhone s`
succeeds exactly when `core` without its spaces and hyphens consists of
exactly 11 ASCII digits of which the first is `1` and the second is between
`3` and `9`; on success the number of the `Phone` is that normalised string
and its country code is `+86`. -/
theorem C22_new_phone (s : String) :
    (∃ pre core post, SurroundedBySpace s.data pre core post) ∧
    ∀ pre core post, SurroundedBySpace s.data pre core post →
      ((∃ p, NewPhone s = .ok p) ↔
        (withoutSpacesAndHyphens core).length = 11 ∧
        (∀ c ∈ withoutSpacesAndHyphens core, isDigit c = true) ∧
        (withoutSpacesAndHyphens core)[0]? = some '1' ∧
        ∃ c2, (withoutSpacesAndHyphens core)[1]? = some c2 ∧ '3' ≤ c2 ∧ c2 ≤ '9') ∧
      (∀ p, NewPhone s = .ok p →
        p.number = String.mk (withoutSpacesAndHyphens core) ∧ p.countryCode = "+86") := by
  refine ⟨⟨_, _, _, TrimSpace_surrounded s⟩, ?_⟩
  intro pre core post hsur
  have hcore := TrimSpace_unique s pre core post hsur
  have hnorm : (removeAll '-' (removeAll ' ' (TrimSpace s))).data
      = withoutSpacesAndHyphens core := by
    rw [removeAll_data, hcore]
  rw [← hnorm, NewPhone_eq, ← matchChinaPhone_iff]
  by_cases hm : matchChinaPhone (removeAll '-' (removeAll ' ' (TrimSpace s))) = true
  · rw [if_pos hm]
    refine ⟨⟨fun _ => hm, fun _ => ⟨_, rfl⟩⟩, ?_⟩
    intro p hp
    simp only [Except.ok.injEq] at hp
    rw [← hp]
    exact ⟨rfl, rfl⟩
  · rw [if_neg hm]
    refine ⟨⟨?_, fun h => absurd h hm⟩, ?_⟩
    · rintro ⟨p, hp⟩
      split_ifs at hp
    · intro p hp
      split_ifs at hp

/-- Worked example for C22: a number written with spaces and hyphens, with a
tab and a space before it and a line feed after it, is accepted and
normalised; so is one between an ideographic space and a no-break space.  A
number whose second digit is 2 is refused, and so is a number with a tab
inside (only surrounding white space is trimmed) and one that follows a
zero-width space (which is not white space). -/
theorem C22_new_phone_witness :
    SurroundedBySpace ("\t 138-0013 8000\n" : String).data ['\t', ' ']
      ("138-0013 8000" : String).data ['\n'] ∧
    NewPhone "\t 138-0013 8000\n" = .ok { countryCode := "+86", number := "13800138000" } ∧
    (∀ p, NewPhone "\t 138-0013 8000\n" = .ok p →
      p.number = String.mk (withoutSpacesAndHyphens ("138-0013 8000" : String).data) ∧
      p.countryCode = "+86") ∧
    withoutSpacesAndHyphens ("138-0013 8000" : String).data = ("13800138000" : String).data ∧
    NewPhone "\u3000\r\n13800138000\u00a0" = .ok { countryCode := "+86", number := "13800138000" } ∧
    NewPhone "12800138000" = .error "手机号格式不正确" ∧
    NewPhone "138\t00138000" = .error "手机号格式不正确" ∧
    NewPhone "\u200b13800138000" = .error "手机号格式不正确" ∧
    NewPhone " \t\n " = .error "手机号码不能为空" :=
  have hsur : SurroundedBySpace ("\t 138-0013 8000\n" : String).data ['\t', ' ']
      ("138-0013 8000" : String).data ['\n'] :=
    ⟨by rfl, by decide, by decide, by decide, by decide⟩
  ⟨hsur, by rfl, ((C22_new_phone "\t 138-0013 8000\n").2 _ _ _ hsur).2, by rfl, by rfl, by rfl,
    by rfl, by rfl, by rfl⟩

/-- The number of a `Phone` built by `NewPhone`: 11 digits. -/
theorem NewPhone_digits (s : String) (p : Phone) (h : NewPhone s = .ok p) :
    (p.number.data.length = 11 ∧ ∀ c ∈ p.number.data, isDigit c = true) ∧
    p.number = removeAll '-' (removeAll ' ' (TrimSpace s)) := by
  rw [NewPhone_eq] at h
  by_cases hm : matchChinaPhone (removeAll '-' (removeAll ' ' (TrimSpace s))) = true
  · rw [if_pos hm] at h
    simp only [Except.ok.injEq] at h
    rw [← h]
    obtain ⟨h1, h2, -⟩ := (matchChinaPhone_iff _).mp hm
    exact ⟨⟨h1, h2⟩, rfl⟩
  · rw [if_neg hm] at h
    split_ifs at h

/-! ## Masking a phone number -/

theorem isDigit_toNat {c : Char} (h : isDigit c = true) : 48 ≤ c.toNat ∧ c.toNat ≤ 57 := by
  unfold isDigit at h
  simp only [Bool.decide_and, Bool.and_eq_true, decide_eq_true_eq] at h
  obtain ⟨h1, h2⟩ := h
  have h1' : ('0' : Char).toNat ≤ c.toNat := h1
  have h2' : c.toNat ≤ ('9' : Char).toNat := h2
  have e1 : ('0' : Char).toNat = 48 := by decide
  have e2 : ('9' : Char).toNat = 57 := by decide
  omega

theorem goBytes_ascii (l : List Char) (h : ∀ c ∈ l, c.toNat ≤ 127) :
    goBytes (String.mk l) = l.map Char.toNat := by
  unfold goBytes
  induction l with
  | nil => rfl
  | cons a t ih =>
    have ha : utf8Bytes a = [a.toNat] := by
      unfold utf8Bytes
      simp [h a (List.mem_cons_self _ _)]
    have := ih (fun c hc => h c (List.mem_cons_of_mem _ hc))
    simp only [List.map_cons, List.flatten_cons, ha] at this ⊢
    rw [this]
    rfl

theorem goBytes_stars : goBytes "****" = [42, 42, 42, 42] := by rfl

/-- The method `Masked` on a number of ASCII characters, in characters. -/
theorem Masked_ascii (p : Phone) (h : ∀ c ∈ p.number.data, c.toNat ≤ 127) :
    (goBytes p.number).length = p.number.data.length ∧
    (p.number.data.length < 7 → p.Masked = goBytes p.number) ∧
    (7 ≤ p.number.data.length →
      p.Masked = goBytes (String.mk (p.number.data.take 3 ++ "****".data ++
        p.number.data.drop (p.number.data.length - 4)))) := by
  have hb : goBytes p.number = p.number.data.map Char.toNat := goBytes_ascii p.number.data h
  have hl : (goBytes p.number).length = p.number.data.length := by rw [hb, List.length_map]
  refine ⟨hl, ?_, ?_⟩
  · intro hlt
    unfold Phone.Masked
    dsimp only
    rw [if_pos (by omega)]
  · intro hge
    unfold Phone.Masked
    dsimp only
    rw [if_neg (by omega), hl]
    have hall : ∀ c ∈ p.number.data.take 3 ++ "****".data ++
        p.number.data.drop (p.number.data.length - 4), c.toNat ≤ 127 := by
      intro c hc
      simp only [List.mem_append] at hc
      rcases hc with (hc | hc) | hc
      · exact h c (List.mem_of_mem_take hc)
      · have hc2 : c ∈ ['*', '*', '*', '*'] := hc
        have h42 : c = '*' := by simpa using hc2
        rw [h42]; decide
      · exact h c (List.mem_of_mem_drop hc)
    rw [goBytes_ascii _ hall, hb, goBytes_stars]
    simp only [List.map_append, List.map_take, List.map_drop]
    rfl

theorem length_eleven {α : Type} {l : List α} (h : l.length = 11) :
    ∃ a b c d e f g x y z w, l = [a, b, c, d, e, f, g, x, y, z, w] := by
  match l, h with
  | [a, b, c, d, e, f, g, x, y, z, w], _ => exact ⟨a, b, c, d, e, f, g, x, y, z, w, rfl⟩

/-- Counterexample to C23 as stated.  The number of a `Phone` need not be
ASCII: with the country code `+20` the number is not validated.  The number
`١٢٣٤٥٦٧` has seven characters of two bytes each; `Masked` keeps its first
three bytes and its last four bytes, not its first three and last four
characters.  The number `١٢٣٤` has four characters, fewer than seven, but
eight bytes, and is not returned unchanged. -/
theorem C23_masked_counts_bytes :
    NewPhoneWithCountryCode "+20" "١٢٣٤٥٦٧" = .ok { countryCode := "+20", number := "١٢٣٤٥٦٧" } ∧
    ("١٢٣٤٥٦٧" : String).data.length = 7 ∧
    ({ countryCode := "+20", number := "١٢٣٤٥٦٧" } : Phone).Masked
      = [217, 161, 217, 42, 42, 42, 42, 217, 166, 217, 167] ∧
    goBytes "١٢٣****٤٥٦٧"
      = [217, 161, 217, 162, 217, 163, 42, 42, 42, 42, 217, 164, 217, 165, 217, 166, 217, 167] ∧
    ({ countryCode := "+20", number := "١٢٣٤٥٦٧" } : Phone).Masked ≠ goBytes "١٢٣****٤٥٦٧" ∧
    NewPhoneWithCountryCode "+20" "١٢٣٤" = .ok { countryCode := "+20", number := "١٢٣٤" } ∧
    ("١٢٣٤" : String).data.length = 4 ∧
    ({ countryCode := "+20", number := "١٢٣٤" } : Phone).Masked ≠ goBytes "١٢٣٤" := by
  refine ⟨by rfl, by rfl, by rfl, by rfl, by decide, by rfl, by rfl, by decide⟩

/-- Claim C23, amended.  `Masked` counts bytes: for every `Phone` whose number
is at least 7 bytes long it is the first three bytes of the number, `****`,
and its last four bytes, and a number of fewer than 7 bytes is returned
unchanged.  For a number of ASCII characters, bytes are characters: with at
least 7 characters the result is its first three characters, `****` and its
last four characters (as in 138****8888), with fewer it is the number itself.
For every `Phone` built by `NewPhone` the number has 11 characters, the
masked string has the same length, it has `*` in the 4th to 7th positions,
where the number has digits, and agrees with the number everywhere else. -/
theorem C23_masked (p : Phone) :
    ((goBytes p.number).length < 7 → p.Masked = goBytes p.number) ∧
    (7 ≤ (goBytes p.number).length →
      p.Masked = (goBytes p.number).take 3 ++ goBytes "****" ++
        (goBytes p.number).drop ((goBytes p.number).length - 4)) ∧
    ((∀ c ∈ p.number.data, c.toNat ≤ 127) →
      (p.number.data.length < 7 → p.Masked = goBytes p.number) ∧
      (7 ≤ p.number.data.length →
        p.Masked = goBytes (String.mk (p.number.data.take 3 ++ "****".data ++
          p.number.data.drop (p.number.data.length - 4))))) ∧
    (∀ s, NewPhone s = .ok p →
      p.number.data.length = 11 ∧ (goBytes p.number).length = 11 ∧ p.Masked.length = 11 ∧
      ∀ i, i < 11 →
        (3 ≤ i ∧ i < 7 → p.Masked[i]? = some 42 ∧ (goBytes p.number)[i]? ≠ some 42) ∧
        (¬ (3 ≤ i ∧ i < 7) → p.Masked[i]? = (goBytes p.number)[i]?)) := by
  refine ⟨?_, ?_, ?_, ?_⟩
  · intro h
    unfold Phone.Masked
    dsimp only
    rw [if_pos h]
  · intro h
    unfold Phone.Masked
    dsimp only
    rw [if_neg (by omega)]
  · intro h
    exact (Masked_ascii p h).2
  · intro s hs
    obtain ⟨hex, hnum⟩ := NewPhone_digits s p hs
    obtain ⟨hlen, hdig⟩ := hex
    have hascii : ∀ c ∈ p.number.data, c.toNat ≤ 127 := by
      intro c hc
      have := (isDigit_toNat (hdig c hc)).2
      omega
    obtain ⟨hbl, -, hm⟩ := Masked_ascii p hascii
    have hb : goBytes p.number = p.number.data.map Char.toNat := goBytes_ascii _ hascii
    have hm2 := hm (by omega)
    obtain ⟨a, b, c, d, e, f, g, x, y, z, w, hl⟩ := length_eleven hlen
    rw [hl] at hdig
    have hd := (isDigit_toNat (hdig d (by simp))).1
    have he := (isDigit_toNat (hdig e (by simp))).1
    have hf := (isDigit_toNat (hdig f (by simp))).1
    have hg := (isDigit_toNat (hdig g (by simp))).1
    have hmask : p.Masked
        = [a.toNat, b.toNat, c.toNat, 42, 42, 42, 42, x.toNat, y.toNat, z.toNat, w.toNat] := by
      rw [hm2, hl]
      have hall : ∀ q ∈ [a, b, c, '*', '*', '*', '*', x, y, z, w], q.toNat ≤ 127 := by
        intro q hq
        simp only [List.mem_cons, List.mem_singleton, List.not_mem_nil, or_false] at hq
        rcases hq with rfl | rfl | rfl | rfl | rfl | rfl | rfl | rfl | rfl | rfl | rfl
        all_goals first | decide | (apply hascii; rw [hl]; simp)
      exact goBytes_ascii _ hall
    have hbytes : goBytes p.number
        = [a.toNat, b.toNat, c.toNat, d.toNat, e.toNat, f.toNat, g.toNat,
           x.toNat, y.toNat, z.toNat, w.toNat] := by
      rw [hb, hl]; rfl
    refine ⟨hlen, by rw [hbl, hlen], by rw [hmask]; rfl, ?_⟩
    intro i hi
    rw [hmask, hbytes]
    interval_cases i <;> simp <;> omega

/-- Worked example for C23: the number 13812348888 built by `NewPhone` is
masked as 138****8888. -/
theorem C23_masked_witness :
    NewPhone "13812348888" = .ok { countryCode := "+86", number := "13812348888" } ∧
    ({ countryCode := "+86", number := "13812348888" } : Phone).Masked = goBytes "138****8888" ∧
    ({ countryCode := "+86", number := "13812348888" } : Phone).Masked.length = 11 :=
  have h : NewPhone "13812348888" = .ok { countryCode := "+86", number := "13812348888" } := by
    rfl
  ⟨h, by rfl, ((C23_masked { countryCode := "+86", number := "13812348888" }).2.2.2 _ h).2.2.1⟩

/-! ## Sending a notification over several channels -/

theorem sendLoop_spec {σ : Type} (sender : NotificationSender σ) (req : NotificationRequest) :
    ∀ (channels : List NotificationChannel) (st : σ) (lastErr : Option PkgError),
    (∀ a ∈ (sendLoop sender req channels st lastErr).attempts,
      (SendNotification sender a.before { req with Channel := a.channel }).result = a.result) ∧
    (∀ a ∈ (sendLoop sender req channels st lastErr).attempts.head?, a.before = st) ∧
    List.Chain' (Follows sender req) (sendLoop sender req channels st lastErr).attempts ∧
    (((sendLoop sender req channels st lastErr).result = none ∧
        ∃ fails last post,
          channels = fails.map Attempt.channel ++ last.channel :: post ∧
          (sendLoop sender req channels st lastErr).attempts = fails ++ [last] ∧
          (∀ a ∈ fails, a.result ≠ none) ∧ last.result = none) ∨
      ((sendLoop sender req channels st lastErr).attempts.map Attempt.channel = channels ∧
        (∀ a ∈ (sendLoop sender req channels st lastErr).attempts, a.result ≠ none) ∧
        (sendLoop sender req channels st lastErr).result
          = some (afterLoop
              (match (sendLoop sender req channels st lastErr).attempts.getLast? with
               | some a => a.result
               | none => lastErr)))) := by
  intro channels
  induction channels with
  | nil =>
    intro st lastErr
    refine ⟨?_, ?_, ?_, Or.inr ⟨rfl, ?_, rfl⟩⟩
    · intro a ha; simp [sendLoop] at ha
    · intro a ha; simp [sendLoop] at ha
    · simp [sendLoop]
    · intro a ha; simp [sendLoop] at ha
  | cons ch rest ih =>
    intro st lastErr
    cases ho : (SendNotification sender st { req with Channel := ch }).result with
    | none =>
      have hloop : sendLoop sender req (ch :: rest) st lastErr
          = { result := none,
              state := (SendNotification sender st { req with Channel := ch }).state,
              attempts := [{ channel := ch, before := st, result := none }],
              calls := (SendNotification sender st { req with Channel := ch }).calls } := by
        simp only [sendLoop, ho]
      rw [hloop]
      refine ⟨?_, ?_, ?_, Or.inl ⟨rfl, [], { channel := ch, before := st, result := none },
        rest, rfl, rfl, ?_, rfl⟩⟩
      · intro a ha
        simp only [List.mem_singleton] at ha
        rw [ha]; exact ho
      · intro a ha
        simp only [List.head?_cons, Option.mem_def, Option.some.injEq] at ha
        rw [← ha]
      · exact List.chain'_singleton _
      · intro a ha; simp at ha
    | some err =>
      have hloop : sendLoop sender req (ch :: rest) st lastErr
          = { result := (sendLoop sender req rest
                (SendNotification sender st { req with Channel := ch }).state (some err)).result,
              state := (sendLoop sender req rest
                (SendNotification sender st { req with Channel := ch }).state (some err)).state,
              attempts := { channel := ch, before := st, result := some err } ::
                (sendLoop sender req rest
                  (SendNotification sender st { req with Channel := ch }).state
                  (some err)).attempts,
              calls := (SendNotification sender st { req with Channel := ch }).calls ++
                (sendLoop sender req rest
                  (SendNotification sender st { req with Channel := ch }).state
                  (some err)).calls } := by
        simp only [sendLoop, ho]
      rw [hloop]
      obtain ⟨h1, h2, h3, h4⟩ :=
        ih (SendNotification sender st { req with Channel := ch }).state (some err)
      generalize sendLoop sender req rest
        (SendNotification sender st { req with Channel := ch }).state (some err) = r at h1 h2 h3 h4
      dsimp only
      refine ⟨?_, ?_, ?_, ?_⟩
      · intro a ha
        rcases List.mem_cons.mp ha with rfl | ha
        · exact ho
        · exact h1 a ha
      · intro a ha
        simp only [List.head?_cons, Option.mem_def, Option.some.injEq] at ha
        rw [← ha]
      · rw [List.chain'_cons']
        refine ⟨?_, h3⟩
        intro b hb
        exact h2 b hb
      · rcases h4 with ⟨hr, fails, last, post, hc, ha, hf, hl⟩ | ⟨hc, hf, hr⟩
        · refine Or.inl ⟨hr, { channel := ch, before := st, result := some err } :: fails,
            last, post, ?_, ?_, ?_, hl⟩
          · rw [hc]; rfl
          · rw [ha]; rfl
          · intro a ha2
            rcases List.mem_cons.mp ha2 with rfl | ha2
            · simp
            · exact hf a ha2
        · refine Or.inr ⟨?_, ?_, ?_⟩
          · rw [List.map_cons, hc]
          · intro a ha2
            rcases List.mem_cons.mp ha2 with rfl | ha2
            · simp
            · exact hf a ha2
          · rw [hr]
            cases hra : r.attempts with
            | nil => simp
            | cons b bs =>
              rw [List.getLast?_cons_cons]
              obtain ⟨x, hx⟩ : ∃ x, (b :: bs).getLast? = some x :=
                ⟨_, List.getLast?_eq_getLast _ (List.cons_ne_nil _ _)⟩
              rw [hx]

theorem sendLoop_calls {σ : Type} (sender : NotificationSender σ) (req : NotificationRequest) :
    ∀ (channels : List NotificationChannel) (st : σ) (lastErr : Option PkgError),
    (sendLoop sender req channels st lastErr).calls
      = ((sendLoop sender req channels st lastErr).attempts.map (fun a =>
          (SendNotification sender a.before { req with Channel := a.channel }).calls)).flatten ∧
    (sendLoop sender req channels st lastErr).state
      = (match (sendLoop sender req channels st lastErr).attempts.getLast? with
         | some a => (SendNotification sender a.before { req with Channel := a.channel }).state
         | none => st) := by
  intro channels
  induction channels with
  | nil => intro st lastErr; exact ⟨rfl, rfl⟩
  | cons ch rest ih =>
    intro st lastErr
    cases ho : (SendNotification sender st { req with Channel := ch }).result with
    | none =>
      simp only [sendLoop, ho]
      simp
    | some err =>
      obtain ⟨h1, h2⟩ :=
        ih (SendNotification sender st { req with Channel := ch }).state (some err)
      simp only [sendLoop, ho]
      generalize sendLoop sender req rest
        (SendNotification sender st { req with Channel := ch }).state (some err) = r at h1 h2
      refine ⟨?_, ?_⟩
      · simp only [List.map_cons, List.flatten_cons]
        rw [← h1]
      · rw [h2]
        cases hra : r.attempts with
        | nil => simp
        | cons b bs =>
          rw [List.getLast?_cons_cons]
          obtain ⟨x, hx⟩ : ∃ x, (b :: bs).getLast? = some x :=
            ⟨_, List.getLast?_eq_getLast _ (List.cons_ne_nil _ _)⟩
          rw [hx]

/-- Claim C21.  For every sender, every list of channels and every request,
`SendMultiChannelNotification` calls `SendNotification` for the channels in
list order, each turn starting from the state the previous one left; it
returns nil exactly when one of these calls returned nil, and then that call
is the last one, so no channel after the first success is tried and the
sender is called for none of them.  When every call fails, every channel of
the list was tried and the error returned wraps the error of the last
channel with the message 所有渠道发送均失败.  For the empty list it returns
the error 没有指定通知渠道 without any call of the sender.  When the result
of `SendNotification` does not depend on the state of the sender, the call
succeeds exactly when `SendNotification` succeeds for a channel of the list. -/
theorem C21_multi_channel {σ : Type} (sender : NotificationSender σ) (st : σ)
    (channels : List NotificationChannel) (req : NotificationRequest) (out : MultiOutcome σ)
    (hout : out = SendMultiChannelNotification sender st channels req) :
    (out.result = none ↔ ∃ a ∈ out.attempts, a.result = none) ∧
    (∀ a ∈ out.attempts,
      (SendNotification sender a.before { req with Channel := a.channel }).result = a.result) ∧
    (∀ a ∈ out.attempts.head?, a.before = st) ∧
    List.Chain' (Follows sender req) out.attempts ∧
    (∃ post, channels = out.attempts.map Attempt.channel ++ post) ∧
    (∀ pre a post, out.attempts = pre ++ a :: post → a.result = none → post = []) ∧
    out.calls = (out.attempts.map (fun a =>
      (SendNotification sender a.before { req with Channel := a.channel }).calls)).flatten ∧
    (out.result ≠ none →
      out.attempts.map Attempt.channel = channels ∧
      (channels ≠ [] → ∃ a err, out.attempts.getLast? = some a ∧
        channels.getLast? = some a.channel ∧ a.result = some err ∧
        out.result = some (.Wrap err "所有渠道发送均失败"))) ∧
    (channels = [] →
      out.result = some (.New "没有指定通知渠道") ∧ out.attempts = [] ∧ out.calls = [] ∧
      out.state = st) ∧
    ((∀ s1 s2 r, (SendNotification sender s1 r).result = (SendNotification sender s2 r).result) →
      (out.result = none ↔
        ∃ ch ∈ channels, (SendNotification sender st { req with Channel := ch }).result = none)) := by
  obtain ⟨h1, h2, h3, h4⟩ := sendLoop_spec sender req channels st none
  obtain ⟨h5, -⟩ := sendLoop_calls sender req channels st none
  have hempty : channels = [] →
      out.result = some (.New "没有指定通知渠道") ∧ out.attempts = [] ∧ out.calls = [] ∧
      out.state = st := by
    intro hc
    rw [hout, hc]
    exact ⟨rfl, rfl, rfl, rfl⟩
  rw [hout]
  unfold SendMultiChannelNotification
  rw [hout] at hempty
  unfold SendMultiChannelNotification at hempty
  generalize sendLoop sender req channels st none = r at h1 h2 h3 h4 h5 hempty
  rcases h4 with ⟨hr, fails, last, post, hc, ha, hf, hl⟩ | ⟨hc, hf, hr⟩
  · refine ⟨?_, h1, h2, h3, ?_, ?_, h5, ?_, hempty, ?_⟩
    · refine ⟨fun _ => ⟨last, ?_, hl⟩, fun _ => hr⟩
      rw [ha]; simp
    · refine ⟨post, ?_⟩
      rw [ha, hc]; simp
    · intro pre a post2 hp hn
      by_contra hne
      have hd := congrArg List.dropLast hp
      rw [ha, List.dropLast_concat] at hd
      have hne2 : a :: post2 ≠ [] := List.cons_ne_nil _ _
      rw [List.dropLast_append_of_ne_nil _ hne2] at hd
      obtain ⟨b, bs, rfl⟩ := List.exists_cons_of_ne_nil hne
      have hmem : a ∈ fails := by
        rw [hd]; simp
      exact hf a hmem hn
    · intro hne; exact absurd hr hne
    · intro hs
      refine ⟨fun _ => ⟨last.channel, ?_, ?_⟩, fun _ => hr⟩
      · rw [hc]; simp
      · have hm : last ∈ r.attempts := by rw [ha]; simp
        rw [hs st last.before, h1 last hm, hl]
  · have hsome : r.result ≠ none := by rw [hr]; simp
    refine ⟨?_, h1, h2, h3, ⟨[], by rw [hc]; simp⟩, ?_, h5, ?_, hempty, ?_⟩
    · refine ⟨fun h => absurd h hsome, ?_⟩
      rintro ⟨a, ha, hn⟩
      exact absurd hn (hf a ha)
    · intro pre a post hp hn
      have hm : a ∈ r.attempts := by rw [hp]; simp
      exact absurd hn (hf a hm)
    · intro _
      refine ⟨hc, ?_⟩
      intro hne
      have hane : r.attempts ≠ [] := by
        intro he
        rw [he] at hc
        exact hne hc.symm
      have hlast : r.attempts.getLast? = some (r.attempts.getLast hane) :=
        List.getLast?_eq_getLast _ hane
      have hmem : r.attempts.getLast hane ∈ r.attempts := List.getLast_mem hane
      cases hres : (r.attempts.getLast hane).result with
      | none => exact absurd hres (hf _ hmem)
      | some err =>
        refine ⟨r.attempts.getLast hane, err, hlast, ?_, hres, ?_⟩
        · rw [← hc, List.getLast?_map, hlast]; rfl
        · rw [hr, hlast]
          dsimp only
          rw [hres]; rfl
    · intro hs
      refine ⟨fun h => absurd h hsome, ?_⟩
      rintro ⟨ch, hch, hn⟩
      rw [← hc] at hch
      obtain ⟨a, ha, rfl⟩ := List.mem_map.mp hch
      have := h1 a ha
      rw [hs a.before st, hn] at this
      exact absurd this.symm (hf a ha)

/-- Worked example for C21: with the channels SMS, push, e-mail, WeChat the
SMS gateway fails, push is refused for want of a user id, the e-mail is sent
and WeChat is never tried; with SMS and push only, the error of the push
channel is wrapped; with no channel nothing is sent. -/
theorem C21_multi_channel_witness :
    (SendMultiChannelNotification sampleSender 0
      [ChannelSMS, ChannelPush, ChannelEmail, ChannelWechat] sampleNotification).result = none ∧
    (SendMultiChannelNotification sampleSender 0
      [ChannelSMS, ChannelPush, ChannelEmail, ChannelWechat] sampleNotification).attempts
      = [{ channel := "sms", before := 0, result := some (.New "sms gateway down") },
         { channel := "push", before := 1, result := some (.New "发送推送需要提供用户ID") },
         { channel := "email", before := 1, result := none }] ∧
    (SendMultiChannelNotification sampleSender 0
      [ChannelSMS, ChannelPush, ChannelEmail, ChannelWechat] sampleNotification).calls
      = [.SendSMS { countryCode := "+86", number := "13800138000" } "c",
         .SendEmail { value := "a@b.cn" } "t" "c"] ∧
    (∃ a ∈ (SendMultiChannelNotification sampleSender 0
        [ChannelSMS, ChannelPush, ChannelEmail, ChannelWechat] sampleNotification).attempts,
      a.result = none) ∧
    (SendMultiChannelNotification sampleSender 0 [ChannelSMS, ChannelPush]
      sampleNotification).result
      = some (.Wrap (.New "发送推送需要提供用户ID") "所有渠道发送均失败") ∧
    (SendMultiChannelNotification sampleSender 0 [] sampleNotification).result
      = some (.New "没有指定通知渠道") :=
  ⟨by rfl, by rfl, by rfl,
    (C21_multi_channel sampleSender 0 [ChannelSMS, ChannelPush, ChannelEmail, ChannelWechat]
      sampleNotification _ rfl).1.mp (by rfl),
    by rfl, by rfl⟩

/-! ## Splitting and joining strings -/

theorem intercalate_go_data (s : String) (l : List String) :
    ∀ acc : String, (String.intercalate.go acc s l).data
      = acc.data ++ (l.map (fun a => s.data ++ a.data)).flatten := by
  induction l with
  | nil => intro acc; simp [String.intercalate.go]
  | cons a t ih =>
    intro acc
    rw [String.intercalate.go, ih]
    simp [String.data_append, List.append_assoc]

theorem splitChars_no_sep (sep : Char) (l : List Char) (h : sep ∉ l) :
    splitChars sep l = [l] := by
  induction l with
  | nil => rfl
  | cons c cs ih =>
    have hc : c ≠ sep := fun e => h (by rw [e]; exact List.mem_cons_self _ _)
    have hcs : sep ∉ cs := fun e => h (List.mem_cons_of_mem _ e)
    rw [splitChars, if_neg hc, ih hcs]

theorem splitChars_append (sep : Char) (a rest : List Char) (h : sep ∉ a) :
    splitChars sep (a ++ sep :: rest) = a :: splitChars sep rest := by
  induction a with
  | nil => simp [splitChars]
  | cons c cs ih =>
    have hc : c ≠ sep := fun e => h (by rw [e]; exact List.mem_cons_self _ _)
    have hcs : sep ∉ cs := fun e => h (List.mem_cons_of_mem _ e)
    rw [List.cons_append, splitChars, if_neg hc, ih hcs]

theorem splitChars_joined (sep : Char) (l : List (List Char)) (h : ∀ a ∈ l, sep ∉ a) :
    ∀ acc : List Char, sep ∉ acc →
      splitChars sep (acc ++ (l.map (fun a => sep :: a)).flatten) = acc :: l := by
  induction l with
  | nil =>
    intro acc hacc
    simp only [List.map_nil, List.flatten_nil, List.append_nil]
    exact splitChars_no_sep sep acc hacc
  | cons a t ih =>
    intro acc hacc
    simp only [List.map_cons, List.flatten_cons, List.cons_append]
    rw [splitChars_append sep acc _ hacc,
      ih (fun b hb => h b (List.mem_cons_of_mem _ hb)) a (h a (List.mem_cons_self _ _))]

theorem cutAt_append (sep : Char) (k v : List Char) (h : sep ∉ k) :
    cutAt sep (k ++ sep :: v) = some (k, v) := by
  induction k with
  | nil => simp [cutAt]
  | cons c cs ih =>
    have hc : c ≠ sep := fun e => h (by rw [e]; exact List.mem_cons_self _ _)
    have hcs : sep ∉ cs := fun e => h (List.mem_cons_of_mem _ e)
    rw [List.cons_append, cutAt, if_neg hc, ih hcs]
    rfl

/-! ## Scene strings -/

theorem Split_intercalate (sep : Char) (a : String) (l : List String)
    (h : ∀ x ∈ a :: l, sep ∉ x.data) :
    Split ((String.mk [sep]).intercalate (a :: l)) sep = a :: l := by
  unfold Split
  rw [String.intercalate, intercalate_go_data]
  have hmap : (l.map (fun x => (String.mk [sep]).data ++ x.data))
      = (l.map String.data).map (fun x => sep :: x) := by
    rw [List.map_map]; rfl
  rw [hmap, splitChars_joined sep (l.map String.data) ?_ a.data (h a (List.mem_cons_self _ _))]
  · simp only [List.map_cons, List.map_map]
    congr 1
    have hid : (String.mk ∘ String.data) = id := by funext x; rfl
    rw [hid, List.map_id]
  · intro x hx
    obtain ⟨y, hy, rfl⟩ := List.mem_map.mp hx
    exact h y (List.mem_cons_of_mem _ hy)

theorem SplitN2_pair (k v : String) (h : '=' ∉ k.data) :
    SplitN2 (k ++ "=" ++ v) '=' = [k, v] := by
  unfold SplitN2
  have hd : (k ++ "=" ++ v).data = k.data ++ '=' :: v.data := by
    simp [String.data_append]
  rw [hd, cutAt_append '=' k.data v.data h]

theorem mapSet_new (m : StringMap) (k v : String) (h : k ∉ m.map Prod.fst) :
    mapSet m k v = m ++ [(k, v)] := by
  unfold mapSet
  have hany : m.any (fun e => decide (e.1 = k)) = false := by
    rw [List.any_eq_false]
    intro e he
    simp only [decide_eq_true_eq]
    intro hk
    exact h (List.mem_map.mpr ⟨e, he, hk⟩)
  rw [hany]
  rfl

theorem parse_fold (m : StringMap) (hsafe : SceneSafe m) :
    ∀ acc : StringMap, DistinctKeys (acc ++ m) →
      (m.map (fun e => e.1 ++ "=" ++ e.2)).foldl
        (fun result pair =>
          match SplitN2 pair '=' with
          | [k, v] => mapSet result k v
          | _ => result) acc = acc ++ m := by
  induction m with
  | nil => intro acc _; simp
  | cons e t ih =>
    intro acc hd
    have he := hsafe e (List.mem_cons_self _ _)
    have hnew : e.1 ∉ acc.map Prod.fst := by
      unfold DistinctKeys at hd
      rw [List.map_append, List.map_cons] at hd
      have := (List.nodup_append.mp hd).2.2
      intro hmem
      exact this hmem (List.mem_cons_self _ _)
    rw [List.map_cons, List.foldl_cons, SplitN2_pair e.1 e.2 he.1]
    dsimp only
    rw [mapSet_new acc e.1 e.2 hnew]
    have hd2 : DistinctKeys ((acc ++ [(e.1, e.2)]) ++ t) := by
      rw [List.append_assoc]; exact hd
    rw [ih (fun x hx => hsafe x (List.mem_cons_of_mem _ hx)) _ hd2, List.append_assoc]
    rfl

theorem BuildScene_ne_empty (e : String × String) (t : StringMap) :
    BuildScene (e :: t) ≠ "" := by
  unfold BuildScene
  rw [if_neg (by simp)]
  intro h
  have hd := congrArg String.data h
  rw [List.map_cons, String.intercalate, intercalate_go_data] at hd
  simp [String.data_append] at hd

theorem parse_build (m : StringMap) (hsafe : SceneSafe m) (hkeys : DistinctKeys m) :
    ParseScene (BuildScene m) = m := by
  cases m with
  | nil => rfl
  | cons e t =>
    unfold ParseScene
    rw [if_neg (BuildScene_ne_empty e t)]
    have hb : BuildScene (e :: t)
        = (String.mk ['&']).intercalate ((e :: t).map (fun e => e.1 ++ "=" ++ e.2)) := by
      unfold BuildScene
      rw [if_neg (by simp)]
    have hs : Split ((String.mk ['&']).intercalate ((e :: t).map (fun e => e.1 ++ "=" ++ e.2))) '&'
        = (e :: t).map (fun e => e.1 ++ "=" ++ e.2) := by
      rw [List.map_cons]
      apply Split_intercalate
      intro x hx
      rw [← List.map_cons (fun e : String × String => e.1 ++ "=" ++ e.2)] at hx
      obtain ⟨y, hy, rfl⟩ := List.mem_map.mp hx
      have := hsafe y hy
      simp only [String.data_append, List.mem_append, not_or]
      exact ⟨⟨this.2.1, by decide⟩, this.2.2⟩
    rw [hb, hs]
    have := parse_fold (e :: t) hsafe [] (by simpa using hkeys)
    simpa using this

theorem mapGet_iff (m : StringMap) (hkeys : DistinctKeys m) (k v : String) :
    mapGet m k = some v ↔ (k, v) ∈ m := by
  induction m with
  | nil => simp [mapGet]
  | cons e t ih =>
    unfold DistinctKeys at hkeys
    rw [List.map_cons, List.nodup_cons] at hkeys
    have iht := ih hkeys.2
    by_cases hk : e.1 = k
    · have hget : mapGet (e :: t) k = some e.2 := by
        unfold mapGet
        rw [List.find?_cons_of_pos _ (by simpa using hk)]
        rfl
      rw [hget]
      constructor
      · intro h
        simp only [Option.some.injEq] at h
        rw [← h, ← hk]
        exact List.mem_cons_self _ _
      · intro h
        rcases List.mem_cons.mp h with h | h
        · rw [← h]
        · exfalso
          apply hkeys.1
          rw [hk]
          exact List.mem_map.mpr ⟨(k, v), h, rfl⟩
    · have hget : mapGet (e :: t) k = mapGet t k := by
        unfold mapGet
        rw [List.find?_cons_of_neg _ (by simpa using hk)]
      rw [hget, iht]
      constructor
      · intro h; exact List.mem_cons_of_mem _ h
      · intro h
        rcases List.mem_cons.mp h with h | h
        · exfalso; apply hk; rw [← h]
        · exact h

/-- Claim C28.  For every map `m` (entries with distinct keys) in which no
key contains `=` or `&` and no value contains `&`: whatever order `o` the
loop of `BuildScene` visits the entries in, `ParseScene (BuildScene o)` is
the same map, that is, it has the entries of `m`, distinct keys, and gives
the same value as `m` for every key; with the model's insertion order it is
the list `o` itself.  `BuildScene` returns the empty string exactly for the
empty map, and the empty string parses to the empty map. -/
theorem C28_scene_round_trip (m : StringMap) (hkeys : DistinctKeys m) (hsafe : SceneSafe m) :
    ParseScene (BuildScene m) = m ∧
    (∀ o : StringMap, o.Perm m →
      ParseScene (BuildScene o) = o ∧
      (ParseScene (BuildScene o)).Perm m ∧
      DistinctKeys (ParseScene (BuildScene o)) ∧
      ∀ k, mapGet (ParseScene (BuildScene o)) k = mapGet m k) ∧
    (BuildScene m = "" ↔ m = []) ∧
    BuildScene [] = "" ∧ ParseScene "" = [] := by
  refine ⟨parse_build m hsafe hkeys, ?_, ?_, rfl, rfl⟩
  · intro o ho
    have hso : SceneSafe o := fun e he => hsafe e (ho.mem_iff.mp he)
    have hko : DistinctKeys o := (ho.map Prod.fst).nodup_iff.mpr hkeys
    have hpb := parse_build o hso hko
    rw [hpb]
    refine ⟨rfl, ho, hko, ?_⟩
    intro k
    apply Option.ext
    intro v
    simp only [Option.mem_def]
    rw [mapGet_iff o hko, mapGet_iff m hkeys, ho.mem_iff]
  · constructor
    · intro h
      cases m with
      | nil => rfl
      | cons e t => exact absurd h (BuildScene_ne_empty e t)
    · intro h
      rw [h]; rfl

/-- Worked example for C28: a map of three entries, one with `=` in its
value and one with the empty key. -/
theorem C28_scene_round_trip_witness :
    DistinctKeys sampleScene ∧ SceneSafe sampleScene ∧
    BuildScene sampleScene = "uid=42&from=a=b&=x" ∧
    ParseScene (BuildScene sampleScene) = sampleScene ∧
    mapGet (ParseScene (BuildScene [("", "x"), ("uid", "42"), ("from", "a=b")])) "from"
      = mapGet sampleScene "from" :=
  have hk : DistinctKeys sampleScene := by
    unfold DistinctKeys sampleScene
    decide
  have hs : SceneSafe sampleScene := by
    intro e he
    unfold sampleScene at he
    simp only [List.mem_cons, List.mem_singleton, List.not_mem_nil, or_false] at he
    rcases he with rfl | rfl | rfl <;> decide
  ⟨hk, hs, by rfl, (C28_scene_round_trip sampleScene hk hs).1, by rfl⟩

/-! ## The separator in generated file names -/

theorem digitChar_ne_slash (n : Nat) (h : n < 10) : Nat.digitChar n ≠ '/' := by
  interval_cases n <;> decide

theorem digitsFuel_no_slash (fuel : Nat) : ∀ n, '/' ∉ digitsFuel fuel n := by
  induction fuel with
  | zero =>
    intro n h
    simp only [digitsFuel, List.mem_singleton] at h
    exact digitChar_ne_slash _ (Nat.mod_lt _ (by decide)) h.symm
  | succ k ih =>
    intro n h
    unfold digitsFuel at h
    by_cases hn : n < 10
    · rw [if_pos hn, List.mem_singleton] at h
      exact digitChar_ne_slash _ hn h.symm
    · rw [if_neg hn, List.mem_append, List.mem_singleton] at h
      rcases h with h | h
      · exact ih _ h
      · exact digitChar_ne_slash _ (Nat.mod_lt _ (by decide)) h.symm

theorem zeroPad_no_slash (w n : Nat) : '/' ∉ (zeroPad w n).data := by
  unfold zeroPad natDigits
  intro h
  rw [List.mem_append] at h
  rcases h with h | h
  · exact absurd (List.eq_of_mem_replicate h) (by decide)
  · exact digitsFuel_no_slash _ _ h

theorem formatStamp_no_slash (t : CivilTime) : '/' ∉ (formatStamp t).data := by
  unfold formatStamp
  simp only [String.data_append, List.mem_append, not_or]
  exact ⟨⟨⟨⟨⟨⟨zeroPad_no_slash _ _, zeroPad_no_slash _ _⟩, zeroPad_no_slash _ _⟩, by decide⟩,
    zeroPad_no_slash _ _⟩, zeroPad_no_slash _ _⟩, zeroPad_no_slash _ _⟩

theorem extRev_no_slash (l : List Char) : ∀ acc : List Char, '/' ∉ acc → '/' ∉ extRev acc l := by
  induction l with
  | nil => intro acc _; simp [extRev]
  | cons c cs ih =>
    intro acc hacc
    unfold extRev
    by_cases h1 : c = '/'
    · rw [if_pos h1]; simp
    · rw [if_neg h1]
      by_cases h2 : c = '.'
      · rw [if_pos h2]
        intro h
        rcases List.mem_cons.mp h with h | h
        · exact absurd h (by decide)
        · exact hacc h
      · rw [if_neg h2]
        apply ih
        intro h
        rcases List.mem_cons.mp h with h | h
        · exact h1 h.symm
        · exact hacc h

theorem Ext_no_slash (path : String) : '/' ∉ (Ext path).data := by
  unfold Ext
  exact extRev_no_slash _ [] (by simp)

/-- The name `generateFilename` returns contains a separator exactly when the
upload type or the related id does. -/
theorem generateFilename_slash (originalFilename : String) (uploadType : UploadType)
    (relatedID : String) (t : CivilTime) :
    '/' ∈ (generateFilename originalFilename uploadType relatedID t).data ↔
      '/' ∈ uploadType.data ∨ '/' ∈ relatedID.data := by
  unfold generateFilename
  have hext : '/' ∉ (if Ext originalFilename = "" then ".jpg" else Ext originalFilename).data := by
    by_cases h : Ext originalFilename = ""
    · rw [if_pos h]; decide
    · rw [if_neg h]; exact Ext_no_slash _
  have hstamp := formatStamp_no_slash t
  have hu : '/' ∉ ("_" : String).data := by decide
  by_cases hr : relatedID = ""
  · have : ¬ relatedID ≠ "" := fun h => h hr
    simp only [this, if_false, String.data_append, List.mem_append, hext, hstamp, hu, or_false]
    rw [hr]
    simp
  · simp only [hr, ne_eq, not_false_eq_true, if_true, String.data_append, List.mem_append,
      hext, hstamp, hu, or_false]

/-! ## Cleaning a path that is already clean -/

theorem splitOnSlash_eq (l : List Char) : splitOnSlash l = splitChars '/' l := by
  induction l with
  | nil => rfl
  | cons c cs ih => rw [splitOnSlash, splitChars, ih]

theorem splitChars_ne_nil (sep : Char) (l : List Char) : splitChars sep l ≠ [] := by
  induction l with
  | nil => simp [splitChars]
  | cons c cs ih =>
    unfold splitChars
    by_cases h : c = sep
    · rw [if_pos h]; simp
    · rw [if_neg h]
      cases hs : splitChars sep cs with
      | nil => simp
      | cons a t => simp

/-- Splitting distributes over a separator. -/
theorem splitChars_sep (sep : Char) (a b : List Char) :
    splitChars sep (a ++ sep :: b) = splitChars sep a ++ splitChars sep b := by
  induction a with
  | nil => simp [splitChars]
  | cons c cs ih =>
    rw [List.cons_append, splitChars, splitChars, ih]
    by_cases h : c = sep
    · rw [if_pos h, if_pos h]; rfl
    · rw [if_neg h, if_neg h]
      cases hs : splitChars sep cs with
      | nil => exact absurd hs (splitChars_ne_nil sep cs)
      | cons x t => rfl

theorem cleanStep_plain (rooted : Bool) (stack : List String) (seg : String) (h : Plain seg) :
    cleanStep rooted stack seg = seg :: stack := by
  unfold cleanStep
  rw [if_neg (by rintro (h1 | h1); exact h.1 h1; exact h.2.1 h1), if_neg h.2.2.1]

theorem cleanStep_dots (n : Nat) :
    cleanStep false (List.replicate n "..") ".." = List.replicate (n + 1) ".." := by
  cases n with
  | zero => rfl
  | succ k => rfl

theorem foldl_cleanStep_plain (rooted : Bool) (l : List String) (h : ∀ x ∈ l, Plain x) :
    ∀ stack, l.foldl (cleanStep rooted) stack = l.reverse ++ stack := by
  induction l with
  | nil => intro stack; rfl
  | cons a t ih =>
    intro stack
    rw [List.foldl_cons, cleanStep_plain rooted stack a (h a (List.mem_cons_self _ _)),
      ih (fun x hx => h x (List.mem_cons_of_mem _ hx))]
    simp

theorem foldl_cleanStep_dots (n : Nat) :
    ∀ k, (List.replicate n "..").foldl (cleanStep false) (List.replicate k "..")
      = List.replicate (n + k) ".." := by
  induction n with
  | zero => intro k; simp
  | succ m ih =>
    intro k
    rw [List.replicate_succ, List.foldl_cons, cleanStep_dots k, ih (k + 1)]
    congr 1
    omega

/-- Reading the elements `Clean` kept, first to last, gives them back. -/
theorem foldl_cleanStep_stack (rooted : Bool) (stack : List String) (h : StackOK rooted stack) :
    stack.reverse.foldl (cleanStep rooted) [] = stack := by
  obtain ⟨normals, n, hs, hr, hp⟩ := h
  rw [hs, List.reverse_append, List.foldl_append, List.reverse_replicate]
  have hd : (List.replicate n "..").foldl (cleanStep rooted) [] = List.replicate n ".." := by
    cases rooted with
    | true => rw [hr rfl]; rfl
    | false =>
      have := foldl_cleanStep_dots n 0
      simpa using this
  rw [hd, foldl_cleanStep_plain rooted normals.reverse (fun x hx => hp x (List.mem_reverse.mp hx)),
    List.reverse_reverse]

/-- One step of `Clean` keeps the shape of the stack. -/
theorem cleanStep_ok (rooted : Bool) (stack : List String) (seg : String)
    (hseg : '/' ∉ seg.data) (h : StackOK rooted stack) :
    StackOK rooted (cleanStep rooted stack seg) := by
  obtain ⟨normals, n, hs, hr, hp⟩ := h
  unfold cleanStep
  by_cases h1 : seg = "" ∨ seg = "."
  · rw [if_pos h1]; exact ⟨normals, n, hs, hr, hp⟩
  · rw [if_neg h1]
    by_cases h2 : seg = ".."
    · rw [if_pos h2]
      cases normals with
      | nil =>
        cases n with
        | zero =>
          rw [hs]
          cases rooted with
          | true => exact ⟨[], 0, rfl, fun _ => rfl, by simp⟩
          | false => exact ⟨[], 1, rfl, by simp, by simp⟩
        | succ k =>
          rw [hs]
          refine ⟨[], k + 2, ?_, ?_, by simp⟩
          · rfl
          · intro hrt; exact absurd (hr hrt) (by simp)
      | cons a t =>
        rw [hs]
        have ha : a ≠ ".." := (hp a (List.mem_cons_self _ _)).2.2.1
        refine ⟨t, n, ?_, hr, fun x hx => hp x (List.mem_cons_of_mem _ hx)⟩
        simp only [List.cons_append]
        rw [if_neg ha]
    · rw [if_neg h2]
      refine ⟨seg :: normals, n, by rw [hs]; rfl, hr, ?_⟩
      intro x hx
      rcases List.mem_cons.mp hx with rfl | hx
      · exact ⟨fun e => h1 (Or.inl e), fun e => h1 (Or.inr e), h2, hseg⟩
      · exact hp x hx

theorem foldl_cleanStep_ok (rooted : Bool) (l : List String) (hl : ∀ x ∈ l, '/' ∉ x.data) :
    ∀ stack, StackOK rooted stack → StackOK rooted (l.foldl (cleanStep rooted) stack) := by
  induction l with
  | nil => intro stack h; exact h
  | cons a t ih =>
    intro stack h
    rw [List.foldl_cons]
    exact ih (fun x hx => hl x (List.mem_cons_of_mem _ hx)) _
      (cleanStep_ok rooted stack a (hl a (List.mem_cons_self _ _)) h)

theorem splitChars_no_sep_mem (sep : Char) (l : List Char) :
    ∀ seg ∈ splitChars sep l, sep ∉ seg := by
  induction l with
  | nil => intro seg h; simp [splitChars] at h; rw [h]; simp
  | cons c cs ih =>
    intro seg h
    unfold splitChars at h
    by_cases hc : c = sep
    · rw [if_pos hc] at h
      rcases List.mem_cons.mp h with h | h
      · rw [h]; simp
      · exact ih seg h
    · rw [if_neg hc] at h
      cases hs : splitChars sep cs with
      | nil => exact absurd hs (splitChars_ne_nil sep cs)
      | cons x t =>
        rw [hs] at h ih
        rcases List.mem_cons.mp h with h | h
        · rw [h]
          intro hm
          rcases List.mem_cons.mp hm with hm | hm
          · exact hc hm.symm
          · exact ih x (List.mem_cons_self _ _) hm
        · exact ih seg (List.mem_cons_of_mem _ h)

/-- The elements `Clean` keeps of any path have the shape `StackOK`. -/
theorem cleanStack_ok (path : String) : StackOK (isRooted path) (cleanStack path) := by
  unfold cleanStack
  apply foldl_cleanStep_ok
  · intro x hx
    obtain ⟨y, hy, rfl⟩ := List.mem_map.mp hx
    rw [splitOnSlash_eq] at hy
    exact splitChars_no_sep_mem '/' _ y hy
  · exact ⟨[], 0, rfl, fun _ => rfl, by simp⟩

theorem intercalate_cons_data (s a : String) (l : List String) :
    (s.intercalate (a :: l)).data = a.data ++ (l.map (fun x => s.data ++ x.data)).flatten := by
  rw [String.intercalate, intercalate_go_data]

theorem StackOK_mem {rooted : Bool} {stack : List String} (h : StackOK rooted stack) :
    ∀ x ∈ stack, x ≠ "" ∧ '/' ∉ x.data := by
  obtain ⟨normals, n, hs, -, hp⟩ := h
  intro x hx
  rw [hs, List.mem_append] at hx
  rcases hx with hx | hx
  · exact ⟨(hp x hx).1, (hp x hx).2.2.2⟩
  · rw [List.eq_of_mem_replicate hx]
    exact ⟨by decide, by decide⟩

theorem head_not_slash {x : String} (h1 : x ≠ "") (h2 : '/' ∉ x.data) :
    ∃ c cs, x.data = c :: cs ∧ c ≠ '/' := by
  cases hx : x.data with
  | nil => exact absurd (String.ext (by rw [hx])) h1
  | cons c cs =>
    refine ⟨c, cs, rfl, ?_⟩
    intro hc
    apply h2
    rw [hx, hc]
    exact List.mem_cons_self _ _

/-- Cleaning a clean path followed by a separator and an ordinary element
changes nothing. -/
theorem Clean_render_append (rooted : Bool) (stack : List String) (f : String)
    (hS : StackOK rooted stack) (hne : stack ≠ []) (hf : Plain f) :
    Clean (render rooted stack ++ "/" ++ f) = render rooted stack ++ "/" ++ f ∧
    render rooted stack ≠ "" := by
  have hmem := StackOK_mem hS
  obtain ⟨a, l, hal⟩ : ∃ a l, stack.reverse = a :: l := by
    cases hr : stack.reverse with
    | nil => exact absurd (List.reverse_eq_nil_iff.mp hr) hne
    | cons a l => exact ⟨a, l, rfl⟩
  have hrev : ∀ x ∈ a :: l, x ≠ "" ∧ '/' ∉ x.data := by
    intro x hx
    rw [← hal] at hx
    exact hmem x (List.mem_reverse.mp hx)
  obtain ⟨c, cs, hac, hc⟩ := head_not_slash (hrev a (List.mem_cons_self _ _)).1
    (hrev a (List.mem_cons_self _ _)).2
  have hbody : ("/".intercalate stack.reverse).data
      = a.data ++ ((l.map String.data).map (fun x => '/' :: x)).flatten := by
    rw [hal, intercalate_cons_data, List.map_map]
    rfl
  have hbne : "/".intercalate stack.reverse ≠ "" := by
    intro h
    have := congrArg String.data h
    rw [hbody, hac] at this
    simp at this
  have hsplit : splitChars '/' ("/".intercalate stack.reverse).data = (a :: l).map String.data := by
    rw [hbody, splitChars_joined '/' (l.map String.data) ?_ a.data
      (hrev a (List.mem_cons_self _ _)).2]
    · rfl
    · intro x hx
      obtain ⟨y, hy, rfl⟩ := List.mem_map.mp hx
      exact (hrev y (List.mem_cons_of_mem _ hy)).2
  have hmk : ((a :: l).map String.data).map String.mk = stack.reverse := by
    rw [List.map_map, hal]
    have hid : (String.mk ∘ String.data) = id := by funext x; rfl
    rw [hid, List.map_id]
  have hfs : splitChars '/' f.data = [f.data] := splitChars_no_sep '/' f.data hf.2.2.2
  have hbody2 : "/".intercalate (f :: stack).reverse = "/".intercalate stack.reverse ++ "/" ++ f := by
    apply String.ext
    rw [List.reverse_cons, hal, List.cons_append, intercalate_cons_data, String.data_append,
      String.data_append, intercalate_cons_data]
    simp
  have hstack : ∀ pathData : List Char,
      (pathData = "/".data ++ ("/".intercalate stack.reverse).data ++ '/' :: f.data ∧ rooted = true) ∨
      (pathData = ("/".intercalate stack.reverse).data ++ '/' :: f.data ∧ rooted = false) →
      ((splitOnSlash pathData).map String.mk).foldl (cleanStep rooted) [] = f :: stack ∧
      (decide (pathData.head? = some '/')) = rooted := by
    intro pathData hp
    rcases hp with ⟨hp, hr⟩ | ⟨hp, hr⟩
    · rw [hp, splitOnSlash_eq, splitChars_sep, hfs]
      have h1 : splitChars '/' ("/".data ++ ("/".intercalate stack.reverse).data)
          = [] :: (a :: l).map String.data := by
        rw [← hsplit]; rfl
      rw [h1, List.map_append, List.foldl_append, List.map_cons, List.foldl_cons, hmk]
      have h0 : cleanStep rooted [] (String.mk []) = [] := rfl
      rw [h0, foldl_cleanStep_stack rooted stack hS]
      refine ⟨?_, ?_⟩
      · simp only [List.map_cons, List.map_nil, List.foldl_cons, List.foldl_nil]
        exact cleanStep_plain rooted stack _ hf
      · rw [hr]; rfl
    · rw [hp, splitOnSlash_eq, splitChars_sep, hfs, hsplit, List.map_append, List.foldl_append,
        hmk, foldl_cleanStep_stack rooted stack hS]
      refine ⟨?_, ?_⟩
      · simp only [List.map_cons, List.map_nil, List.foldl_cons, List.foldl_nil]
        exact cleanStep_plain rooted stack _ hf
      · rw [hr, hbody, hac]
        simp only [List.cons_append, List.head?_cons, Option.some.injEq, decide_eq_false_iff_not]
        exact hc
  cases rooted with
  | true =>
    have hren : render true stack = "/" ++ "/".intercalate stack.reverse := rfl
    have hd : (render true stack ++ "/" ++ f).data
        = "/".data ++ ("/".intercalate stack.reverse).data ++ '/' :: f.data := by
      rw [hren]; simp [String.data_append]
    obtain ⟨h1, h2⟩ := hstack _ (Or.inl ⟨hd, rfl⟩)
    refine ⟨?_, ?_⟩
    · show render (isRooted _) (cleanStack _) = _
      unfold isRooted cleanStack isRooted
      rw [h2, h1]
      show "/" ++ "/".intercalate (f :: stack).reverse = _
      rw [hbody2, hren]
      simp only [String.append_assoc]
    · rw [hren]
      intro h
      have := congrArg String.data h
      simp [String.data_append] at this
  | false =>
    have hren : render false stack = "/".intercalate stack.reverse := by
      unfold render
      simp only [Bool.false_eq_true, if_false]
      rw [if_neg hbne]
    have hd : (render false stack ++ "/" ++ f).data
        = ("/".intercalate stack.reverse).data ++ '/' :: f.data := by
      rw [hren]; simp [String.data_append]
    obtain ⟨h1, h2⟩ := hstack _ (Or.inr ⟨hd, rfl⟩)
    refine ⟨?_, ?_⟩
    · show render (isRooted _) (cleanStack _) = _
      unfold isRooted cleanStack isRooted
      rw [h2, h1]
      have hne2 : "/".intercalate (f :: stack).reverse ≠ "" := by
        rw [hbody2]
        intro h
        have := congrArg String.data h
        simp [String.data_append] at this
      unfold render
      simp only [Bool.false_eq_true, if_false]
      rw [if_neg hne2, if_neg hbne, hbody2]
    · rw [hren]; exact hbne

/-- A path that ends in a separator and an ordinary element keeps that
element when cleaned. -/
theorem cleanStack_append_plain (x s : String) (hs : Plain s) :
    cleanStack (x ++ "/" ++ s) ≠ [] := by
  unfold cleanStack
  have hd : (x ++ "/" ++ s).data = x.data ++ '/' :: s.data := by simp [String.data_append]
  rw [hd, splitOnSlash_eq, splitChars_sep, splitChars_no_sep '/' s.data hs.2.2.2,
    List.map_append, List.foldl_append]
  simp only [List.map_cons, List.map_nil, List.foldl_cons, List.foldl_nil]
  rw [cleanStep_plain _ _ _ hs]
  exact List.cons_ne_nil _ _

/-- The directory `UploadFile` creates is a clean path with at least one
element. -/
theorem dirPath_render (storagePath sub : String) (hsub : Plain sub) :
    ∃ rooted stack, Join [storagePath, "images", sub] = render rooted stack ∧
      StackOK rooted stack ∧ stack ≠ [] := by
  by_cases hsp : storagePath = ""
  · have hj : Join [storagePath, "images", sub] = Clean ("images" ++ "/" ++ sub) := by
      rw [hsp]; rfl
    rw [hj]
    exact ⟨_, _, rfl, cleanStack_ok _, cleanStack_append_plain _ _ hsub⟩
  · have hj : Join [storagePath, "images", sub]
        = Clean ((storagePath ++ "/" ++ "images") ++ "/" ++ sub) := by
      unfold Join
      rw [List.dropWhile_cons_of_neg (by simpa using hsp)]
      rfl
    rw [hj]
    exact ⟨_, _, rfl, cleanStack_ok _, cleanStack_append_plain _ _ hsub⟩

/-- Joining the directory of `UploadFile` with an ordinary name appends the
name. -/
theorem Join_dirPath (storagePath sub f : String) (hsub : Plain sub) (hf : Plain f) :
    Join [Join [storagePath, "images", sub], f] = Join [storagePath, "images", sub] ++ "/" ++ f := by
  obtain ⟨rooted, stack, hd, hok, hne⟩ := dirPath_render storagePath sub hsub
  rw [hd]
  obtain ⟨h1, h2⟩ := Clean_render_append rooted stack f hok hne hf
  unfold Join
  rw [List.dropWhile_cons_of_neg (by simpa using h2)]
  exact h1

theorem getSubDir_plain (uploadType : UploadType)
    (h : uploadType = UploadTypeUserAvatar ∨ uploadType = UploadTypeBabyAvatar) :
    Plain (getSubDir uploadType) := by
  rcases h with h | h <;> rw [h] <;> exact ⟨by decide, by decide, by decide, by decide⟩

theorem generateFilename_plain (originalFilename : String) (uploadType : UploadType)
    (relatedID : String) (t : CivilTime)
    (h : uploadType = UploadTypeUserAvatar ∨ uploadType = UploadTypeBabyAvatar)
    (hid : '/' ∉ relatedID.data) :
    Plain (generateFilename originalFilename uploadType relatedID t) := by
  have hslash : '/' ∉ (generateFilename originalFilename uploadType relatedID t).data := by
    rw [generateFilename_slash]
    rintro (h1 | h1)
    · rcases h with h | h <;> rw [h] at h1 <;> exact absurd h1 (by decide)
    · exact hid h1
  have hhead : ∃ rest, (generateFilename originalFilename uploadType relatedID t).data
      = uploadType.data ++ rest := by
    unfold generateFilename
    by_cases hr : relatedID = ""
    · have : ¬ relatedID ≠ "" := fun h => h hr
      simp only [this, if_false, String.data_append, List.append_assoc]
      exact ⟨_, rfl⟩
    · simp only [hr, ne_eq, not_false_eq_true, if_true, String.data_append, List.append_assoc]
      exact ⟨_, rfl⟩
  obtain ⟨rest, hrest⟩ := hhead
  have hlen : 11 ≤ (generateFilename originalFilename uploadType relatedID t).data.length := by
    rw [hrest, List.length_append]
    rcases h with h | h <;> rw [h] <;> exact Nat.le_add_right _ _
  refine ⟨?_, ?_, ?_, hslash⟩
  all_goals
    intro he
    rw [he] at hlen
    exact absurd hlen (by decide)

/-- Every file `UploadFile` creates is at the directory joined with the
generated name. -/
theorem UploadFile_create (lower : String → String) (cfg : UploadConfig) (fh : FileHeader)
    (uploadType : UploadType) (relatedID : String) (env : UploadEnv) (p : String)
    (h : FsOp.Create p ∈ (UploadFile lower cfg (some fh) uploadType relatedID env).fs) :
    p = Join [Join [cfg.StoragePath, "images", getSubDir uploadType],
      generateFilename fh.Filename uploadType relatedID env.now] := by
  unfold UploadFile at h
  dsimp only at h
  split_ifs at h with h1 h2
  · simp at h
  · simp at h
  · unfold storeUpload saveFile at h
    dsimp only at h
    split_ifs at h with h3
    · simp at h
    · cases hm : env.mkdirErr with
      | some e => rw [hm] at h; simp at h
      | none =>
        rw [hm] at h
        cases ho : env.openErr with
        | some e => rw [ho] at h; simp at h
        | none =>
          rw [ho] at h
          cases hc : env.createErr with
          | some e => rw [hc] at h; simpa using h
          | none =>
            rw [hc] at h
            cases hy : env.copyErr with
            | some e => rw [hy] at h; simpa using h
            | none => rw [hy] at h; simpa using h

/-- Counterexample to C25 as stated.  The related id `/../x` contains the
separator, yet the file `UploadFile` creates lies directly inside the
directory `uploads/images/users`: `filepath.Join` cleans the path, and the
element `..` removes the element `user_avatar_` before it.  (With the
related id `../../../x` the file is created outside that directory, with
`a/b` in a sub-directory of it.) -/
theorem C25_separator_can_stay_inside :
    '/' ∈ ("/../x" : String).data ∧
    generateFilename "a.jpg" UploadTypeUserAvatar "/../x" sampleUploadEnv.now
      = "user_avatar_/../x_20240305_090701.jpg" ∧
    Join [sampleUpload.StoragePath, "images", getSubDir UploadTypeUserAvatar]
      = "uploads/images/users" ∧
    (UploadFile asciiLower sampleUpload (some { Filename := "a.jpg", Size := 10 })
      UploadTypeUserAvatar "/../x" sampleUploadEnv).fs
      = [.MkdirAll "uploads/images/users", .Open "a.jpg",
         .Create "uploads/images/users/x_20240305_090701.jpg",
         .ReadFrom "uploads/images/users/x_20240305_090701.jpg"] ∧
    DirectlyInside "uploads/images/users" "uploads/images/users/x_20240305_090701.jpg" ∧
    Join ["uploads/images/users",
      generateFilename "a.jpg" UploadTypeUserAvatar "../../../x" sampleUploadEnv.now]
      = "uploads/images/x_20240305_090701.jpg" ∧
    Join ["uploads/images/users",
      generateFilename "a.jpg" UploadTypeUserAvatar "a/b" sampleUploadEnv.now]
      = "uploads/images/users/user_avatar_a/b_20240305_090701.jpg" :=
  ⟨by decide, by rfl, by rfl, by rfl, ⟨"x_20240305_090701.jpg", by decide, by decide, by rfl⟩,
    by rfl, by rfl⟩

/-- Claim C25, amended.  For every original filename, every recognised upload
type and every relatedID, the name returned by `generateFilename` contains
the separator `/` if and only if relatedID contains it.  Every file
`UploadFile` creates is at `filepath.Join(dirPath, filename)`, where dirPath
is `filepath.Join(StoragePath, "images", subDir)`.  When relatedID has no
`/`, that path is dirPath, a separator and the generated name, so it lies
directly inside dirPath; and the path is dirPath, a separator and the
generated name as a single element only when relatedID has no `/`.  (When
relatedID has a `/`, the path can be in a sub-directory, outside dirPath, or
directly inside it under another name.) -/
theorem C25_related_id_separator (lower : String → String) (cfg : UploadConfig)
    (fh : FileHeader) (uploadType : UploadType) (relatedID : String) (env : UploadEnv)
    (htype : uploadType = UploadTypeUserAvatar ∨ uploadType = UploadTypeBabyAvatar) :
    ('/' ∈ (generateFilename fh.Filename uploadType relatedID env.now).data ↔
      '/' ∈ relatedID.data) ∧
    (∀ p, FsOp.Create p ∈ (UploadFile lower cfg (some fh) uploadType relatedID env).fs →
      p = Join [Join [cfg.StoragePath, "images", getSubDir uploadType],
        generateFilename fh.Filename uploadType relatedID env.now]) ∧
    ('/' ∉ relatedID.data →
      Join [Join [cfg.StoragePath, "images", getSubDir uploadType],
          generateFilename fh.Filename uploadType relatedID env.now]
        = Join [cfg.StoragePath, "images", getSubDir uploadType] ++ "/" ++
          generateFilename fh.Filename uploadType relatedID env.now ∧
      DirectlyInside (Join [cfg.StoragePath, "images", getSubDir uploadType])
        (Join [Join [cfg.StoragePath, "images", getSubDir uploadType],
          generateFilename fh.Filename uploadType relatedID env.now])) ∧
    ((Join [Join [cfg.StoragePath, "images", getSubDir uploadType],
          generateFilename fh.Filename uploadType relatedID env.now]
        = Join [cfg.StoragePath, "images", getSubDir uploadType] ++ "/" ++
          generateFilename fh.Filename uploadType relatedID env.now ∧
      '/' ∉ (generateFilename fh.Filename uploadType relatedID env.now).data) ↔
      '/' ∉ relatedID.data) := by
  have hslash : '/' ∈ (generateFilename fh.Filename uploadType relatedID env.now).data ↔
      '/' ∈ relatedID.data := by
    rw [generateFilename_slash]
    constructor
    · rintro (h1 | h1)
      · rcases htype with h | h <;> rw [h] at h1 <;> exact absurd h1 (by decide)
      · exact h1
    · exact Or.inr
  have hjoin : '/' ∉ relatedID.data →
      Join [Join [cfg.StoragePath, "images", getSubDir uploadType],
          generateFilename fh.Filename uploadType relatedID env.now]
        = Join [cfg.StoragePath, "images", getSubDir uploadType] ++ "/" ++
          generateFilename fh.Filename uploadType relatedID env.now := fun hid =>
    Join_dirPath cfg.StoragePath (getSubDir uploadType) _ (getSubDir_plain uploadType htype)
      (generateFilename_plain fh.Filename uploadType relatedID env.now htype hid)
  refine ⟨hslash, fun p hp => UploadFile_create lower cfg fh uploadType relatedID env p hp,
    ?_, ?_⟩
  · intro hid
    have hp := generateFilename_plain fh.Filename uploadType relatedID env.now htype hid
    exact ⟨hjoin hid, _, hp.1, hp.2.2.2, hjoin hid⟩
  · constructor
    · rintro ⟨-, h2⟩ h3
      exact h2 (hslash.mpr h3)
    · intro hid
      exact ⟨hjoin hid, fun h => hid (hslash.mp h)⟩

/-- Worked example for C25: the related id `42` has no separator, and the
file is created directly inside `uploads/images/users`. -/
theorem C25_related_id_separator_witness :
    (UploadTypeUserAvatar = UploadTypeUserAvatar ∨ UploadTypeUserAvatar = UploadTypeBabyAvatar) ∧
    '/' ∉ ("42" : String).data ∧
    (UploadFile asciiLower sampleUpload (some { Filename := "a.jpg", Size := 10 })
      UploadTypeUserAvatar "42" sampleUploadEnv).fs
      = [.MkdirAll "uploads/images/users", .Open "a.jpg",
         .Create "uploads/images/users/user_avatar_42_20240305_090701.jpg",
         .ReadFrom "uploads/images/users/user_avatar_42_20240305_090701.jpg"] ∧
    DirectlyInside (Join [sampleUpload.StoragePath, "images", getSubDir UploadTypeUserAvatar])
      (Join [Join [sampleUpload.StoragePath, "images", getSubDir UploadTypeUserAvatar],
        generateFilename "a.jpg" UploadTypeUserAvatar "42" sampleUploadEnv.now]) :=
  ⟨Or.inl rfl, by decide, by rfl,
    ((C25_related_id_separator asciiLower sampleUpload { Filename := "a.jpg", Size := 10 }
      UploadTypeUserAvatar "42" sampleUploadEnv (Or.inl rfl)).2.2.1 (by decide)).2⟩

end Polaris
